import Mathlib

/-!
# Application operator and HTTP handlers

A shallow embedding of the controller of the operator
(`operator/internal/controller`: `util.go`, `native_objects.go`, `tls_cert.go`,
`app_manager.go`, `application_controller.go`), together with the part of
`operator/api/v1alpha1/application_types.go` it reads, in the namespace `Operator`;
and of the handlers `AuthHandler.ValidateToken` and `OrderHandler.GetOrder`,
`UpdateOrder`, `DeleteOrder` of `backend/services`, in the namespace `Backend`.

Conventions of the embedding:

* a Go `string` is a Lean `String`; the only prefixes the code tests are ASCII, for
  which a byte prefix and a character prefix coincide;
* a Go `map[string]V` is an association list, read through `GoMap.lookup`, written
  through `GoMap.set`;
* an optional (pointer) field is an `Option`; dereferencing `none` is a panic;
* a Go `error` is an `Option GoError`, `none` being `nil`;
* the cluster is an explicit store of objects; every call made on the cluster client
  is recorded in order;
* a service behind an interface is a record of state-passing functions; every call a
  handler makes on it is recorded in order.
-/

set_option linter.dupNamespace false

namespace Operator

/-! ## Strings -/

/-- Go `strings.HasPrefix(s, pre)`. -/
def HasPrefix (s pre : String) : Bool :=
  pre.data.isPrefixOf s.data

/-- Go `strings.TrimPrefix(s, pre)`: `s` without the leading `pre`, or `s` itself. -/
def TrimPrefix (s pre : String) : String :=
  if HasPrefix s pre then String.mk (s.data.drop pre.data.length) else s

/-- Go `strings.Join(elems, sep)`. -/
def Join : List String → String → String
  | [], _ => ""
  | [a], _ => a
  | a :: rest, sep => rest.foldl (fun acc s => acc ++ sep ++ s) a

/-- Go `[]byte(s)`: the UTF-8 encoding of `s`. -/
def bytesOf (s : String) : List UInt8 :=
  s.data.flatMap String.utf8EncodeChar

/-! ## Maps -/

/-- A Go `map[string]V`, as an association list. -/
abbrev GoMap (V : Type) := List (String × V)

namespace GoMap

/-- Map read `m[k]`, with the presence flag. -/
def lookup {V : Type} (m : GoMap V) (k : String) : Option V :=
  match m with
  | [] => none
  | (k', v) :: rest => if k' = k then some v else lookup rest k

/-- Map write `m[k] = v`: the former binding of `k`, if any, is dropped. -/
def set {V : Type} (m : GoMap V) (k : String) (v : V) : GoMap V :=
  m.filter (fun e => decide (e.1 ≠ k)) ++ [(k, v)]

/-- Go `len(m)` for a map built by `set`, whose keys are pairwise distinct. -/
def len {V : Type} (m : GoMap V) : Nat :=
  m.length

/-- The keys of the map. -/
def keys {V : Type} (m : GoMap V) : List String :=
  m.map Prod.fst

/-- Equality of two maps as `equality.Semantic.DeepEqual` sees it: the same keys
bound to the same values, whatever the representation (a nil and an empty map are
equal). -/
def eqv {V : Type} [DecidableEq V] (m₁ m₂ : GoMap V) : Bool :=
  (keys m₁ ++ keys m₂).all (fun k => decide (lookup m₁ k = lookup m₂ k))

end GoMap

/-! ## The Application resource (`api/v1alpha1/application_types.go`) -/

/-- The `EnvVar` of the Application spec. -/
structure EnvVar where
  Name : String
  Value : String
  deriving DecidableEq, Repr

/-- The `ServiceSpec` of the Application spec. -/
structure ServiceSpec where
  Port : Int
  Type_ : String
  Annotations : GoMap String
  deriving DecidableEq, Repr

/-- The `IngressSpec` of the Application spec. -/
structure IngressSpec where
  Host : String
  Path : String
  Annotations : GoMap String
  deriving DecidableEq, Repr

/-- The `ResourceLimits` of the Application spec. -/
structure ResourceLimits where
  CPU : String
  Memory : String
  deriving DecidableEq, Repr

/-- The `ResourcesSpec` of the Application spec. -/
structure ResourcesSpec where
  Requests : Option ResourceLimits
  Limits : Option ResourceLimits
  deriving DecidableEq, Repr

/-- An ACME challenge solver of cert-manager, reduced to the ingress class name of its
HTTP-01 ingress solver (`HTTP01.Ingress.IngressClassName`). -/
structure ACMEChallengeSolver where
  HTTP01IngressClassName : Option String
  deriving DecidableEq, Repr

/-- The fields of cert-manager's `ACMEIssuer` that the controller reads or writes;
`PrivateKeyName` is `PrivateKey.Name`. -/
structure ACMEIssuer where
  Email : String
  Server : String
  PrivateKeyName : String
  Solvers : List ACMEChallengeSolver
  deriving DecidableEq, Repr

/-- The `Issuer` of the Application spec. -/
structure Issuer where
  ACMEIssuer : ACMEIssuer
  deriving DecidableEq, Repr

/-- The `TLS` section of the Application spec. -/
structure TLS where
  Enable : Bool
  Issuer : Option Issuer
  deriving DecidableEq, Repr

/-- The `ApplicationSpec`. -/
structure ApplicationSpec where
  Replicas : Option Int
  Image : Option String
  ContainerPort : Int
  Service : Option ServiceSpec
  Ingress : Option IngressSpec
  EnvVars : List EnvVar
  Resources : Option ResourcesSpec
  TLS : Option TLS
  deriving DecidableEq, Repr

/-- A `metav1.Condition`. -/
structure Condition where
  Type_ : String
  Status : String
  Reason : String
  Message : String
  LastTransitionTime : Nat
  deriving DecidableEq, Repr

/-- The `Application`: the object metadata the controller reads, spec and status. -/
structure Application where
  Name : String
  Namespace : String
  UID : String
  Finalizers : List String
  DeletionTimestamp : Option Nat
  Spec : ApplicationSpec
  Conditions : List Condition
  deriving DecidableEq, Repr

/-! ## Naming and data helpers (`util.go`) -/

/-- The `getConfigMapName` helper: `fmt.Sprintf("%s-config", app.Name)`. -/
def getConfigMapName (app : Application) : String := app.Name ++ "-config"

/-- The `getSecretName` helper: `fmt.Sprintf("%s-secret", app.Name)`. -/
def getSecretName (app : Application) : String := app.Name ++ "-secret"

/-- The `getDeploymentName` helper: `fmt.Sprintf("%s-deployment", app.Name)`. -/
def getDeploymentName (app : Application) : String := app.Name ++ "-deployment"

/-- The `getServiceName` helper: `fmt.Sprintf("%s-service", app.Name)`. -/
def getServiceName (app : Application) : String := app.Name ++ "-service"

/-- The `getIngressName` helper: `fmt.Sprintf("%s-ingress", app.Name)`. -/
def getIngressName (app : Application) : String := app.Name ++ "-ingress"

/-- The `getLabels` helper. -/
def getLabels (app : Application) : GoMap String :=
  [("app", app.Name), ("managed", "application-operator")]

/-- The `getSecretData` helper: one pass over the env vars, writing the prefixed ones. -/
def getSecretData (envVars : List EnvVar) (pre : String) : GoMap (List UInt8) :=
  envVars.foldl
    (fun data envVar =>
      if HasPrefix envVar.Name pre then
        data.set (TrimPrefix envVar.Name pre) (bytesOf envVar.Value)
      else data)
    []

/-- The `getConfigMapData` helper: one pass over the env vars, writing the prefixed ones. -/
def getConfigMapData (envVars : List EnvVar) (pre : String) : GoMap String :=
  envVars.foldl
    (fun data envVar =>
      if HasPrefix envVar.Name pre then
        data.set (TrimPrefix envVar.Name pre) envVar.Value
      else data)
    []

/-- The `issuerName` helper: `strings.Join([]string{"app", name, "issuer"}, "-")`. -/
def issuerName (rescourceName : String) : String :=
  Join ["app", rescourceName, "issuer"] "-"

/-- The `ingressClassName` helper. -/
def ingressClassName : String := "kong"

/-! ## Kubernetes objects written by the synchronizers -/

namespace metav1

/-- A `metav1.OwnerReference`. -/
structure OwnerReference where
  APIVersion : String
  Kind : String
  Name : String
  UID : String
  Controller : Option Bool
  BlockOwnerDeletion : Option Bool
  deriving DecidableEq, Repr

/-- The fields of `metav1.ObjectMeta` the synchronizers read or write. -/
structure ObjectMeta where
  Name : String
  Namespace : String
  Labels : GoMap String
  Annotations : GoMap String
  OwnerReferences : List OwnerReference
  deriving DecidableEq, Repr

/-- A `metav1.TypeMeta`. -/
structure TypeMeta where
  APIVersion : String
  Kind : String
  deriving DecidableEq, Repr

/-- A `metav1.LabelSelector` with match labels only. -/
structure LabelSelector where
  MatchLabels : GoMap String
  deriving DecidableEq, Repr

/-- Semantic equality of object metadata: maps are compared as maps. -/
def ObjectMeta.deepEqual (a b : ObjectMeta) : Bool :=
  decide (a.Name = b.Name) && decide (a.Namespace = b.Namespace)
    && GoMap.eqv a.Labels b.Labels && GoMap.eqv a.Annotations b.Annotations
    && decide (a.OwnerReferences = b.OwnerReferences)

end metav1

namespace corev1

/-- A `corev1.ConfigMap`. -/
structure ConfigMap where
  ObjectMeta : metav1.ObjectMeta
  Data : GoMap String
  deriving DecidableEq, Repr

/-- A `corev1.Secret`. -/
structure Secret where
  ObjectMeta : metav1.ObjectMeta
  Data : GoMap (List UInt8)
  deriving DecidableEq, Repr

/-- A `corev1.ConfigMapKeySelector`: the referenced object name and the key. -/
structure ConfigMapKeySelector where
  Name : String
  Key : String
  deriving DecidableEq, Repr

/-- A `corev1.SecretKeySelector`: the referenced object name and the key. -/
structure SecretKeySelector where
  Name : String
  Key : String
  deriving DecidableEq, Repr

/-- A `corev1.EnvVarSource`. -/
structure EnvVarSource where
  ConfigMapKeyRef : Option ConfigMapKeySelector
  SecretKeyRef : Option SecretKeySelector
  deriving DecidableEq, Repr

/-- A `corev1.EnvVar`: an unset `Value` is the empty string. -/
structure EnvVar where
  Name : String
  Value : String
  ValueFrom : Option EnvVarSource
  deriving DecidableEq, Repr

/-- A `corev1.ContainerPort`. -/
structure ContainerPort where
  ContainerPort : Int
  deriving DecidableEq, Repr

/-- A parsed `resource.Quantity`. -/
structure Quantity where
  canonical : String
  deriving DecidableEq, Repr

/-- A `corev1.ResourceRequirements`. -/
structure ResourceRequirements where
  Requests : GoMap Quantity
  Limits : GoMap Quantity
  deriving DecidableEq, Repr

/-- A `corev1.Container`. -/
structure Container where
  Name : String
  Image : String
  Ports : List ContainerPort
  Env : List EnvVar
  Resources : ResourceRequirements
  deriving DecidableEq, Repr

/-- A `corev1.PodSpec`. -/
structure PodSpec where
  Containers : List Container
  deriving DecidableEq, Repr

/-- A `corev1.PodTemplateSpec`. -/
structure PodTemplateSpec where
  Labels : GoMap String
  Spec : PodSpec
  deriving DecidableEq, Repr

/-- An `intstr.IntOrString`. -/
inductive IntOrString where
  | int (v : Int)
  | str (s : String)
  deriving DecidableEq, Repr

/-- A `corev1.ServicePort`. -/
structure ServicePort where
  Name : String
  Port : Int
  TargetPort : IntOrString
  Protocol : String
  deriving DecidableEq, Repr

/-- A `corev1.ServiceSpec`. -/
structure ServiceSpec where
  Selector : GoMap String
  Type_ : String
  Ports : List ServicePort
  deriving DecidableEq, Repr

/-- A `corev1.Service`. -/
structure Service where
  ObjectMeta : metav1.ObjectMeta
  Spec : ServiceSpec
  deriving DecidableEq, Repr

/-- The constant `corev1.ServiceTypeClusterIP`. -/
def ServiceTypeClusterIP : String := "ClusterIP"

/-- The constant `corev1.ProtocolTCP`. -/
def ProtocolTCP : String := "TCP"

/-- The constant `corev1.ResourceCPU`. -/
def ResourceCPU : String := "cpu"

/-- The constant `corev1.ResourceMemory`. -/
def ResourceMemory : String := "memory"

/-- Semantic equality of ConfigMaps. -/
def ConfigMap.deepEqual (a b : ConfigMap) : Bool :=
  a.ObjectMeta.deepEqual b.ObjectMeta && GoMap.eqv a.Data b.Data

/-- Semantic equality of Secrets. -/
def Secret.deepEqual (a b : Secret) : Bool :=
  a.ObjectMeta.deepEqual b.ObjectMeta && GoMap.eqv a.Data b.Data

/-- Semantic equality of Services. -/
def Service.deepEqual (a b : Service) : Bool :=
  a.ObjectMeta.deepEqual b.ObjectMeta && GoMap.eqv a.Spec.Selector b.Spec.Selector
    && decide (a.Spec.Type_ = b.Spec.Type_) && decide (a.Spec.Ports = b.Spec.Ports)

end corev1

namespace appsv1

/-- An `appsv1.DeploymentSpec`. -/
structure DeploymentSpec where
  Replicas : Option Int
  Selector : Option metav1.LabelSelector
  Template : corev1.PodTemplateSpec
  deriving DecidableEq, Repr

/-- An `appsv1.Deployment`. -/
structure Deployment where
  TypeMeta : metav1.TypeMeta
  ObjectMeta : metav1.ObjectMeta
  Spec : DeploymentSpec
  deriving DecidableEq, Repr

end appsv1

namespace networkingv1

/-- A `networkingv1.ServiceBackendPort`. -/
structure ServiceBackendPort where
  Name : String
  Number : Int
  deriving DecidableEq, Repr

/-- A `networkingv1.IngressServiceBackend`. -/
structure IngressServiceBackend where
  Name : String
  Port : ServiceBackendPort
  deriving DecidableEq, Repr

/-- A `networkingv1.IngressBackend`. -/
structure IngressBackend where
  Service : Option IngressServiceBackend
  deriving DecidableEq, Repr

/-- A `networkingv1.HTTPIngressPath`. -/
structure HTTPIngressPath where
  Path : String
  PathType : Option String
  Backend : IngressBackend
  deriving DecidableEq, Repr

/-- A `networkingv1.HTTPIngressRuleValue`. -/
structure HTTPIngressRuleValue where
  Paths : List HTTPIngressPath
  deriving DecidableEq, Repr

/-- A `networkingv1.IngressRule`. -/
structure IngressRule where
  Host : String
  HTTP : Option HTTPIngressRuleValue
  deriving DecidableEq, Repr

/-- A `networkingv1.IngressTLS`. -/
structure IngressTLS where
  Hosts : List String
  SecretName : String
  deriving DecidableEq, Repr

/-- A `networkingv1.IngressSpec`. -/
structure IngressSpec where
  IngressClassName : Option String
  Rules : List IngressRule
  TLS : List IngressTLS
  deriving DecidableEq, Repr

/-- A `networkingv1.Ingress`. -/
structure Ingress where
  ObjectMeta : metav1.ObjectMeta
  Spec : IngressSpec
  deriving DecidableEq, Repr

/-- The constant `networkingv1.PathTypePrefix`. -/
def PathTypePrefix : String := "Prefix"

/-- Semantic equality of Ingresses. -/
def Ingress.deepEqual (a b : Ingress) : Bool :=
  a.ObjectMeta.deepEqual b.ObjectMeta && decide (a.Spec = b.Spec)

end networkingv1

/-! ## Errors -/

/-- A Go `error` value: its message, and whether `errors.IsNotFound` holds of it. -/
structure GoError where
  msg : String
  notFound : Bool
  deriving DecidableEq, Repr

/-- Go `fmt.Errorf(pre ++ "%w", err)`: always an error value, also when `err` is `nil`
(the verb then prints `%!w(<nil>)`); `errors.IsNotFound` sees through the wrapping. -/
def Errorf (pre : String) (err : Option GoError) : GoError :=
  match err with
  | some e => { msg := pre ++ e.msg, notFound := e.notFound }
  | none => { msg := pre ++ "%!w(<nil>)", notFound := false }

/-- How a call of a synchronizer ends: it returns an `error` (possibly `nil`), or it
panics on a nil dereference. -/
inductive Result where
  | returned (err : Option GoError)
  | panicked
  deriving DecidableEq, Repr

/-! ## The cluster store and its client -/

/-- A condition of a cert-manager issuer status. -/
structure IssuerCondition where
  Type_ : String
  Status : String
  deriving DecidableEq, Repr

/-- A cert-manager `ClusterIssuer`: name, namespace, `Spec.ACME` (a pointer) and the
status conditions. -/
structure ClusterIssuer where
  Name : String
  Namespace : String
  ACME : Option ACMEIssuer
  Conditions : List IssuerCondition
  deriving DecidableEq, Repr

/-- The kinds of managed child resources, the Application itself and the external
issuer. -/
inductive Kind where
  | ConfigMap
  | Secret
  | Deployment
  | Service
  | Ingress
  | Application
  | ClusterIssuer
  deriving DecidableEq, Repr

/-- An object of one of the kinds. -/
inductive Object where
  | configMap (o : corev1.ConfigMap)
  | secret (o : corev1.Secret)
  | deployment (o : appsv1.Deployment)
  | service (o : corev1.Service)
  | ingress (o : networkingv1.Ingress)
  | application (o : Application)
  | clusterIssuer (o : ClusterIssuer)
  deriving DecidableEq, Repr

/-- A call on the cluster client or on the cert-manager clientset. `patch` is a
server-side apply, `updateStatus` an update of the status subresource. -/
inductive ApiCall where
  | get (kind : Kind) (ns name : String)
  | create (obj : Object)
  | update (obj : Object)
  | patch (obj : Object)
  | delete (obj : Object)
  | updateStatus (obj : Object)
  deriving DecidableEq, Repr

/-- A call that writes to the cluster: anything but a read. -/
def ApiCall.isWrite : ApiCall → Bool
  | .get _ _ _ => false
  | _ => true

/-- The objects held by the cluster: the managed kinds and the Applications, each kind
keyed by namespace and name, and the cluster-scoped issuers, keyed by name. -/
structure Cluster where
  configMaps : List corev1.ConfigMap
  secrets : List corev1.Secret
  deployments : List appsv1.Deployment
  services : List corev1.Service
  ingresses : List networkingv1.Ingress
  applications : List Application
  issuers : List ClusterIssuer
  deriving DecidableEq, Repr

/-- What the generic client needs to know of an object type. -/
class Resource (α : Type) where
  kind : Kind
  objectMeta : α → metav1.ObjectMeta
  wrap : α → Object
  sel : Cluster → List α
  upd : Cluster → List α → Cluster
  deepEqual : α → α → Bool

instance : Resource corev1.ConfigMap where
  kind := .ConfigMap
  objectMeta o := o.ObjectMeta
  wrap := .configMap
  sel c := c.configMaps
  upd c l := { c with configMaps := l }
  deepEqual := corev1.ConfigMap.deepEqual

instance : Resource corev1.Secret where
  kind := .Secret
  objectMeta o := o.ObjectMeta
  wrap := .secret
  sel c := c.secrets
  upd c l := { c with secrets := l }
  deepEqual := corev1.Secret.deepEqual

instance : Resource appsv1.Deployment where
  kind := .Deployment
  objectMeta o := o.ObjectMeta
  wrap := .deployment
  sel c := c.deployments
  upd c l := { c with deployments := l }
  deepEqual a b := decide (a = b)

instance : Resource corev1.Service where
  kind := .Service
  objectMeta o := o.ObjectMeta
  wrap := .service
  sel c := c.services
  upd c l := { c with services := l }
  deepEqual := corev1.Service.deepEqual

instance : Resource networkingv1.Ingress where
  kind := .Ingress
  objectMeta o := o.ObjectMeta
  wrap := .ingress
  sel c := c.ingresses
  upd c l := { c with ingresses := l }
  deepEqual := networkingv1.Ingress.deepEqual

instance : Resource Application where
  kind := .Application
  objectMeta o :=
    { Name := o.Name, Namespace := o.Namespace, Labels := [], Annotations := [],
      OwnerReferences := [] }
  wrap := .application
  sel c := c.applications
  upd c l := { c with applications := l }
  deepEqual a b := decide (a = b)

/-- Whether the object sits under the key `(ns, name)`. -/
def hasKey {α : Type} [Resource α] (ns name : String) (o : α) : Bool :=
  decide ((Resource.objectMeta o).Namespace = ns) && decide ((Resource.objectMeta o).Name = name)

/-- The stored object under a key, if any. -/
def Cluster.find {α : Type} [Resource α] (c : Cluster) (ns name : String) : Option α :=
  (Resource.sel c).find? (hasKey ns name)

/-- The store with `o` added at the end. -/
def Cluster.insert {α : Type} [Resource α] (c : Cluster) (o : α) : Cluster :=
  Resource.upd c (Resource.sel c ++ [o])

/-- The store with the objects under the key of `o` replaced by `o`. -/
def Cluster.replace {α : Type} [Resource α] (c : Cluster) (o : α) : Cluster :=
  Resource.upd c ((Resource.sel c : List α).map (fun x =>
    if hasKey (Resource.objectMeta o).Namespace (Resource.objectMeta o).Name x then o else x))

/-- The store without the objects under the key of `o`. -/
def Cluster.erase {α : Type} [Resource α] (c : Cluster) (o : α) : Cluster :=
  Resource.upd c ((Resource.sel c : List α).filter (fun x =>
    !hasKey (Resource.objectMeta o).Namespace (Resource.objectMeta o).Name x))

/-- The cert-manager clientset: a second client on the same cluster, with failures
of its own; a call for which `fault` gives a message fails with an error of that
message, other than not-found, and leaves the store as it is. -/
structure Clientset where
  fault : ApiCall → Option String

/-- The reconciler and what it reaches through its fields.

* `GroupVersion` is `appsv1alpha1.GroupVersion.String()`, declared outside the
  embedded files.
* `MustParse` is `resource.MustParse`, `none` being its panic on a malformed quantity.
* `fault` is the behaviour of the embedded `client.Client` beyond the store: a call
  for which it gives a message fails with an error of that message, other than
  not-found, and leaves the store as it is.
* `CertManagerClientSet` is the cert-manager clientset, `none` when the field is nil.
* `found`, `trueValue` and `applicationFinalizer` are the package constants of these
  names, declared outside the embedded files. -/
structure ApplicationReconciler where
  GroupVersion : String
  MustParse : String → Option corev1.Quantity
  fault : ApiCall → Option String
  CertManagerClientSet : Option Clientset
  found : String
  trueValue : String
  applicationFinalizer : String

/-- The error of a read or write on an absent object. -/
def errNotFound (name : String) : GoError :=
  { msg := name ++ " not found", notFound := true }

/-- The error of a call that failed for a reason other than the state of the store. -/
def errFault (msg : String) : GoError :=
  { msg := msg, notFound := false }

/-- The error of a create on a present object. -/
def errAlreadyExists (name : String) : GoError :=
  { msg := name ++ " already exists", notFound := false }

/-- Client `Get`: the stored object, or an error. -/
def ApplicationReconciler.Get {α : Type} [Resource α] (r : ApplicationReconciler) (c : Cluster)
    (ns name : String) : Except GoError α :=
  match r.fault (.get (Resource.kind α) ns name) with
  | some e => .error (errFault e)
  | none =>
    match (c.find ns name : Option α) with
    | some o => .ok o
    | none => .error (errNotFound name)

/-- Client `Create`: the new store and the error. -/
def ApplicationReconciler.Create {α : Type} [Resource α] (r : ApplicationReconciler) (c : Cluster)
    (o : α) : Cluster × Option GoError :=
  match r.fault (.create (Resource.wrap o)) with
  | some e => (c, some (errFault e))
  | none =>
    match (c.find (Resource.objectMeta o).Namespace (Resource.objectMeta o).Name : Option α) with
    | some _ => (c, some (errAlreadyExists (Resource.objectMeta o).Name))
    | none => (c.insert o, none)

/-- Client `Update`: the new store and the error. -/
def ApplicationReconciler.Update {α : Type} [Resource α] (r : ApplicationReconciler) (c : Cluster)
    (o : α) : Cluster × Option GoError :=
  match r.fault (.update (Resource.wrap o)) with
  | some e => (c, some (errFault e))
  | none =>
    match (c.find (Resource.objectMeta o).Namespace (Resource.objectMeta o).Name : Option α) with
    | some _ => (c.replace o, none)
    | none => (c, some (errNotFound (Resource.objectMeta o).Name))

/-- Client `Delete`: the new store and the error. -/
def ApplicationReconciler.Delete {α : Type} [Resource α] (r : ApplicationReconciler) (c : Cluster)
    (o : α) : Cluster × Option GoError :=
  match r.fault (.delete (Resource.wrap o)) with
  | some e => (c, some (errFault e))
  | none =>
    match (c.find (Resource.objectMeta o).Namespace (Resource.objectMeta o).Name : Option α) with
    | some _ => (c.erase o, none)
    | none => (c, some (errNotFound (Resource.objectMeta o).Name))

/-- Client `Patch` with `client.Apply` and forced ownership: the applied object is
created when absent and overwrites the stored one otherwise. -/
def ApplicationReconciler.Patch {α : Type} [Resource α] (r : ApplicationReconciler) (c : Cluster)
    (o : α) : Cluster × Option GoError :=
  match r.fault (.patch (Resource.wrap o)) with
  | some e => (c, some (errFault e))
  | none =>
    match (c.find (Resource.objectMeta o).Namespace (Resource.objectMeta o).Name : Option α) with
    | some _ => (c.replace o, none)
    | none => (c.insert o, none)

/-- The state a synchronizer leaves: the store, the client calls it issued in order,
and how it ended. -/
structure Outcome where
  cluster : Cluster
  calls : List ApiCall
  result : Result
  deriving DecidableEq, Repr

/-- The `controllerutil.OperationResult`. -/
inductive OperationResult where
  | None
  | Created
  | Updated
  deriving DecidableEq, Repr

/-- The wrapper `mutate` of `controllerutil`: runs the mutate function (`none` is a
panic inside it, the function itself never returns an error here) and rejects a
change of the object key. -/
def mutate {α : Type} [Resource α] (f : α → Option α) (ns name : String) (obj : α) :
    Option (Except GoError α) :=
  match f obj with
  | none => none
  | some o =>
    if hasKey ns name o then some (.ok o)
    else some (.error
      { msg := "MutateFn cannot mutate object name and/or object namespace", notFound := false })

/-- The library `controllerutil.CreateOrUpdate(ctx, r.Client, obj, f)`. -/
def CreateOrUpdate {α : Type} [Resource α] (r : ApplicationReconciler) (c : Cluster) (obj : α)
    (f : α → Option α) : OperationResult × Outcome :=
  let ns := (Resource.objectMeta obj).Namespace
  let name := (Resource.objectMeta obj).Name
  let get : ApiCall := .get (Resource.kind α) ns name
  match (r.Get c ns name : Except GoError α) with
  | .error e =>
    if !e.notFound then (.None, ⟨c, [get], .returned (some e)⟩)
    else
      match mutate f ns name obj with
      | none => (.None, ⟨c, [get], .panicked⟩)
      | some (.error e') => (.None, ⟨c, [get], .returned (some e')⟩)
      | some (.ok o) =>
        match r.Create c o with
        | (c', some e') => (.None, ⟨c', [get, .create (Resource.wrap o)], .returned (some e')⟩)
        | (c', none) => (.Created, ⟨c', [get, .create (Resource.wrap o)], .returned none⟩)
  | .ok existing =>
    match mutate f ns name existing with
    | none => (.None, ⟨c, [get], .panicked⟩)
    | some (.error e') => (.None, ⟨c, [get], .returned (some e')⟩)
    | some (.ok o) =>
      if Resource.deepEqual existing o then (.None, ⟨c, [get], .returned none⟩)
      else
        match r.Update c o with
        | (c', some e') => (.None, ⟨c', [get, .update (Resource.wrap o)], .returned (some e')⟩)
        | (c', none) => (.Updated, ⟨c', [get, .update (Resource.wrap o)], .returned none⟩)

/-! ## The synchronizers (`native_objects.go`) -/

/-- The library `metav1.NewControllerRef(app, GroupVersion.WithKind("Application"))`. -/
def ApplicationReconciler.NewControllerRef (r : ApplicationReconciler) (app : Application) :
    metav1.OwnerReference :=
  { APIVersion := r.GroupVersion, Kind := "Application", Name := app.Name, UID := app.UID,
    Controller := some true, BlockOwnerDeletion := some true }

/-- Keeps a synchronizer's outcome, wrapping a non-nil error as
`fmt.Errorf(pre ++ "%w", err)`. -/
def Outcome.wrapErr (out : Outcome) (pre : String) : Outcome :=
  match out.result with
  | .returned (some err) => { out with result := .returned (some (Errorf pre (some err))) }
  | _ => out

/-- The `reconcileConfigMap` synchronizer. -/
def ApplicationReconciler.reconcileConfigMap (r : ApplicationReconciler) (c : Cluster)
    (app : Application) : Outcome :=
  let configMap : corev1.ConfigMap :=
    { ObjectMeta :=
        { Name := getConfigMapName app, Namespace := app.Namespace, Labels := [],
          Annotations := [], OwnerReferences := [r.NewControllerRef app] },
      Data := [] }
  let configMapData := getConfigMapData app.Spec.EnvVars "CM_"
  if configMapData.len = 0 then
    let get : ApiCall := .get .ConfigMap app.Namespace (getConfigMapName app)
    match (r.Get c app.Namespace (getConfigMapName app) : Except GoError corev1.ConfigMap) with
    | .error err =>
      if !err.notFound then
        ⟨c, [get], .returned (some (Errorf "failed to get ConfigMap: " (some err)))⟩
      else ⟨c, [get], .returned none⟩
    | .ok stored =>
      let del := r.Delete c stored
      ⟨del.1, [get, .delete (.configMap stored)],
        .returned (some (Errorf
          "configmap found but there is no configmap in env, failed to delete ConfigMap: "
          del.2))⟩
  else
    (CreateOrUpdate r c configMap (fun cm =>
      some { cm with
        ObjectMeta := { cm.ObjectMeta with Labels := getLabels app }
        Data := configMapData })).2.wrapErr "failed to reconcile ConfigMap: "

/-- The `reconcileSecret` synchronizer. -/
def ApplicationReconciler.reconcileSecret (r : ApplicationReconciler) (c : Cluster)
    (app : Application) : Outcome :=
  let secret : corev1.Secret :=
    { ObjectMeta :=
        { Name := getSecretName app, Namespace := app.Namespace, Labels := [],
          Annotations := [], OwnerReferences := [r.NewControllerRef app] },
      Data := [] }
  let secretData := getSecretData app.Spec.EnvVars "SEC_"
  if secretData.len = 0 then
    let get : ApiCall := .get .Secret app.Namespace (getSecretName app)
    match (r.Get c app.Namespace (getSecretName app) : Except GoError corev1.Secret) with
    | .error err =>
      if !err.notFound then
        ⟨c, [get], .returned (some (Errorf "failed to get Secret: " (some err)))⟩
      else ⟨c, [get], .returned none⟩
    | .ok stored =>
      let del := r.Delete c stored
      ⟨del.1, [get, .delete (.secret stored)],
        .returned (some (Errorf
          "secret found but there is no secret in env, failed to delete Secret: " del.2))⟩
  else
    (CreateOrUpdate r c secret (fun sec =>
      some { sec with
        ObjectMeta := { sec.ObjectMeta with Labels := getLabels app }
        Data := secretData })).2.wrapErr "failed to reconcile Secret: "

/-- Step 1 of `reconcileDeployment`: the loop that builds the container env list. -/
def deploymentEnvVars (app : Application) : List corev1.EnvVar :=
  app.Spec.EnvVars.foldl
    (fun envVars envVar =>
      if HasPrefix envVar.Name "CM_" then
        let cleanKey := TrimPrefix envVar.Name "CM_"
        envVars ++ [{ Name := cleanKey, Value := "",
                      ValueFrom := some
                        { ConfigMapKeyRef := some { Name := getConfigMapName app, Key := cleanKey },
                          SecretKeyRef := none } }]
      else if HasPrefix envVar.Name "SEC_" then
        let cleanKey := TrimPrefix envVar.Name "SEC_"
        envVars ++ [{ Name := cleanKey, Value := "",
                      ValueFrom := some
                        { ConfigMapKeyRef := none,
                          SecretKeyRef := some { Name := getSecretName app, Key := cleanKey } } }]
      else
        envVars ++ [{ Name := envVar.Name, Value := envVar.Value, ValueFrom := none }])
    []

/-- One guarded write of `buildResourceRequirements`:
`if s != "" { m[key] = resource.MustParse(s) }`; `none` is the panic of `MustParse`. -/
def ApplicationReconciler.setQuantity (r : ApplicationReconciler) (m : GoMap corev1.Quantity)
    (key s : String) : Option (GoMap corev1.Quantity) :=
  if s ≠ "" then (r.MustParse s).map (fun q => m.set key q) else some m

/-- The CPU and memory writes of `buildResourceRequirements` for one optional section. -/
def ApplicationReconciler.resourceList (r : ApplicationReconciler)
    (limits : Option ResourceLimits) : Option (GoMap corev1.Quantity) :=
  match limits with
  | none => some []
  | some l =>
    (r.setQuantity [] corev1.ResourceCPU l.CPU).bind
      (fun m => r.setQuantity m corev1.ResourceMemory l.Memory)

/-- The `buildResourceRequirements` helper of `util.go`; `none` is a panic. -/
def ApplicationReconciler.buildResourceRequirements (r : ApplicationReconciler)
    (resources : Option ResourcesSpec) : Option corev1.ResourceRequirements :=
  match resources with
  | none => some { Requests := [], Limits := [] }
  | some res =>
    (r.resourceList res.Requests).bind (fun requests =>
      (r.resourceList res.Limits).bind (fun limits =>
        some { Requests := requests, Limits := limits }))

/-- Step 2 of `reconcileDeployment`: the Deployment literal. `none` is the panic of
dereferencing an unset `spec.image` or of `MustParse`. -/
def ApplicationReconciler.buildDeployment (r : ApplicationReconciler) (app : Application) :
    Option appsv1.Deployment :=
  match app.Spec.Image with
  | none => none
  | some image =>
    match r.buildResourceRequirements app.Spec.Resources with
    | none => none
    | some resources =>
      some
        { TypeMeta := { APIVersion := "apps/v1", Kind := "Deployment" },
          ObjectMeta :=
            { Name := getDeploymentName app, Namespace := app.Namespace,
              Labels := getLabels app, Annotations := [],
              OwnerReferences := [r.NewControllerRef app] },
          Spec :=
            { Replicas := app.Spec.Replicas,
              Selector := some { MatchLabels := getLabels app },
              Template :=
                { Labels := getLabels app,
                  Spec :=
                    { Containers :=
                        [{ Name := app.Name, Image := image,
                           Ports := [{ ContainerPort := app.Spec.ContainerPort }],
                           Env := deploymentEnvVars app,
                           Resources := resources }] } } } }

/-- The `reconcileDeployment` synchronizer. -/
def ApplicationReconciler.reconcileDeployment (r : ApplicationReconciler) (c : Cluster)
    (app : Application) : Outcome :=
  match r.buildDeployment app with
  | none => ⟨c, [], .panicked⟩
  | some deployment =>
    let applied := r.Patch c deployment
    match applied.2 with
    | some err =>
      ⟨applied.1, [.patch (.deployment deployment)],
        .returned (some (Errorf "failed to patch Deployment: " (some err)))⟩
    | none => ⟨applied.1, [.patch (.deployment deployment)], .returned none⟩

/-- The `reconcileService` synchronizer. -/
def ApplicationReconciler.reconcileService (r : ApplicationReconciler) (c : Cluster)
    (app : Application) : Outcome :=
  match app.Spec.Service with
  | none => ⟨c, [], .returned none⟩
  | some svc =>
    let service : corev1.Service :=
      { ObjectMeta :=
          { Name := getServiceName app, Namespace := app.Namespace, Labels := [],
            Annotations := [], OwnerReferences := [] },
        Spec := { Selector := [], Type_ := "", Ports := [] } }
    (CreateOrUpdate r c service (fun service =>
      some
        { ObjectMeta :=
            { service.ObjectMeta with
              Labels := getLabels app
              OwnerReferences := [r.NewControllerRef app]
              Annotations := svc.Annotations },
          Spec :=
            { service.Spec with
              Selector := getLabels app
              Type_ := if svc.Type_ ≠ "" then svc.Type_ else corev1.ServiceTypeClusterIP
              Ports :=
                [{ Name := "http", Port := svc.Port,
                   TargetPort := .int app.Spec.ContainerPort,
                   Protocol := corev1.ProtocolTCP }] } })).2.wrapErr
      "failed to reconcile Service: "

/-- The `reconcileIngress` synchronizer. -/
def ApplicationReconciler.reconcileIngress (r : ApplicationReconciler) (c : Cluster)
    (app : Application) : Outcome :=
  match app.Spec.Ingress with
  | none =>
    let get : ApiCall := .get .Ingress app.Namespace (getIngressName app)
    match (r.Get c app.Namespace (getIngressName app) : Except GoError networkingv1.Ingress) with
    | .error err =>
      if !err.notFound then
        ⟨c, [get], .returned (some (Errorf "failed to get Ingress: " (some err)))⟩
      else ⟨c, [get], .returned none⟩
    | .ok stored =>
      let del := r.Delete c stored
      ⟨del.1, [get, .delete (.ingress stored)],
        .returned (some (Errorf "failed to delete Ingress: " del.2))⟩
  | some ing =>
    let ingress : networkingv1.Ingress :=
      { ObjectMeta :=
          { Name := getIngressName app, Namespace := app.Namespace, Labels := [],
            Annotations := [], OwnerReferences := [] },
        Spec := { IngressClassName := none, Rules := [], TLS := [] } }
    (CreateOrUpdate r c ingress (fun ingress =>
      match app.Spec.Service with
      | none => none
      | some svc =>
        some
          { ObjectMeta :=
              { ingress.ObjectMeta with
                Labels := getLabels app
                OwnerReferences := [r.NewControllerRef app]
                Annotations := ing.Annotations },
            Spec :=
              { ingress.Spec with
                IngressClassName := some ingressClassName
                Rules :=
                  [{ Host := ing.Host,
                     HTTP := some
                       { Paths :=
                           [{ Path := ing.Path,
                              PathType := some networkingv1.PathTypePrefix,
                              Backend :=
                                { Service := some
                                    { Name := getServiceName app,
                                      Port := { Name := "", Number := svc.Port } } } }] } }] } })).2.wrapErr
      "failed to reconcile Ingress: "

/-- A reconciler whose client never fails beyond what the store dictates and whose
quantity parser accepts every string. -/
def plainReconciler : ApplicationReconciler :=
  { GroupVersion := "apps.example.com/v1alpha1",
    MustParse := fun s => some ⟨s⟩,
    fault := fun _ => none,
    CertManagerClientSet := some { fault := fun _ => none },
    found := "Found",
    trueValue := "True",
    applicationFinalizer := "apps.example.com/finalizer" }

/-- The empty cluster. -/
def Cluster.empty : Cluster := ⟨[], [], [], [], [], [], []⟩

/-- The Application of the end-to-end scenario. -/
def demoApp : Application :=
  { Name := "demo", Namespace := "ns1", UID := "uid-1", Finalizers := [],
    DeletionTimestamp := none,
    Spec :=
      { Replicas := some 1, Image := some "x:1", ContainerPort := 8080,
        Service := some { Port := 80, Type_ := "", Annotations := [] },
        Ingress := some { Host := "demo.example.com", Path := "/", Annotations := [] },
        EnvVars := [⟨"CM_MODE", "prod"⟩], Resources := none, TLS := none },
    Conditions := [] }

/-- The object a call writes: the payload of a create, an update or a patch. -/
def ApiCall.written : ApiCall → Option Object
  | .create o => some o
  | .update o => some o
  | .patch o => some o
  | _ => none

/-- The metadata of an object of any managed kind. -/
def Object.objectMeta : Object → metav1.ObjectMeta
  | .configMap o => o.ObjectMeta
  | .secret o => o.ObjectMeta
  | .deployment o => o.ObjectMeta
  | .service o => o.ObjectMeta
  | .ingress o => o.ObjectMeta
  | .application o =>
    { Name := o.Name, Namespace := o.Namespace, Labels := [], Annotations := [],
      OwnerReferences := [] }
  | .clusterIssuer o =>
    { Name := o.Name, Namespace := o.Namespace, Labels := [], Annotations := [],
      OwnerReferences := [] }

/-- The objects a synchronizer wrote, in order. -/
def Outcome.written (out : Outcome) : List Object :=
  out.calls.filterMap ApiCall.written

/-- The laws of the store accessors and of semantic equality. -/
class LawfulResource (α : Type) [Resource α] : Prop where
  sel_upd : ∀ (c : Cluster) (l : List α), Resource.sel (Resource.upd c l) = l
  upd_upd : ∀ (c : Cluster) (l l' : List α), Resource.upd (Resource.upd c l) l' = Resource.upd c l'
  deepEqual_refl : ∀ x : α, Resource.deepEqual x x = true

/-- An owner reference to an earlier incarnation of the Application `demo`. -/
def staleRef : metav1.OwnerReference :=
  { APIVersion := "apps.example.com/v1alpha1", Kind := "Application", Name := "demo",
    UID := "uid-0", Controller := some true, BlockOwnerDeletion := some true }

/-- A cluster that already holds `demo-config`, owned by the earlier incarnation. -/
def staleCluster : Cluster :=
  { Cluster.empty with
    configMaps :=
      [{ ObjectMeta :=
           { Name := "demo-config", Namespace := "ns1", Labels := getLabels demoApp,
             Annotations := [], OwnerReferences := [staleRef] },
         Data := [("MODE", "dev")] }] }

/-- A cluster that already holds `demo-secret`, owned by the earlier incarnation. -/
def staleSecretCluster : Cluster :=
  { Cluster.empty with
    secrets :=
      [{ ObjectMeta :=
           { Name := "demo-secret", Namespace := "ns1", Labels := getLabels demoApp,
             Annotations := [], OwnerReferences := [staleRef] },
         Data := [("KEY", bytesOf "old")] }] }

/-- The demo Application with one secret env var. -/
def secretApp : Application :=
  { demoApp with Spec := { demoApp.Spec with EnvVars := [⟨"SEC_KEY", "new"⟩] } }

/-- The stored object under the key is a fixed point of the mutate function, up to
semantic equality. -/
def Settled {α : Type} [Resource α] (c : Cluster) (ns name : String) (f : α → Option α) : Prop :=
  ∃ o o' : α, c.find ns name = some o ∧ f o = some o' ∧ hasKey ns name o' = true
    ∧ Resource.deepEqual o o' = true

/-- The same reconciler, its client failing on other calls. -/
def ApplicationReconciler.withFault (r : ApplicationReconciler) (fault : ApiCall → Option String) :
    ApplicationReconciler :=
  { r with fault := fault }

/-- An Application whose env list names `FOO` twice: once routed to the ConfigMap,
once as a literal. -/
def fooApp : Application :=
  { demoApp with
    Spec := { demoApp.Spec with EnvVars := [⟨"CM_FOO", "bar"⟩, ⟨"FOO", "baz"⟩] } }

/-- The ConfigMap key reference of an env entry. -/
def configMapRef (name key : String) : Option corev1.EnvVarSource :=
  some { ConfigMapKeyRef := some { Name := name, Key := key }, SecretKeyRef := none }

/-! ## The cert-manager clientset (`ClusterIssuers()`) -/

/-- The object a typed clientset call hands back when it fails: a fresh, empty
`ClusterIssuer` (never a nil pointer). -/
def ClusterIssuer.empty : ClusterIssuer :=
  { Name := "", Namespace := "", ACME := none, Conditions := [] }

/-- The stored issuer of that name, if any; issuers are cluster-scoped. -/
def Cluster.findIssuer (c : Cluster) (name : String) : Option ClusterIssuer :=
  c.issuers.find? (fun i => decide (i.Name = name))

/-- Clientset `Get(ctx, name, opts)`: the issuer and the error. -/
def Clientset.Get (cs : Clientset) (c : Cluster) (name : String) :
    ClusterIssuer × Option GoError :=
  match cs.fault (.get .ClusterIssuer "" name) with
  | some m => (ClusterIssuer.empty, some (errFault m))
  | none =>
    match c.findIssuer name with
    | some issuer => (issuer, none)
    | none => (ClusterIssuer.empty, some (errNotFound name))

/-- Clientset `Create(ctx, issuer, opts)`: the new store, the issuer as the server
returns it, and the error. -/
def Clientset.Create (cs : Clientset) (c : Cluster) (issuer : ClusterIssuer) :
    Cluster × ClusterIssuer × Option GoError :=
  match cs.fault (.create (.clusterIssuer issuer)) with
  | some m => (c, ClusterIssuer.empty, some (errFault m))
  | none =>
    match c.findIssuer issuer.Name with
    | some _ => (c, ClusterIssuer.empty, some (errAlreadyExists issuer.Name))
    | none => ({ c with issuers := c.issuers ++ [issuer] }, issuer, none)

/-- Clientset `Update(ctx, issuer, opts)`: the new store, the issuer as the server
returns it, and the error. -/
def Clientset.Update (cs : Clientset) (c : Cluster) (issuer : ClusterIssuer) :
    Cluster × ClusterIssuer × Option GoError :=
  match cs.fault (.update (.clusterIssuer issuer)) with
  | some m => (c, ClusterIssuer.empty, some (errFault m))
  | none =>
    match c.findIssuer issuer.Name with
    | some _ =>
      ({ c with issuers := c.issuers.map (fun x => if x.Name = issuer.Name then issuer else x) },
        issuer, none)
    | none => (c, ClusterIssuer.empty, some (errNotFound issuer.Name))

/-- Clientset `Delete(ctx, issuer.Name, opts)`: the new store and the error. An empty
name is refused by the request builder. -/
def Clientset.Delete (cs : Clientset) (c : Cluster) (issuer : ClusterIssuer) :
    Cluster × Option GoError :=
  if issuer.Name = "" then
    (c, some { msg := "resource name may not be empty", notFound := false })
  else
    match cs.fault (.delete (.clusterIssuer issuer)) with
    | some m => (c, some (errFault m))
    | none =>
      match c.findIssuer issuer.Name with
      | some _ =>
        ({ c with issuers := c.issuers.filter (fun x => decide (x.Name ≠ issuer.Name)) }, none)
      | none => (c, some (errNotFound issuer.Name))

/-! ## The Application in the store -/

/-- Whether `DeletionTimestamp.IsZero()`: a nil or a zero time. -/
def isZero (t : Option Nat) : Bool :=
  match t with
  | none => true
  | some n => n == 0

/-- Client `Update` of an Application. The status subresource being enabled, the
stored status is kept; an Application under deletion whose last finalizer is gone is
removed from the store. Gives the new store, the Application as the server returns
it, and the error. -/
def ApplicationReconciler.UpdateApplication (r : ApplicationReconciler) (c : Cluster)
    (app : Application) : Cluster × Application × Option GoError :=
  match r.fault (.update (.application app)) with
  | some m => (c, app, some (errFault m))
  | none =>
    match (c.find app.Namespace app.Name : Option Application) with
    | none => (c, app, some (errNotFound app.Name))
    | some stored =>
      let app' := { app with Conditions := stored.Conditions }
      if !isZero app'.DeletionTimestamp && app'.Finalizers.isEmpty then (c.erase app', app', none)
      else (c.replace app', app', none)

/-- Client `Status().Update` of an Application: only the status of the stored object
changes. Gives the new store, the Application as the server returns it, and the
error. -/
def ApplicationReconciler.UpdateStatus (r : ApplicationReconciler) (c : Cluster)
    (app : Application) : Cluster × Application × Option GoError :=
  match r.fault (.updateStatus (.application app)) with
  | some m => (c, app, some (errFault m))
  | none =>
    match (c.find app.Namespace app.Name : Option Application) with
    | none => (c, app, some (errNotFound app.Name))
    | some stored =>
      let app' := { stored with Conditions := app.Conditions }
      (c.replace app', app', none)

/-- The library `errors.Wrap(err, msg)` of `github.com/pkg/errors`, on a non-nil error. -/
def Wrap (err : GoError) (msg : String) : GoError :=
  { msg := msg ++ ": " ++ err.msg, notFound := err.notFound }

/-! ## The TLS steps (`tls_cert.go`) -/

/-- The state `ReconcileIssuer` leaves: the store, the calls issued, the in-memory
Application (whose spec the call can reach through a pointer), the issuer pointer
returned (`none` is nil) and how the call ended. -/
structure IssuerOutcome where
  cluster : Cluster
  calls : List ApiCall
  app : Application
  issuer : Option ClusterIssuer
  result : Result
  deriving DecidableEq, Repr

/-- The `ReconcileIssuer` step. The sentinel `fmt.Errorf(found)` has the marker as its
message (a format without verbs prints itself). On the create path the issuer's `ACME`
points at the ACME issuer of the Application spec, so the write of `Solvers` lands in
the in-memory Application too. -/
def ApplicationReconciler.ReconcileIssuer (r : ApplicationReconciler) (c : Cluster)
    (app : Application) : IssuerOutcome :=
  match r.CertManagerClientSet with
  | none =>
    ⟨c, [], app, none,
      .returned (some { msg := "failed to get certmanager client", notFound := false })⟩
  | some cs =>
    let get : ApiCall := .get .ClusterIssuer "" (issuerName app.Namespace)
    match cs.Get c (issuerName app.Namespace) with
    | (issuer, none) =>
      match app.Spec.TLS.bind (fun tls => tls.Issuer), issuer.ACME with
      | some iss, some acme =>
        let emailDiffers := decide (iss.ACMEIssuer.Email ≠ acme.Email)
        let acme₁ := if emailDiffers then { acme with Email := iss.ACMEIssuer.Email } else acme
        let serverDiffers := decide (iss.ACMEIssuer.Server ≠ acme₁.Server)
        let acme₂ := if serverDiffers then { acme₁ with Server := iss.ACMEIssuer.Server } else acme₁
        if emailDiffers || serverDiffers then
          let issuer' := { issuer with ACME := some acme₂ }
          let upd := cs.Update c issuer'
          match upd.2.2 with
          | some err => ⟨upd.1, [get, .update (.clusterIssuer issuer')], app, none,
              .returned (some err)⟩
          | none => ⟨upd.1, [get, .update (.clusterIssuer issuer')], app, some upd.2.1,
              .returned none⟩
        else ⟨c, [get], app, some issuer, .returned (some { msg := r.found, notFound := false })⟩
      | _, _ => ⟨c, [get], app, some issuer, .panicked⟩
    | (issuer, some err) =>
      if !err.notFound then ⟨c, [get], app, some issuer, .returned (some err)⟩
      else
        match app.Spec.TLS with
        | none => ⟨c, [get], app, some issuer, .panicked⟩
        | some tls =>
          match tls.Issuer with
          | none => ⟨c, [get], app, some issuer, .panicked⟩
          | some iss =>
            let acme := { iss.ACMEIssuer with Solvers := [⟨some ingressClassName⟩] }
            let app' :=
              { app with
                Spec :=
                  { app.Spec with
                    TLS := some { tls with Issuer := some { iss with ACMEIssuer := acme } } } }
            let created : ClusterIssuer :=
              { Name := issuerName app.Namespace, Namespace := app.Namespace,
                ACME := some acme, Conditions := [] }
            let cr := cs.Create c created
            match cr.2.2 with
            | some err => ⟨cr.1, [get, .create (.clusterIssuer created)], app', none,
                .returned (some err)⟩
            | none => ⟨cr.1, [get, .create (.clusterIssuer created)], app', some cr.2.1,
                .returned none⟩

/-- The state `updateIngressForTLS` leaves: the store, the calls issued, the Ingress
pointer returned (never nil) and how the call ended. -/
structure IngressOutcome where
  cluster : Cluster
  calls : List ApiCall
  ingress : networkingv1.Ingress
  result : Result
  deriving DecidableEq, Repr

/-- The empty Ingress `&networkingv1.Ingress{}`. -/
def networkingv1.Ingress.empty : networkingv1.Ingress :=
  { ObjectMeta := { Name := "", Namespace := "", Labels := [], Annotations := [],
                    OwnerReferences := [] },
    Spec := { IngressClassName := none, Rules := [], TLS := [] } }

/-- The first block of `updateIngressForTLS`: the rules after the host of the first
one has been aligned, and whether it changed; `none` is the panic of dereferencing an
unset `spec.ingress`. -/
def alignRuleHost (app : Application) (rules : List networkingv1.IngressRule) :
    Option (List networkingv1.IngressRule × Bool) :=
  match rules with
  | [] => some ([], false)
  | rule :: rest =>
    match app.Spec.Ingress with
    | none => none
    | some ing =>
      if rule.Host ≠ ing.Host then some ({ rule with Host := ing.Host } :: rest, true)
      else some (rule :: rest, false)

/-- The second block of `updateIngressForTLS`: the tls blocks after the first one has
been aligned (or created), and whether anything changed; `none` is a panic: an index
out of range on an empty host list, or an unset `spec.ingress`, `spec.tls` or
`spec.tls.issuer`. -/
def alignTLS (app : Application) (tls : List networkingv1.IngressTLS) :
    Option (List networkingv1.IngressTLS × Bool) :=
  match tls with
  | first :: rest =>
    match first.Hosts, app.Spec.Ingress with
    | host :: _, some ing =>
      let hostDiffers := decide (host ≠ ing.Host)
      let hosts := if hostDiffers then [ing.Host] else first.Hosts
      match app.Spec.TLS.bind (fun t => t.Issuer) with
      | none => none
      | some iss =>
        let secretDiffers := decide (first.SecretName ≠ iss.ACMEIssuer.PrivateKeyName)
        let secret := if secretDiffers then iss.ACMEIssuer.PrivateKeyName else first.SecretName
        some ({ Hosts := hosts, SecretName := secret } :: rest, hostDiffers || secretDiffers)
    | _, _ => none
  | [] =>
    match app.Spec.Ingress, app.Spec.TLS.bind (fun t => t.Issuer) with
    | some ing, some iss =>
      some ([{ Hosts := [ing.Host], SecretName := iss.ACMEIssuer.PrivateKeyName }], true)
    | _, _ => none

/-- The `updateIngressForTLS` step. Its sentinel is `fmt.Errorf("Found")`. -/
def ApplicationReconciler.updateIngressForTLS (r : ApplicationReconciler) (c : Cluster)
    (app : Application) : IngressOutcome :=
  let get : ApiCall := .get .Ingress app.Namespace (getIngressName app)
  match (r.Get c app.Namespace (getIngressName app) : Except GoError networkingv1.Ingress) with
  | .ok ingress =>
    match alignRuleHost app ingress.Spec.Rules with
    | none => ⟨c, [get], ingress, .panicked⟩
    | some (rules, ruleChanged) =>
      match alignTLS app ingress.Spec.TLS with
      | none => ⟨c, [get], ingress, .panicked⟩
      | some (tls, tlsChanged) =>
        let ingress' := { ingress with Spec := { ingress.Spec with Rules := rules, TLS := tls } }
        if ruleChanged || tlsChanged then
          let upd := r.Update c ingress'
          ⟨upd.1, [get, .update (.ingress ingress')], ingress', .returned upd.2⟩
        else ⟨c, [get], ingress', .returned (some { msg := "Found", notFound := false })⟩
  | .error err => ⟨c, [get], networkingv1.Ingress.empty, .returned (some err)⟩

/-! ## Finalizer and status (`app_manager.go`) -/

/-- The state a step on the Application leaves: the store, the calls issued, the
in-memory Application and how the step ended. -/
structure AppOutcome where
  cluster : Cluster
  calls : List ApiCall
  app : Application
  result : Result
  deriving DecidableEq, Repr

/-- The `deleteApplicationDependencies` helper. The error of the `Get` is only tested
for not-found: after any other failure the `Delete` is still called, with the name of
the empty issuer the failed `Get` handed back. -/
def ApplicationReconciler.deleteApplicationDependencies (r : ApplicationReconciler)
    (c : Cluster) (app : Application) : Outcome :=
  match r.CertManagerClientSet with
  | none =>
    ⟨c, [], .returned (some { msg := "failed to get certmanager client", notFound := false })⟩
  | some cs =>
    let get : ApiCall := .get .ClusterIssuer "" (issuerName app.Namespace)
    let got := cs.Get c (issuerName app.Namespace)
    if (got.2.map (fun e => e.notFound)).getD false then ⟨c, [get], .returned none⟩
    else
      let del := cs.Delete c got.1
      ⟨del.1, [get, .delete (.clusterIssuer got.1)], .returned del.2⟩

/-- The `ensureApplicationFinalizer` step. -/
def ApplicationReconciler.ensureApplicationFinalizer (r : ApplicationReconciler) (c : Cluster)
    (app : Application) : AppOutcome :=
  if isZero app.DeletionTimestamp then
    if !app.Finalizers.contains r.applicationFinalizer then
      let app₁ := { app with Finalizers := app.Finalizers ++ [r.applicationFinalizer] }
      let upd := r.UpdateApplication c app₁
      match upd.2.2 with
      | some err =>
        ⟨upd.1, [.update (.application app₁)], app₁,
          .returned (some (Wrap err "Failed to add finalizer with app"))⟩
      | none => ⟨upd.1, [.update (.application app₁)], upd.2.1, .returned none⟩
    else ⟨c, [], app, .returned none⟩
  else
    let dep := r.deleteApplicationDependencies c app
    match dep.result with
    | .returned none =>
      let app₁ :=
        { app with
          Finalizers := app.Finalizers.filter (fun f => decide (f ≠ r.applicationFinalizer)) }
      let upd := r.UpdateApplication dep.cluster app₁
      match upd.2.2 with
      | some err =>
        ⟨upd.1, dep.calls ++ [.update (.application app₁)], app₁,
          .returned (some (Wrap err "Failed to remove finalizer from app"))⟩
      | none => ⟨upd.1, dep.calls ++ [.update (.application app₁)], upd.2.1, .returned none⟩
    | .returned (some err) =>
      ⟨dep.cluster, dep.calls, app,
        .returned (some (Errorf "couldn't delete resources: " (some err)))⟩
    | .panicked => ⟨dep.cluster, dep.calls, app, .panicked⟩

/-- The condition `updateStatus` builds; `now` is `metav1.Now()`. -/
def availableCondition (now : Nat) : Condition :=
  { Type_ := "Available", Status := "True", Reason := "Reconciled",
    Message := "Application resources successfully reconciled", LastTransitionTime := now }

/-- The `updateStatus` step; `now` is `metav1.Now()`. -/
def ApplicationReconciler.updateStatus (r : ApplicationReconciler) (c : Cluster) (now : Nat)
    (app : Application) : AppOutcome :=
  let condition := availableCondition now
  if app.Conditions.length = 0
      || (app.Conditions.head?.map (fun cond => decide (cond.Type_ ≠ condition.Type_))).getD false
  then
    let app₁ := { app with Conditions := [condition] }
    let upd := r.UpdateStatus c app₁
    match upd.2.2 with
    | some err => ⟨upd.1, [.updateStatus (.application app₁)], app₁, .returned (some err)⟩
    | none => ⟨upd.1, [.updateStatus (.application app₁)], upd.2.1, .returned none⟩
  else ⟨c, [], app, .returned none⟩

/-! ## The orchestrator (`application_controller.go`) -/

/-- The steps of a Reconcile pass. -/
inductive Step where
  | ConfigMap
  | Secret
  | Deployment
  | Service
  | Ingress
  | Issuer
  | IngressTLS
  | Finalizer
  | Status
  deriving DecidableEq, Repr

/-- One step invoked in a pass: which one, the calls it issued, how it ended. -/
structure StepRecord where
  step : Step
  calls : List ApiCall
  result : Result
  deriving DecidableEq, Repr

/-- The state of a pass under way: the store, the calls issued so far, and the steps
invoked so far, in order. -/
structure Pass where
  cluster : Cluster
  calls : List ApiCall
  steps : List StepRecord
  deriving DecidableEq, Repr

/-- The state a Reconcile pass leaves: the state of the pass and what `Reconcile`
returned (its `ctrl.Result` is always empty). -/
structure PassOutcome where
  cluster : Cluster
  calls : List ApiCall
  steps : List StepRecord
  result : Result
  deriving DecidableEq, Repr

/-- The pass after one more step. -/
def Pass.record (p : Pass) (step : Step) (cluster : Cluster) (calls : List ApiCall)
    (result : Result) : Pass :=
  ⟨cluster, p.calls ++ calls, p.steps ++ [⟨step, calls, result⟩]⟩

/-- The pass stopped here, `Reconcile` returning or panicking as given. -/
def Pass.stop (p : Pass) (result : Result) : PassOutcome :=
  ⟨p.cluster, p.calls, p.steps, result⟩

/-- One synchronizer of `Reconcile`:
`if err := r.reconcileX(ctx, &app); err != nil { return ctrl.Result{}, err }`. -/
def Pass.sync (p : Pass) (step : Step) (run : Cluster → Outcome) (next : Pass → PassOutcome) :
    PassOutcome :=
  let out := run p.cluster
  let p' := p.record step out.cluster out.calls out.result
  match out.result with
  | .returned none => next p'
  | res => p'.stop res

/-- The end of `Reconcile`: the finalizer step, then the status write. -/
def ApplicationReconciler.finishPass (r : ApplicationReconciler) (now : Nat) (app : Application)
    (p : Pass) : PassOutcome :=
  let fin := r.ensureApplicationFinalizer p.cluster app
  let p₁ := p.record .Finalizer fin.cluster fin.calls fin.result
  match fin.result with
  | .returned none =>
    let st := r.updateStatus p₁.cluster now fin.app
    (p₁.record .Status st.cluster st.calls st.result).stop st.result
  | res => p₁.stop res

/-- The TLS binding of `Reconcile`, entered with the issuer pointer that
`ReconcileIssuer` returned: reading the status conditions of a nil issuer panics; a
genuine error of `updateIngressForTLS` is logged and `Reconcile` returns a nil error. -/
def ApplicationReconciler.bindTLS (r : ApplicationReconciler) (now : Nat) (app : Application)
    (issuer : Option ClusterIssuer) (p : Pass) : PassOutcome :=
  match issuer with
  | none => p.stop .panicked
  | some iss =>
    match iss.Conditions with
    | cond :: _ =>
      if cond.Status = r.trueValue then
        let upd := r.updateIngressForTLS p.cluster app
        let p₁ := p.record .IngressTLS upd.cluster upd.calls upd.result
        match upd.result with
        | .panicked => p₁.stop .panicked
        | .returned (some err) =>
          if err.msg ≠ r.found then p₁.stop (.returned none) else r.finishPass now app p₁
        | .returned none => r.finishPass now app p₁
      else r.finishPass now app p
    | [] => r.finishPass now app p

/-- The TLS part of `Reconcile`. A genuine error of `ReconcileIssuer` is logged with
the name of the issuer returned (a panic when that pointer is nil) and `Reconcile`
returns a nil error. The fixed `time.Sleep` changes no state. -/
def ApplicationReconciler.tlsPart (r : ApplicationReconciler) (now : Nat) (app : Application)
    (p : Pass) : PassOutcome :=
  match app.Spec.TLS with
  | none => r.finishPass now app p
  | some tls =>
    if tls.Enable then
      let iss := r.ReconcileIssuer p.cluster app
      let p₁ := p.record .Issuer iss.cluster iss.calls iss.result
      match iss.result with
      | .panicked => p₁.stop .panicked
      | .returned (some err) =>
        if err.msg ≠ r.found then
          match iss.issuer with
          | none => p₁.stop .panicked
          | some _ => p₁.stop (.returned none)
        else r.bindTLS now iss.app iss.issuer p₁
      | .returned none =>
        match iss.issuer with
        | none => p₁.stop .panicked
        | some _ => r.bindTLS now iss.app iss.issuer p₁
    else r.finishPass now app p

/-- The `Reconcile` entry point for the request `(ns, name)`; `now` is `metav1.Now()`. -/
def ApplicationReconciler.Reconcile (r : ApplicationReconciler) (c : Cluster) (ns name : String)
    (now : Nat) : PassOutcome :=
  let get : ApiCall := .get .Application ns name
  match (r.Get c ns name : Except GoError Application) with
  | .error err =>
    if err.notFound then ⟨c, [get], [], .returned none⟩
    else ⟨c, [get], [], .returned (some err)⟩
  | .ok app =>
    Pass.sync ⟨c, [get], []⟩ .ConfigMap (fun c => r.reconcileConfigMap c app) (fun p =>
      p.sync .Secret (fun c => r.reconcileSecret c app) (fun p =>
        p.sync .Deployment (fun c => r.reconcileDeployment c app) (fun p =>
          p.sync .Service (fun c => r.reconcileService c app) (fun p =>
            p.sync .Ingress (fun c => r.reconcileIngress c app) (fun p =>
              r.tlsPart now app p)))))

/-- The demo Application with TLS requested. -/
def tlsApp : Application :=
  { demoApp with
    Spec :=
      { demoApp.Spec with
        TLS := some
          { Enable := true,
            Issuer := some
              { ACMEIssuer :=
                  { Email := "ops@example.com", Server := "https://acme.example.com/directory",
                    PrivateKeyName := "demo-tls", Solvers := [] } } } } }

/-- The demo Application without a replica count. -/
def noReplicasApp : Application :=
  { demoApp with Spec := { demoApp.Spec with Replicas := none } }

/-- The issuer of namespace `ns1` as the store holds it once it is ready, with the
ACME account of another address. -/
def liveIssuer : ClusterIssuer :=
  { Name := "app-ns1-issuer", Namespace := "",
    ACME := some
      { Email := "old@example.com", Server := "https://acme.example.com/directory",
        PrivateKeyName := "demo-tls", Solvers := [⟨some "kong"⟩] },
    Conditions := [⟨"Ready", "True"⟩] }

/-- A cluster that holds the TLS demo Application and the live issuer. -/
def issuerCluster : Cluster :=
  { Cluster.empty with applications := [tlsApp], issuers := [liveIssuer] }

/-- The Ingress of the demo Application as `reconcileIngress` writes it, with a tls
block that lists a second host after the host of the spec. -/
def twoHostIngress : networkingv1.Ingress :=
  { ObjectMeta :=
      { Name := "demo-ingress", Namespace := "ns1", Labels := getLabels demoApp,
        Annotations := [], OwnerReferences := [plainReconciler.NewControllerRef demoApp] },
    Spec :=
      { IngressClassName := some "kong",
        Rules :=
          [{ Host := "demo.example.com",
             HTTP := some
               { Paths :=
                   [{ Path := "/", PathType := some "Prefix",
                      Backend :=
                        { Service := some
                            { Name := "demo-service", Port := { Name := "", Number := 80 } } } }] } }],
        TLS := [{ Hosts := ["demo.example.com", "other.example.com"], SecretName := "demo-tls" }] } }

/-- A cluster that holds the TLS demo Application and the two-host Ingress. -/
def twoHostCluster : Cluster :=
  { Cluster.empty with applications := [tlsApp], ingresses := [twoHostIngress] }

/-- A cluster that holds the TLS demo Application and its Ingress without a tls block. -/
def unboundCluster : Cluster :=
  { Cluster.empty with
    applications := [tlsApp],
    ingresses := [{ twoHostIngress with Spec := { twoHostIngress.Spec with TLS := [] } }] }

/-- The TLS demo Application under deletion, carrying the finalizer. -/
def deletingApp : Application :=
  { tlsApp with DeletionTimestamp := some 5, Finalizers := ["apps.example.com/finalizer"] }

/-- A cluster that holds the Application under deletion and its issuer. -/
def deletingCluster : Cluster :=
  { Cluster.empty with applications := [deletingApp], issuers := [liveIssuer] }

/-- A reconciler whose cert-manager clientset fails every delete. -/
def failingDeleteReconciler : ApplicationReconciler :=
  { plainReconciler with
    CertManagerClientSet := some
      { fault := fun call =>
          match call with
          | .delete _ => some "the server is currently unable to handle the request"
          | _ => none } }

/-- The demo Application whose status already holds an `Available` condition that is
not true. -/
def unavailableApp : Application :=
  { demoApp with
    Conditions :=
      [{ Type_ := "Available", Status := "False", Reason := "Paused", Message := "",
         LastTransitionTime := 1 }] }

/-- A cluster that holds the demo Application. -/
def demoCluster : Cluster :=
  { Cluster.empty with applications := [demoApp] }

/-- A cluster that holds the Application with the untrue `Available` condition. -/
def unavailableCluster : Cluster :=
  { Cluster.empty with applications := [unavailableApp] }

/-- The steps `Reconcile` can take after the synchronizers. -/
def laterSteps : List Step := [.Issuer, .IngressTLS, .Finalizer, .Status]

/-- The outcome continues the pass `p`: it adds steps to it, each with its calls, all
of them satisfying `good`. -/
def Continues (p : Pass) (out : PassOutcome) (good : StepRecord → Prop) : Prop :=
  ∃ tail : List StepRecord, out.steps = p.steps ++ tail
    ∧ out.calls = p.calls ++ tail.flatMap (fun rec => rec.calls)
    ∧ ∀ rec ∈ tail, good rec

/-- Whether the call is an update of an Application. -/
def ApiCall.isApplicationUpdate : ApiCall → Bool
  | .update (.application _) => true
  | _ => false

/-- Whether the call is the create of an external issuer. -/
def ApiCall.isIssuerCreate : ApiCall → Bool
  | .create (.clusterIssuer _) => true
  | _ => false

/-- The calls split in two parts: no update of an Application in the first, no create
of an issuer in the second. -/
def IssuerFirst (calls : List ApiCall) : Prop :=
  ∃ A B : List ApiCall, calls = A ++ B ∧ (∀ x ∈ A, x.isApplicationUpdate = false)
    ∧ (∀ x ∈ B, x.isIssuerCreate = false)

/-- A cluster that holds the TLS demo Application and nothing else. -/
def tlsCluster : Cluster :=
  { Cluster.empty with applications := [tlsApp] }

/-- The TLS demo Application without an `ingress` section. -/
def noIngressApp : Application :=
  { tlsApp with Spec := { tlsApp.Spec with Ingress := none } }

/-- A cluster that holds the Application without `ingress` and its issuer, ready and
with the ACME account of the spec. -/
def readyCluster : Cluster :=
  { Cluster.empty with
    applications := [noIngressApp],
    issuers :=
      [{ liveIssuer with
         ACME := some
           { Email := "ops@example.com", Server := "https://acme.example.com/directory",
             PrivateKeyName := "demo-tls", Solvers := [⟨some "kong"⟩] } }] }

/-- A reconciler whose cert-manager clientset fails every read. -/
def failingGetReconciler : ApplicationReconciler :=
  { plainReconciler with
    CertManagerClientSet := some
      { fault := fun call =>
          match call with
          | .get _ _ _ => some "connection refused"
          | _ => none } }

/-- The store of the end-to-end scenario: only the Application `demo` of namespace
`ns1`, without TLS and without a replica count, and no other resource. -/
def scenarioCluster : Cluster :=
  { Cluster.empty with applications := [noReplicasApp] }

/-- The demo Application with one ConfigMap entry and one Secret entry. -/
def routedApp : Application :=
  { demoApp with
    Spec := { demoApp.Spec with EnvVars := [⟨"CM_MODE", "prod"⟩, ⟨"SEC_KEY", "s3"⟩] } }

/-- The demo Application after its env vars and its `ingress` section were removed. -/
def bareApp : Application :=
  { demoApp with Spec := { demoApp.Spec with EnvVars := [], Ingress := none } }

/-- The store a pass on `routedApp` left (ConfigMap, Secret, Deployment, Service and
Ingress of `demo`), the Application now being `bareApp`. -/
def leftoverCluster : Cluster :=
  { (plainReconciler.Reconcile { Cluster.empty with applications := [routedApp] }
      "ns1" "demo" 7).cluster with
    applications := [bareApp] }

/-- The demo Application without a `service` section, its `ingress` section set. -/
def noServiceApp : Application :=
  { demoApp with Spec := { demoApp.Spec with Service := none } }

/-- A cluster that holds the Application without `service` and nothing else. -/
def noServiceCluster : Cluster :=
  { Cluster.empty with applications := [noServiceApp] }

/-- A reconciler whose cert-manager clientset is nil. -/
def noClientReconciler : ApplicationReconciler :=
  { plainReconciler with CertManagerClientSet := none }

/-- A reconciler whose cert-manager clientset fails every create. -/
def failingCreateReconciler : ApplicationReconciler :=
  { plainReconciler with
    CertManagerClientSet := some
      { fault := fun call =>
          match call with
          | .create _ => some "the server is currently unable to handle the request"
          | _ => none } }

/-- A reconciler whose cert-manager clientset fails every update. -/
def failingUpdateReconciler : ApplicationReconciler :=
  { plainReconciler with
    CertManagerClientSet := some
      { fault := fun call =>
          match call with
          | .update _ => some "the server is currently unable to handle the request"
          | _ => none } }

end Operator

namespace Backend

open Operator (GoMap)

/-! ## The HTTP services (`backend/services`) -/

namespace models

/-- The `User` of the auth service; times are instants, `DeletedAt` is nullable. -/
structure User where
  ID : Nat
  Email : String
  Password : String
  FirstName : String
  LastName : String
  IsActive : Bool
  CreatedAt : Nat
  UpdatedAt : Nat
  DeletedAt : Option Nat
  deriving DecidableEq, Repr

/-- The `OrderItem` of the order service; a `float64` is carried by its bit pattern,
the handlers only pass it on. -/
structure OrderItem where
  ID : Nat
  OrderID : Nat
  ProductID : String
  ProductName : String
  Quantity : Int
  UnitPrice : Nat
  TotalPrice : Nat
  CreatedAt : Nat
  UpdatedAt : Nat
  DeletedAt : Option Nat
  deriving DecidableEq, Repr

/-- The `Order` of the order service. -/
structure Order where
  ID : Nat
  UserID : Nat
  OrderNumber : String
  Status : String
  TotalAmount : Nat
  Currency : String
  CreatedAt : Nat
  UpdatedAt : Nat
  DeletedAt : Option Nat
  OrderItems : List OrderItem
  deriving DecidableEq, Repr

end models

/-- The `UpdateOrderRequest` of the order service. -/
structure UpdateOrderRequest where
  Status : String
  deriving DecidableEq, Repr

/-- A value handed to `c.JSON` inside a `gin.H` or as the whole body; a nil pointer
is `null`. -/
inductive Value where
  | null
  | str (s : String)
  | user (u : models.User)
  | order (o : models.Order)
  deriving DecidableEq, Repr

/-- The object handed to `c.JSON`: a `gin.H` with its keys, or a value. -/
inductive Body where
  | H (fields : List (String × Value))
  | value (v : Value)
  deriving DecidableEq, Repr

/-- What the handler wrote: status code, response headers and body. -/
structure Response where
  Status : Nat
  Header : GoMap (List String)
  Body : Body
  deriving DecidableEq, Repr

/-- The part of `gin.Context` the handlers read: the request headers (under their
canonical keys), the path parameters, the string values among the context keys, and
what binding the JSON body to an `UpdateOrderRequest` gives (`.error` with the message
of the binding error). -/
structure Context where
  Header : GoMap (List String)
  Params : List (String × String)
  Keys : GoMap String
  BindUpdateOrder : Except String UpdateOrderRequest
  deriving Repr

/-- Gin `c.GetHeader(key)`, that is `c.Request.Header.Get(key)`: the first value under
the key, or the empty string. -/
def Context.GetHeader (c : Context) (key : String) : String :=
  match c.Header.lookup key with
  | some (v :: _) => v
  | _ => ""

/-- Gin `c.Param(key)`: the value of the first path parameter of that key, or the empty
string. -/
def Context.Param (c : Context) (key : String) : String :=
  match c.Params.find? (fun p => decide (p.1 = key)) with
  | some p => p.2
  | none => ""

/-- Gin `c.GetString(key)`: the string under the context key, or the empty string. -/
def Context.GetString (c : Context) (key : String) : String :=
  (c.Keys.lookup key).getD ""

/-- Gin `c.JSON(code, obj)` on a response whose headers so far are `header`: status,
content type and body. -/
def JSON (header : GoMap (List String)) (code : Nat) (obj : Body) : Response :=
  { Status := code,
    Header := header.set "Content-Type" ["application/json; charset=utf-8"],
    Body := obj }

/-- Go `strconv.ParseUint(s, 10, bitSize)`: the digits of a non-empty, unsigned decimal
numeral that fits `bitSize` bits; `none` is a syntax or range error. -/
def ParseUint (s : String) (bitSize : Nat) : Option Nat :=
  if s.data.isEmpty then none
  else if s.data.all (fun ch => decide ('0' ≤ ch ∧ ch ≤ '9')) then
    let n := s.data.foldl (fun acc ch => 10 * acc + (ch.toNat - '0'.toNat)) 0
    if n < 2 ^ bitSize then some n else none
  else none

/-- Go `strconv.Itoa(int(id))` for an `id` of type `uint`, on a 64-bit platform: the
conversion wraps. -/
def Itoa (id : Nat) : String :=
  if id % 2 ^ 64 < 2 ^ 63 then toString (id % 2 ^ 64)
  else "-" ++ toString (2 ^ 64 - id % 2 ^ 64)

/-- A call on the auth service. -/
inductive AuthCall where
  | ValidateToken (tokenString : String)
  deriving DecidableEq, Repr

/-- The method of `IAuthService` that `ValidateToken` calls, on a service whose state
is `σ`: the new state, the user pointer (`none` is nil) and the error (its message,
`none` is nil). -/
structure IAuthService (σ : Type) where
  ValidateToken : σ → String → σ × Option models.User × Option String

/-- A call on the order service. -/
inductive OrderCall where
  | ValidateUserID (userIDStr : String)
  | GetOrder (orderID : Nat)
  | UpdateOrder (orderID : Nat) (req : UpdateOrderRequest)
  | DeleteOrder (orderID : Nat)
  deriving DecidableEq, Repr

/-- The methods of `IOrderService` that `GetOrder`, `UpdateOrder` and `DeleteOrder`
call, on a service whose state is `σ`: each gives the new state and what the Go method
returns, a nil pointer or a nil error being `none`. -/
structure IOrderService (σ : Type) where
  ValidateUserID : σ → String → σ × Nat × Option String
  GetOrder : σ → Nat → σ × Option models.Order × Option String
  UpdateOrder : σ → Nat → UpdateOrderRequest → σ × Option models.Order × Option String
  DeleteOrder : σ → Nat → σ × Option String

/-- What a handler leaves: the state of the service, the calls it made on the service,
in order, and the response written (`none` when it panicked before writing one). -/
structure Handled (σ κ : Type) where
  state : σ
  calls : List κ
  response : Option Response

/-- The handler `AuthHandler.ValidateToken`. The prefix `Bearer ` being ASCII, the byte
length test and the byte slices of the source are the character ones here. -/
def AuthHandler.ValidateToken {σ : Type} (authService : IAuthService σ) (s : σ) (c : Context) :
    Handled σ AuthCall :=
  let tokenString := c.GetHeader "Authorization"
  if tokenString = "" then
    ⟨s, [], some (JSON [] 401 (.H [("error", .str "authorization header required")]))⟩
  else
    let tokenString :=
      if tokenString.data.length > 7 ∧ String.mk (tokenString.data.take 7) = "Bearer " then
        String.mk (tokenString.data.drop 7)
      else tokenString
    match authService.ValidateToken s tokenString with
    | (s', _, some err) =>
      ⟨s', [.ValidateToken tokenString], some (JSON [] 401 (.H [("error", .str err)]))⟩
    | (s', some user, none) =>
      ⟨s', [.ValidateToken tokenString],
        some (JSON (GoMap.set [] "X-User-Id" [Itoa user.ID]) 200
          (.H [("user", .user user)]))⟩
    | (s', none, none) =>
      ⟨s', [.ValidateToken tokenString], some (JSON [] 200 (.H [("user", .null)]))⟩

/-- The handler `OrderHandler.GetOrder`. Dereferencing a nil order returned with a nil
error panics. -/
def OrderHandler.GetOrder {σ : Type} (orderService : IOrderService σ) (s : σ) (c : Context) :
    Handled σ OrderCall :=
  let userIDStr := c.GetString "user_id"
  match orderService.ValidateUserID s userIDStr with
  | (s₁, _, some _) =>
    ⟨s₁, [.ValidateUserID userIDStr], some (JSON [] 400 (.H [("error", .str "invalid user ID")]))⟩
  | (s₁, userID, none) =>
    match ParseUint (c.Param "id") 32 with
    | none =>
      ⟨s₁, [.ValidateUserID userIDStr],
        some (JSON [] 400 (.H [("error", .str "invalid order ID")]))⟩
    | some orderID =>
      let calls : List OrderCall := [.ValidateUserID userIDStr, .GetOrder orderID]
      match orderService.GetOrder s₁ orderID with
      | (s₂, _, some _) =>
        ⟨s₂, calls, some (JSON [] 404 (.H [("error", .str "order not found")]))⟩
      | (s₂, none, none) => ⟨s₂, calls, none⟩
      | (s₂, some order, none) =>
        if order.UserID ≠ userID then
          ⟨s₂, calls, some (JSON [] 403 (.H [("error", .str "unauthorized access to order")]))⟩
        else ⟨s₂, calls, some (JSON [] 200 (.value (.order order)))⟩

/-- The handler `OrderHandler.UpdateOrder`. -/
def OrderHandler.UpdateOrder {σ : Type} (orderService : IOrderService σ) (s : σ) (c : Context) :
    Handled σ OrderCall :=
  let userIDStr := c.GetString "user_id"
  match orderService.ValidateUserID s userIDStr with
  | (s₁, _, some _) =>
    ⟨s₁, [.ValidateUserID userIDStr], some (JSON [] 400 (.H [("error", .str "invalid user ID")]))⟩
  | (s₁, userID, none) =>
    match ParseUint (c.Param "id") 32 with
    | none =>
      ⟨s₁, [.ValidateUserID userIDStr],
        some (JSON [] 400 (.H [("error", .str "invalid order ID")]))⟩
    | some orderID =>
      let calls : List OrderCall := [.ValidateUserID userIDStr, .GetOrder orderID]
      match orderService.GetOrder s₁ orderID with
      | (s₂, _, some _) =>
        ⟨s₂, calls, some (JSON [] 404 (.H [("error", .str "order not found")]))⟩
      | (s₂, none, none) => ⟨s₂, calls, none⟩
      | (s₂, some existingOrder, none) =>
        if existingOrder.UserID ≠ userID then
          ⟨s₂, calls, some (JSON [] 403 (.H [("error", .str "unauthorized access to order")]))⟩
        else
          match c.BindUpdateOrder with
          | .error err => ⟨s₂, calls, some (JSON [] 400 (.H [("error", .str err)]))⟩
          | .ok req =>
            match orderService.UpdateOrder s₂ orderID req with
            | (s₃, _, some err) =>
              ⟨s₃, calls ++ [.UpdateOrder orderID req],
                some (JSON [] 400 (.H [("error", .str err)]))⟩
            | (s₃, some order, none) =>
              ⟨s₃, calls ++ [.UpdateOrder orderID req],
                some (JSON [] 200 (.value (.order order)))⟩
            | (s₃, none, none) =>
              ⟨s₃, calls ++ [.UpdateOrder orderID req], some (JSON [] 200 (.value .null))⟩

/-- The handler `OrderHandler.DeleteOrder`. -/
def OrderHandler.DeleteOrder {σ : Type} (orderService : IOrderService σ) (s : σ) (c : Context) :
    Handled σ OrderCall :=
  let userIDStr := c.GetString "user_id"
  match orderService.ValidateUserID s userIDStr with
  | (s₁, _, some _) =>
    ⟨s₁, [.ValidateUserID userIDStr], some (JSON [] 400 (.H [("error", .str "invalid user ID")]))⟩
  | (s₁, userID, none) =>
    match ParseUint (c.Param "id") 32 with
    | none =>
      ⟨s₁, [.ValidateUserID userIDStr],
        some (JSON [] 400 (.H [("error", .str "invalid order ID")]))⟩
    | some orderID =>
      let calls : List OrderCall := [.ValidateUserID userIDStr, .GetOrder orderID]
      match orderService.GetOrder s₁ orderID with
      | (s₂, _, some _) =>
        ⟨s₂, calls, some (JSON [] 404 (.H [("error", .str "order not found")]))⟩
      | (s₂, none, none) => ⟨s₂, calls, none⟩
      | (s₂, some existingOrder, none) =>
        if existingOrder.UserID ≠ userID then
          ⟨s₂, calls, some (JSON [] 403 (.H [("error", .str "unauthorized access to order")]))⟩
        else
          match orderService.DeleteOrder s₂ orderID with
          | (s₃, some err) =>
            ⟨s₃, calls ++ [.DeleteOrder orderID], some (JSON [] 400 (.H [("error", .str err)]))⟩
          | (s₃, none) =>
            ⟨s₃, calls ++ [.DeleteOrder orderID],
              some (JSON [] 200 (.H [("message", .str "order deleted successfully")]))⟩

/-- An order service over an in-memory table of orders, the state: the caller id is
parsed as the service of the repository does, an absent order is an error, an update
sets the status, a delete removes the order. -/
def tableService : IOrderService (List models.Order) where
  ValidateUserID s userIDStr :=
    match ParseUint userIDStr 32 with
    | some userID => (s, userID, none)
    | none => (s, 0, some "invalid user ID")
  GetOrder s orderID :=
    match s.find? (fun o => decide (o.ID = orderID)) with
    | some o => (s, some o, none)
    | none => (s, none, some "record not found")
  UpdateOrder s orderID req :=
    match s.find? (fun o => decide (o.ID = orderID)) with
    | some o =>
      (s.map (fun x => if x.ID = orderID then { x with Status := req.Status } else x),
        some { o with Status := req.Status }, none)
    | none => (s, none, some "order not found")
  DeleteOrder s orderID :=
    match s.find? (fun o => decide (o.ID = orderID)) with
    | some _ => (s.filter (fun x => decide (x.ID ≠ orderID)), none)
    | none => (s, some "order not found")

/-- The order `ORD-123` of the handler test, owned by user 1. -/
def mockOrder : models.Order :=
  { ID := 1, UserID := 1, OrderNumber := "ORD-123", Status := "pending", TotalAmount := 10,
    Currency := "USD", CreatedAt := 0, UpdatedAt := 0, DeletedAt := none, OrderItems := [] }

/-- The request for order 1 by the caller whose id string is `userID`, with a body
that asks for the status `shipped`. -/
def orderRequest (userID : String) : Context :=
  { Header := [], Params := [("id", "1")], Keys := [("user_id", userID)],
    BindUpdateOrder := .ok { Status := "shipped" } }

/-- The request of the handler test for `GetOrder`: the path id 1 and no `user_id`
among the context keys. -/
def testRequest : Context :=
  { Header := [], Params := [("id", "1")], Keys := [], BindUpdateOrder := .error "EOF" }

/-- An auth service that knows one token, `some-jwt-token`, of user 1. -/
def tokenService : IAuthService Unit where
  ValidateToken s tokenString :=
    if tokenString = "some-jwt-token" then
      (s, some
        { ID := 1, Email := "test@example.com", Password := "", FirstName := "", LastName := "",
          IsActive := true, CreatedAt := 0, UpdatedAt := 0, DeletedAt := none }, none)
    else (s, none, some "invalid token")

/-- The request of the handler test: `Authorization: Bearer some-jwt-token`. -/
def bearerRequest : Context :=
  { Header := [("Authorization", ["Bearer some-jwt-token"])], Params := [], Keys := [],
    BindUpdateOrder := .error "EOF" }

end Backend

namespace Operator

/-! ## Lemmas on strings and maps -/

theorem hasPrefix_iff (s pre : String) : HasPrefix s pre = true ↔ ∃ t : String, s = pre ++ t := by
  unfold HasPrefix
  rw [List.isPrefixOf_iff_prefix]
  constructor
  · rintro ⟨t, ht⟩
    exact ⟨String.mk t, String.ext (by simp [ht])⟩
  · rintro ⟨t, rfl⟩
    exact ⟨t.data, by simp⟩

theorem hasPrefix_append (pre t : String) : HasPrefix (pre ++ t) pre = true :=
  (hasPrefix_iff _ _).2 ⟨t, rfl⟩

theorem trimPrefix_append (pre t : String) : TrimPrefix (pre ++ t) pre = t := by
  unfold TrimPrefix
  rw [if_pos (hasPrefix_append pre t)]
  exact String.ext (by simp)

theorem append_trimPrefix (s pre : String) (h : HasPrefix s pre = true) :
    pre ++ TrimPrefix s pre = s := by
  obtain ⟨t, rfl⟩ := (hasPrefix_iff _ _).1 h
  rw [trimPrefix_append]

/-- An entry is routed to the key `k` under the prefix exactly when it is named
prefix followed by `k`. -/
theorem routed_iff (name pre k : String) :
    (HasPrefix name pre = true ∧ TrimPrefix name pre = k) ↔ name = pre ++ k := by
  constructor
  · rintro ⟨h, rfl⟩
    exact (append_trimPrefix name pre h).symm
  · rintro rfl
    exact ⟨hasPrefix_append pre k, trimPrefix_append pre k⟩

namespace GoMap

theorem lookup_append {V : Type} (m₁ m₂ : GoMap V) (k : String) :
    lookup (m₁ ++ m₂) k = (lookup m₁ k).orElse (fun _ => lookup m₂ k) := by
  induction m₁ with
  | nil => simp [lookup]
  | cons e rest ih =>
    obtain ⟨k', v⟩ := e
    by_cases h : k' = k
    · simp [lookup, h]
    · simp [lookup, h, ih]

theorem lookup_filter_ne {V : Type} (m : GoMap V) (k k' : String) :
    lookup (m.filter (fun e => decide (e.1 ≠ k))) k' = if k = k' then none else lookup m k' := by
  induction m with
  | nil => simp [lookup]
  | cons e rest ih =>
    obtain ⟨k₀, v⟩ := e
    by_cases h₀ : k₀ = k
    · rw [List.filter_cons_of_neg (by simp [h₀]), ih]
      by_cases h : k = k'
      · simp [h]
      · have h' : ¬ k₀ = k' := fun e => h (h₀ ▸ e)
        simp [h, lookup, h']
    · rw [List.filter_cons_of_pos (by simp [h₀])]
      by_cases h₁ : k₀ = k'
      · have h : ¬ k = k' := fun e => h₀ (h₁.trans e.symm)
        simp [lookup, h₁, h]
      · simp only [lookup, h₁, if_false]
        exact ih

theorem lookup_set {V : Type} (m : GoMap V) (k k' : String) (v : V) :
    lookup (set m k v) k' = if k = k' then some v else lookup m k' := by
  unfold set
  rw [lookup_append, lookup_filter_ne]
  by_cases h : k = k'
  · simp [h, lookup]
  · simp only [h, if_false]
    cases hl : lookup m k' with
    | none => simp [lookup, h]
    | some x => simp

theorem mem_keys_iff {V : Type} (m : GoMap V) (k : String) :
    k ∈ keys m ↔ (lookup m k).isSome = true := by
  induction m with
  | nil => simp [keys, lookup]
  | cons e rest ih =>
    obtain ⟨k', v⟩ := e
    by_cases h : k' = k
    · simp [keys, lookup, h]
    · have h' : ¬ k = k' := fun e => h e.symm
      simp only [keys, List.map_cons, List.mem_cons, h', false_or, lookup, h, if_false]
      exact ih

theorem eqv_refl {V : Type} [DecidableEq V] (m : GoMap V) : eqv m m = true := by
  simp [eqv]

end GoMap

/-- The loop shared by `getConfigMapData` and `getSecretData`, read at one key: the
value written by the last entry named prefix followed by `k`. -/
theorem lookup_fold_routed {V : Type} (g : String → V) (pre : String) (envVars : List EnvVar)
    (k : String) :
    GoMap.lookup
      (envVars.foldl
        (fun (data : GoMap V) envVar =>
          if HasPrefix envVar.Name pre then data.set (TrimPrefix envVar.Name pre) (g envVar.Value)
          else data)
        []) k
      = ((envVars.filter (fun e => decide (e.Name = pre ++ k))).getLast?).map
          (fun e => g e.Value) := by
  induction envVars using List.reverseRecOn with
  | nil => simp [GoMap.lookup]
  | append_singleton l e ih =>
    rw [List.foldl_append, List.filter_append]
    simp only [List.foldl_cons, List.foldl_nil]
    by_cases hp : HasPrefix e.Name pre = true
    · rw [if_pos hp, GoMap.lookup_set]
      by_cases hk : TrimPrefix e.Name pre = k
      · have hn : e.Name = pre ++ k := (routed_iff _ _ _).1 ⟨hp, hk⟩
        rw [if_pos hk, List.filter_cons_of_pos (by simp [hn])]
        simp
      · have hn : ¬ e.Name = pre ++ k := fun h => hk ((routed_iff _ _ _).2 h).2
        simp [hk, hn, List.filter, ih]
    · have hn : ¬ e.Name = pre ++ k := fun h => hp ((routed_iff _ _ _).2 h).1
      rw [if_neg hp]
      simp [hn, List.filter, ih]

/-- Entries without the prefix do not change the result of the loop. -/
theorem fold_routed_filter {V : Type} (g : String → V) (pre : String) (envVars : List EnvVar) :
    envVars.foldl
        (fun (data : GoMap V) envVar =>
          if HasPrefix envVar.Name pre then data.set (TrimPrefix envVar.Name pre) (g envVar.Value)
          else data)
        []
      = (envVars.filter (fun e => HasPrefix e.Name pre)).foldl
        (fun (data : GoMap V) envVar =>
          if HasPrefix envVar.Name pre then data.set (TrimPrefix envVar.Name pre) (g envVar.Value)
          else data)
        [] := by
  induction envVars using List.reverseRecOn with
  | nil => rfl
  | append_singleton l e ih =>
    rw [List.foldl_append, List.filter_append, List.foldl_append, ih]
    by_cases hp : HasPrefix e.Name pre = true
    · simp [hp, List.filter]
    · simp [hp, List.filter]

theorem isSome_getLast?_filter_iff (envVars : List EnvVar) (p : EnvVar → Bool) :
    ((envVars.filter p).getLast?).isSome = true ↔ ∃ e ∈ envVars, p e = true := by
  rw [List.getLast?_isSome]
  constructor
  · intro h
    obtain ⟨e, he⟩ := List.exists_mem_of_ne_nil _ h
    rw [List.mem_filter] at he
    exact ⟨e, he.1, he.2⟩
  · rintro ⟨e, he, hpe⟩
    exact List.ne_nil_of_mem (List.mem_filter.2 ⟨he, hpe⟩)

/-! ## Environment-variable routing -/

/-- C1: a key `k` is in `getConfigMapData envVars "CM_"` exactly when some entry is
named `CM_` followed by `k`, and the map then gives the value of the last such entry;
the same holds of `getSecretData envVars "SEC_"` with the bytes of the value; entries
without the prefix contribute nothing. -/
theorem getData_routes_prefixed_entries (envVars : List EnvVar) (k : String) :
    (k ∈ (getConfigMapData envVars "CM_").keys ↔ ∃ e ∈ envVars, e.Name = "CM_" ++ k)
    ∧ (getConfigMapData envVars "CM_").lookup k
        = ((envVars.filter (fun e => decide (e.Name = "CM_" ++ k))).getLast?).map
            (fun e => e.Value)
    ∧ getConfigMapData envVars "CM_"
        = getConfigMapData (envVars.filter (fun e => HasPrefix e.Name "CM_")) "CM_"
    ∧ (k ∈ (getSecretData envVars "SEC_").keys ↔ ∃ e ∈ envVars, e.Name = "SEC_" ++ k)
    ∧ (getSecretData envVars "SEC_").lookup k
        = ((envVars.filter (fun e => decide (e.Name = "SEC_" ++ k))).getLast?).map
            (fun e => bytesOf e.Value)
    ∧ getSecretData envVars "SEC_"
        = getSecretData (envVars.filter (fun e => HasPrefix e.Name "SEC_")) "SEC_" := by
  have hc := lookup_fold_routed (fun v => v) "CM_" envVars k
  have hs := lookup_fold_routed bytesOf "SEC_" envVars k
  refine ⟨?_, hc, fold_routed_filter (fun v => v) "CM_" envVars, ?_, hs,
    fold_routed_filter bytesOf "SEC_" envVars⟩
  · rw [GoMap.mem_keys_iff]
    unfold getConfigMapData
    rw [hc, Option.isSome_map', isSome_getLast?_filter_iff]
    simp
  · rw [GoMap.mem_keys_iff]
    unfold getSecretData
    rw [hs, Option.isSome_map', isSome_getLast?_filter_iff]
    simp

/-! ## The Deployment env list -/

/-- A loop that appends one element per input is a `map`. -/
theorem foldl_append_singleton {α β : Type} (f : α → β) (l : List α) (acc : List β) :
    l.foldl (fun acc x => acc ++ [f x]) acc = acc ++ l.map f := by
  induction l generalizing acc with
  | nil => simp
  | cons x rest ih => simp [ih]

/-- The env entry the loop of `reconcileDeployment` appends for one spec entry. -/
theorem deploymentEnvVars_eq_map (app : Application) :
    deploymentEnvVars app = app.Spec.EnvVars.map (fun envVar =>
      if HasPrefix envVar.Name "CM_" then
        ({ Name := TrimPrefix envVar.Name "CM_", Value := "",
           ValueFrom := some
             { ConfigMapKeyRef := some
                 { Name := getConfigMapName app, Key := TrimPrefix envVar.Name "CM_" },
               SecretKeyRef := none } } : corev1.EnvVar)
      else if HasPrefix envVar.Name "SEC_" then
        { Name := TrimPrefix envVar.Name "SEC_", Value := "",
          ValueFrom := some
            { ConfigMapKeyRef := none,
              SecretKeyRef := some
                { Name := getSecretName app, Key := TrimPrefix envVar.Name "SEC_" } } }
      else { Name := envVar.Name, Value := envVar.Value, ValueFrom := none }) := by
  unfold deploymentEnvVars
  rw [← List.nil_append (List.map _ _), ← foldl_append_singleton]
  congr 1
  funext envVars envVar
  split
  · rfl
  · split <;> rfl

/-- The Deployment that `reconcileDeployment` applies is the one it built. -/
theorem reconcileDeployment_calls (r : ApplicationReconciler) (c : Cluster) (app : Application) :
    (r.reconcileDeployment c app).calls
      = match r.buildDeployment app with
        | none => []
        | some d => [.patch (.deployment d)] := by
  unfold ApplicationReconciler.reconcileDeployment
  cases r.buildDeployment app with
  | none => rfl
  | some d =>
    simp only
    split <;> rfl

/-- The single container of the Deployment built carries the env list of the loop. -/
theorem buildDeployment_env (r : ApplicationReconciler) (app : Application)
    (d : appsv1.Deployment) (h : r.buildDeployment app = some d) :
    d.Spec.Template.Spec.Containers.map (fun ctr => ctr.Env) = [deploymentEnvVars app] := by
  unfold ApplicationReconciler.buildDeployment at h
  split at h
  · exact absurd h (by simp)
  · split at h
    · exact absurd h (by simp)
    · cases h
      rfl

/-- C2: the container env list built by `reconcileDeployment` has the length and the
order of `spec.envVars`; its `i`-th entry is the stripped name with a ConfigMap key
reference to `<app>-config` for a `CM_` name, otherwise the stripped name with a Secret
key reference to `<app>-secret` for a `SEC_` name, otherwise the unchanged name with the
literal value; and this list is the env of the one container of the Deployment built
and applied. -/
theorem reconcileDeployment_env_rewrites (r : ApplicationReconciler) (c : Cluster)
    (app : Application) :
    (deploymentEnvVars app).length = app.Spec.EnvVars.length
    ∧ (∀ (i : Nat) (e : EnvVar), app.Spec.EnvVars[i]? = some e →
        (deploymentEnvVars app)[i]? = some
          (if HasPrefix e.Name "CM_" then
            { Name := TrimPrefix e.Name "CM_", Value := "",
              ValueFrom := some
                { ConfigMapKeyRef := some
                    { Name := app.Name ++ "-config", Key := TrimPrefix e.Name "CM_" },
                  SecretKeyRef := none } }
          else if HasPrefix e.Name "SEC_" then
            { Name := TrimPrefix e.Name "SEC_", Value := "",
              ValueFrom := some
                { ConfigMapKeyRef := none,
                  SecretKeyRef := some
                    { Name := app.Name ++ "-secret", Key := TrimPrefix e.Name "SEC_" } } }
          else { Name := e.Name, Value := e.Value, ValueFrom := none }))
    ∧ (∀ d : appsv1.Deployment, r.buildDeployment app = some d →
        d.Spec.Template.Spec.Containers.map (fun ctr => ctr.Env) = [deploymentEnvVars app])
    ∧ (∀ d : appsv1.Deployment,
        ApiCall.patch (.deployment d) ∈ (r.reconcileDeployment c app).calls →
        r.buildDeployment app = some d) := by
  refine ⟨?_, ?_, buildDeployment_env r app, ?_⟩
  · rw [deploymentEnvVars_eq_map, List.length_map]
  · intro i e hi
    rw [deploymentEnvVars_eq_map, List.getElem?_map, hi]
    rfl
  · intro d hd
    rw [reconcileDeployment_calls] at hd
    cases hb : r.buildDeployment app with
    | none => rw [hb] at hd; simp at hd
    | some d' =>
      rw [hb] at hd
      simp at hd
      rw [hd]

/-- C3, as stated, fails: with `CM_FOO=bar` and `FOO=baz` in the spec, the Deployment
built has an env entry named `FOO` that carries the literal `baz` and no reference. -/
theorem env_entry_named_FOO_may_be_literal :
    ¬ (∀ (r : ApplicationReconciler) (app : Application) (d : appsv1.Deployment),
        r.buildDeployment app = some d →
        (∃ e ∈ app.Spec.EnvVars, e.Name = "CM_FOO") →
        ∀ ctr ∈ d.Spec.Template.Spec.Containers, ∀ x ∈ ctr.Env, x.Name = "FOO" →
          x.Value = "" ∧ x.ValueFrom = configMapRef (app.Name ++ "-config") "FOO") := by
  intro h
  have hd : plainReconciler.buildDeployment fooApp
      = some ((plainReconciler.buildDeployment fooApp).getD
          ⟨⟨"", ""⟩, ⟨"", "", [], [], []⟩, ⟨none, none, ⟨[], ⟨[]⟩⟩⟩⟩) := by decide
  have h' := h plainReconciler fooApp _ hd (by decide)
    { Name := "demo", Image := "x:1", Ports := [⟨8080⟩],
      Env := deploymentEnvVars fooApp, Resources := ⟨[], []⟩ } (by decide)
    { Name := "FOO", Value := "baz", ValueFrom := none } (by decide) rfl
  exact absurd h'.1 (by decide)

/-- C3, amended: when `spec.envVars` has an entry named `CM_` followed by `k`, the one
container of the Deployment built has an env entry named `k` that references key `k`
of `<app>-config` and carries no literal value; and when no spec entry is named `k`
or `SEC_` followed by `k`, every env entry named `k` is of that form. -/
theorem env_entry_for_CM_key (r : ApplicationReconciler) (app : Application) (k : String)
    (d : appsv1.Deployment) (hd : r.buildDeployment app = some d)
    (hcm : ∃ e ∈ app.Spec.EnvVars, e.Name = "CM_" ++ k) :
    ∃ ctr, d.Spec.Template.Spec.Containers = [ctr]
      ∧ ({ Name := k, Value := "", ValueFrom := configMapRef (app.Name ++ "-config") k }
          : corev1.EnvVar) ∈ ctr.Env
      ∧ ((∀ e ∈ app.Spec.EnvVars, e.Name ≠ k ∧ e.Name ≠ "SEC_" ++ k) →
          ∀ x ∈ ctr.Env, x.Name = k →
            x.Value = "" ∧ x.ValueFrom = configMapRef (app.Name ++ "-config") k) := by
  have henv := buildDeployment_env r app d hd
  cases hc : d.Spec.Template.Spec.Containers with
  | nil => rw [hc] at henv; simp at henv
  | cons ctr rest =>
    rw [hc] at henv
    simp only [List.map_cons, List.cons.injEq, List.map_eq_nil_iff] at henv
    obtain ⟨hEnv, hrest⟩ := henv
    subst hrest
    refine ⟨ctr, rfl, ?_, ?_⟩
    · obtain ⟨e, he, hn⟩ := hcm
      rw [hEnv, deploymentEnvVars_eq_map, List.mem_map]
      refine ⟨e, he, ?_⟩
      have h1 := (routed_iff e.Name "CM_" k).2 hn
      rw [if_pos h1.1, h1.2]
      rfl
    · intro hno x hx hxk
      rw [hEnv, deploymentEnvVars_eq_map, List.mem_map] at hx
      obtain ⟨e, he, hfe⟩ := hx
      by_cases h1 : HasPrefix e.Name "CM_" = true
      · rw [if_pos h1] at hfe
        subst hfe
        simp only at hxk
        subst hxk
        exact ⟨rfl, rfl⟩
      · rw [if_neg h1] at hfe
        by_cases h2 : HasPrefix e.Name "SEC_" = true
        · rw [if_pos h2] at hfe
          subst hfe
          simp only at hxk
          exact absurd ((routed_iff e.Name "SEC_" k).1 ⟨h2, hxk⟩) (hno e he).2
        · rw [if_neg h2] at hfe
          subst hfe
          exact absurd hxk (hno e he).1

/-- The amended C3 at the Application of the end-to-end scenario with `CM_FOO=bar`. -/
theorem env_entry_for_CM_key_witness :
    ∃ ctr, ((plainReconciler.buildDeployment
          { demoApp with Spec := { demoApp.Spec with EnvVars := [⟨"CM_FOO", "bar"⟩] } }).getD
          ⟨⟨"", ""⟩, ⟨"", "", [], [], []⟩, ⟨none, none, ⟨[], ⟨[]⟩⟩⟩⟩).Spec.Template.Spec.Containers
        = [ctr]
      ∧ ({ Name := "FOO", Value := "", ValueFrom := configMapRef ("demo" ++ "-config") "FOO" }
          : corev1.EnvVar) ∈ ctr.Env
      ∧ ((∀ e ∈ [(⟨"CM_FOO", "bar"⟩ : EnvVar)], e.Name ≠ "FOO" ∧ e.Name ≠ "SEC_" ++ "FOO") →
          ∀ x ∈ ctr.Env, x.Name = "FOO" →
            x.Value = "" ∧ x.ValueFrom = configMapRef ("demo" ++ "-config") "FOO") :=
  env_entry_for_CM_key plainReconciler
    { demoApp with Spec := { demoApp.Spec with EnvVars := [⟨"CM_FOO", "bar"⟩] } } "FOO" _
    (by decide) (by decide)

/-! ## Derived names -/

theorem issuerName_eq (n : String) : issuerName n = "app-" ++ n ++ "-issuer" := by
  apply String.ext
  simp [issuerName, Join]

/-- C4: the derived names are `<app>-config`, `<app>-secret`, `<app>-deployment`,
`<app>-service`, `<app>-ingress`, and `app-<namespace>-issuer` for the issuer. -/
theorem derived_names (app : Application) (n : String) :
    getConfigMapName app = app.Name ++ "-config"
    ∧ getSecretName app = app.Name ++ "-secret"
    ∧ getDeploymentName app = app.Name ++ "-deployment"
    ∧ getServiceName app = app.Name ++ "-service"
    ∧ getIngressName app = app.Name ++ "-ingress"
    ∧ issuerName n = "app-" ++ n ++ "-issuer" :=
  ⟨rfl, rfl, rfl, rfl, rfl, issuerName_eq n⟩

/-- C5: `issuerName` is injective, so two distinct namespaces never share an issuer
name. -/
theorem issuerName_injective (n₁ n₂ : String) (h : issuerName n₁ = issuerName n₂) : n₁ = n₂ := by
  rw [issuerName_eq, issuerName_eq] at h
  have h' := congrArg String.data h
  simp only [String.data_append, List.append_cancel_right_eq, List.append_cancel_left_eq] at h'
  exact String.ext h'

/-- C5 at two equal namespaces. -/
theorem issuerName_injective_witness : issuerName "ns1" = issuerName "ns1" ∧ "ns1" = "ns1" :=
  ⟨rfl, issuerName_injective "ns1" "ns1" rfl⟩

/-! ## What create-or-update issues -/

theorem wrapErr_calls (out : Outcome) (pre : String) : (out.wrapErr pre).calls = out.calls := by
  unfold Outcome.wrapErr
  split <;> rfl

theorem wrapErr_cluster (out : Outcome) (pre : String) :
    (out.wrapErr pre).cluster = out.cluster := by
  unfold Outcome.wrapErr
  split <;> rfl

theorem wrapErr_written (out : Outcome) (pre : String) :
    (out.wrapErr pre).written = out.written := by
  unfold Outcome.written
  rw [wrapErr_calls]

theorem wrapErr_result_none (out : Outcome) (pre : String) :
    (out.wrapErr pre).result = .returned none ↔ out.result = .returned none := by
  unfold Outcome.wrapErr
  split
  · next err h => simp [h]
  · rfl

theorem mutate_ok {α : Type} [Resource α] (f : α → Option α) (ns name : String) (obj o : α)
    (h : mutate f ns name obj = some (.ok o)) : f obj = some o ∧ hasKey ns name o = true := by
  unfold mutate at h
  split at h
  · exact absurd h (by simp)
  · next o' hf =>
    split at h
    · next hk =>
      simp only [Option.some.injEq, Except.ok.injEq] at h
      subst h
      exact ⟨hf, hk⟩
    · simp at h

theorem Get_ok {α : Type} [Resource α] (r : ApplicationReconciler) (c : Cluster)
    (ns name : String) (o : α) (h : r.Get c ns name = .ok o) :
    (c.find ns name : Option α) = some o ∧ r.fault (.get (Resource.kind α) ns name) = none := by
  unfold ApplicationReconciler.Get at h
  split at h
  · exact absurd h (by simp)
  · next hfault =>
    split at h
    · next o' hfind =>
      simp only [Except.ok.injEq] at h
      subst h
      exact ⟨hfind, hfault⟩
    · exact absurd h (by simp)

/-- The calls of `CreateOrUpdate`: the read alone, or the read followed by the create
of the mutated fresh object, or the read followed by the update of the mutated stored
object. -/
theorem CreateOrUpdate_calls {α : Type} [Resource α] (r : ApplicationReconciler) (c : Cluster)
    (obj : α) (f : α → Option α) :
    (CreateOrUpdate r c obj f).2.calls
      = [.get (Resource.kind α) (Resource.objectMeta obj).Namespace (Resource.objectMeta obj).Name]
    ∨ (∃ o, f obj = some o
        ∧ (CreateOrUpdate r c obj f).2.calls
          = [.get (Resource.kind α) (Resource.objectMeta obj).Namespace
              (Resource.objectMeta obj).Name, .create (Resource.wrap o)])
    ∨ (∃ existing o,
        (c.find (Resource.objectMeta obj).Namespace (Resource.objectMeta obj).Name : Option α)
          = some existing
        ∧ f existing = some o
        ∧ (CreateOrUpdate r c obj f).2.calls
          = [.get (Resource.kind α) (Resource.objectMeta obj).Namespace
              (Resource.objectMeta obj).Name, .update (Resource.wrap o)]) := by
  unfold CreateOrUpdate
  simp only
  cases hg : (r.Get c (Resource.objectMeta obj).Namespace (Resource.objectMeta obj).Name
      : Except GoError α) with
  | error e =>
    simp only
    by_cases hnf : e.notFound = true
    · simp only [hnf, Bool.not_true, Bool.false_eq_true, if_false]
      cases hm : mutate f (Resource.objectMeta obj).Namespace (Resource.objectMeta obj).Name obj with
      | none => exact Or.inl rfl
      | some res =>
        cases res with
        | error e' => exact Or.inl rfl
        | ok o =>
          simp only
          refine Or.inr (Or.inl ⟨o, (mutate_ok f _ _ obj o hm).1, ?_⟩)
          cases hc : r.Create c o with
          | mk c' e' => cases e' <;> rfl
    · simp only [hnf, Bool.not_false, if_true]
      exact Or.inl trivial
  | ok existing =>
    simp only
    have hfind := (Get_ok r c _ _ existing hg).1
    cases hm : mutate f (Resource.objectMeta obj).Namespace (Resource.objectMeta obj).Name
        existing with
    | none => exact Or.inl rfl
    | some res =>
      cases res with
      | error e' => exact Or.inl rfl
      | ok o =>
        simp only
        by_cases heq : Resource.deepEqual existing o = true
        · simp only [heq, if_true]
          exact Or.inl trivial
        · simp only [heq, if_false]
          refine Or.inr (Or.inr ⟨existing, o, hfind, (mutate_ok f _ _ existing o hm).1, ?_⟩)
          cases hc : r.Update c o with
          | mk c' e' => cases e' <;> rfl

/-- Every object `CreateOrUpdate` writes is the result of the mutate function. -/
theorem CreateOrUpdate_written {α : Type} [Resource α] (r : ApplicationReconciler) (c : Cluster)
    (obj : α) (f : α → Option α) (x : Object)
    (hx : x ∈ (CreateOrUpdate r c obj f).2.written) :
    ∃ base o, f base = some o ∧ x = Resource.wrap o := by
  unfold Outcome.written at hx
  rcases CreateOrUpdate_calls r c obj f with h | ⟨o, hf, h⟩ | ⟨existing, o, _, hf, h⟩
  · rw [h] at hx
    simp [ApiCall.written] at hx
  · rw [h] at hx
    simp only [List.filterMap_cons, ApiCall.written, List.filterMap_nil, List.mem_singleton] at hx
    exact ⟨obj, o, hf, hx⟩
  · rw [h] at hx
    simp only [List.filterMap_cons, ApiCall.written, List.filterMap_nil, List.mem_singleton] at hx
    exact ⟨existing, o, hf, hx⟩

/-! ## What each synchronizer writes -/

theorem reconcileConfigMap_written (r : ApplicationReconciler) (c : Cluster) (app : Application)
    (x : Object) (hx : x ∈ (r.reconcileConfigMap c app).written) :
    (getConfigMapData app.Spec.EnvVars "CM_").len ≠ 0
    ∧ ∃ base : corev1.ConfigMap, x = .configMap
        { base with
          ObjectMeta := { base.ObjectMeta with Labels := getLabels app }
          Data := getConfigMapData app.Spec.EnvVars "CM_" } := by
  unfold ApplicationReconciler.reconcileConfigMap at hx
  simp only at hx
  split at hx
  · exfalso
    split at hx
    · split at hx <;> simp [Outcome.written, ApiCall.written] at hx
    · simp [Outcome.written, ApiCall.written] at hx
  · next hlen =>
    rw [wrapErr_written] at hx
    obtain ⟨base, o, hf, rfl⟩ := CreateOrUpdate_written r c _ _ x hx
    simp only [Option.some.injEq] at hf
    exact ⟨hlen, base, by rw [← hf]; rfl⟩

theorem reconcileSecret_written (r : ApplicationReconciler) (c : Cluster) (app : Application)
    (x : Object) (hx : x ∈ (r.reconcileSecret c app).written) :
    (getSecretData app.Spec.EnvVars "SEC_").len ≠ 0
    ∧ ∃ base : corev1.Secret, x = .secret
        { base with
          ObjectMeta := { base.ObjectMeta with Labels := getLabels app }
          Data := getSecretData app.Spec.EnvVars "SEC_" } := by
  unfold ApplicationReconciler.reconcileSecret at hx
  simp only at hx
  split at hx
  · exfalso
    split at hx
    · split at hx <;> simp [Outcome.written, ApiCall.written] at hx
    · simp [Outcome.written, ApiCall.written] at hx
  · next hlen =>
    rw [wrapErr_written] at hx
    obtain ⟨base, o, hf, rfl⟩ := CreateOrUpdate_written r c _ _ x hx
    simp only [Option.some.injEq] at hf
    exact ⟨hlen, base, by rw [← hf]; rfl⟩

theorem reconcileDeployment_written (r : ApplicationReconciler) (c : Cluster) (app : Application)
    (x : Object) (hx : x ∈ (r.reconcileDeployment c app).written) :
    ∃ d, r.buildDeployment app = some d ∧ x = .deployment d := by
  unfold Outcome.written at hx
  rw [reconcileDeployment_calls] at hx
  cases hb : r.buildDeployment app with
  | none => rw [hb] at hx; simp at hx
  | some d =>
    rw [hb] at hx
    simp only [List.filterMap_cons, ApiCall.written, List.filterMap_nil, List.mem_singleton] at hx
    exact ⟨d, rfl, hx⟩

theorem buildDeployment_meta (r : ApplicationReconciler) (app : Application)
    (d : appsv1.Deployment) (h : r.buildDeployment app = some d) :
    d.ObjectMeta.Labels = getLabels app
    ∧ d.ObjectMeta.OwnerReferences = [r.NewControllerRef app]
    ∧ d.Spec.Selector = some { MatchLabels := getLabels app }
    ∧ d.Spec.Template.Labels = getLabels app := by
  unfold ApplicationReconciler.buildDeployment at h
  split at h
  · exact absurd h (by simp)
  · split at h
    · exact absurd h (by simp)
    · cases h
      exact ⟨rfl, rfl, rfl, rfl⟩

theorem reconcileService_written (r : ApplicationReconciler) (c : Cluster) (app : Application)
    (x : Object) (hx : x ∈ (r.reconcileService c app).written) :
    ∃ (svc : ServiceSpec) (base : corev1.Service), app.Spec.Service = some svc ∧ x = .service
        { ObjectMeta :=
            { base.ObjectMeta with
              Labels := getLabels app
              OwnerReferences := [r.NewControllerRef app]
              Annotations := svc.Annotations },
          Spec :=
            { base.Spec with
              Selector := getLabels app
              Type_ := if svc.Type_ ≠ "" then svc.Type_ else corev1.ServiceTypeClusterIP
              Ports :=
                [{ Name := "http", Port := svc.Port,
                   TargetPort := .int app.Spec.ContainerPort,
                   Protocol := corev1.ProtocolTCP }] } } := by
  unfold ApplicationReconciler.reconcileService at hx
  split at hx
  · simp [Outcome.written] at hx
  · next svc hsvc =>
    rw [wrapErr_written] at hx
    obtain ⟨base, o, hf, rfl⟩ := CreateOrUpdate_written r c _ _ x hx
    simp only [Option.some.injEq] at hf
    exact ⟨svc, base, hsvc, by rw [← hf]; rfl⟩

theorem reconcileIngress_written (r : ApplicationReconciler) (c : Cluster) (app : Application)
    (x : Object) (hx : x ∈ (r.reconcileIngress c app).written) :
    ∃ (ing : IngressSpec) (svc : ServiceSpec) (base : networkingv1.Ingress),
      app.Spec.Ingress = some ing ∧ app.Spec.Service = some svc ∧ x = .ingress
        { ObjectMeta :=
            { base.ObjectMeta with
              Labels := getLabels app
              OwnerReferences := [r.NewControllerRef app]
              Annotations := ing.Annotations },
          Spec :=
            { base.Spec with
              IngressClassName := some ingressClassName
              Rules :=
                [{ Host := ing.Host,
                   HTTP := some
                     { Paths :=
                         [{ Path := ing.Path,
                            PathType := some networkingv1.PathTypePrefix,
                            Backend :=
                              { Service := some
                                  { Name := getServiceName app,
                                    Port := { Name := "", Number := svc.Port } } } }] } }] } } := by
  unfold ApplicationReconciler.reconcileIngress at hx
  split at hx
  · exfalso
    split at hx
    · split at hx <;> simp [Outcome.written, ApiCall.written] at hx
    · simp [Outcome.written, ApiCall.written] at hx
  · next ing hing =>
    rw [wrapErr_written] at hx
    obtain ⟨base, o, hf, rfl⟩ := CreateOrUpdate_written r c _ _ x hx
    cases hsvc : app.Spec.Service with
    | none => rw [hsvc] at hf; simp at hf
    | some svc =>
      rw [hsvc] at hf
      simp only [Option.some.injEq] at hf
      exact ⟨ing, svc, base, hing, rfl, by rw [← hf]; rfl⟩

/-! ## Labels -/

/-- C6: every object written by one of the five synchronizers for the Application
carries the labels `app = <name>` and `managed = application-operator`; for the
Deployment the selector's match labels and the pod template's labels carry them too. -/
theorem written_children_are_labelled (r : ApplicationReconciler) (c : Cluster)
    (app : Application) :
    (∀ x ∈ (r.reconcileConfigMap c app).written ++ (r.reconcileSecret c app).written
          ++ (r.reconcileDeployment c app).written ++ (r.reconcileService c app).written
          ++ (r.reconcileIngress c app).written,
        x.objectMeta.Labels.lookup "app" = some app.Name
        ∧ x.objectMeta.Labels.lookup "managed" = some "application-operator")
    ∧ (∀ d : appsv1.Deployment, Object.deployment d ∈ (r.reconcileDeployment c app).written →
        ∃ sel, d.Spec.Selector = some sel
          ∧ sel.MatchLabels.lookup "app" = some app.Name
          ∧ sel.MatchLabels.lookup "managed" = some "application-operator"
          ∧ d.Spec.Template.Labels.lookup "app" = some app.Name
          ∧ d.Spec.Template.Labels.lookup "managed" = some "application-operator") := by
  have hl : (getLabels app).lookup "app" = some app.Name
      ∧ (getLabels app).lookup "managed" = some "application-operator" := by
    simp [getLabels, GoMap.lookup]
  constructor
  · intro x hx
    simp only [List.mem_append] at hx
    rcases hx with (((hx | hx) | hx) | hx) | hx
    · obtain ⟨_, base, rfl⟩ := reconcileConfigMap_written r c app x hx
      exact hl
    · obtain ⟨_, base, rfl⟩ := reconcileSecret_written r c app x hx
      exact hl
    · obtain ⟨d, hd, rfl⟩ := reconcileDeployment_written r c app x hx
      have hm := (buildDeployment_meta r app d hd).1
      simp only [Object.objectMeta, hm]
      exact hl
    · obtain ⟨svc, base, _, rfl⟩ := reconcileService_written r c app x hx
      exact hl
    · obtain ⟨ing, svc, base, _, _, rfl⟩ := reconcileIngress_written r c app x hx
      exact hl
  · intro d hd
    obtain ⟨d', hd', hdd⟩ := reconcileDeployment_written r c app _ hd
    cases hdd
    obtain ⟨_, _, hsel, htl⟩ := buildDeployment_meta r app d hd'
    exact ⟨_, hsel, hl.1, hl.2, by rw [htl]; exact hl.1, by rw [htl]; exact hl.2⟩

/-! ## The store -/

instance : LawfulResource corev1.ConfigMap where
  sel_upd _ _ := rfl
  upd_upd _ _ _ := rfl
  deepEqual_refl x := by
    simp [Resource.deepEqual, corev1.ConfigMap.deepEqual, metav1.ObjectMeta.deepEqual,
      GoMap.eqv_refl]

instance : LawfulResource corev1.Secret where
  sel_upd _ _ := rfl
  upd_upd _ _ _ := rfl
  deepEqual_refl x := by
    simp [Resource.deepEqual, corev1.Secret.deepEqual, metav1.ObjectMeta.deepEqual,
      GoMap.eqv_refl]

instance : LawfulResource appsv1.Deployment where
  sel_upd _ _ := rfl
  upd_upd _ _ _ := rfl
  deepEqual_refl x := by simp [Resource.deepEqual]

instance : LawfulResource corev1.Service where
  sel_upd _ _ := rfl
  upd_upd _ _ _ := rfl
  deepEqual_refl x := by
    simp [Resource.deepEqual, corev1.Service.deepEqual, metav1.ObjectMeta.deepEqual,
      GoMap.eqv_refl]

instance : LawfulResource networkingv1.Ingress where
  sel_upd _ _ := rfl
  upd_upd _ _ _ := rfl
  deepEqual_refl x := by
    simp [Resource.deepEqual, networkingv1.Ingress.deepEqual, metav1.ObjectMeta.deepEqual,
      GoMap.eqv_refl]

theorem hasKey_iff {α : Type} [Resource α] (ns name : String) (o : α) :
    hasKey ns name o = true
      ↔ (Resource.objectMeta o).Namespace = ns ∧ (Resource.objectMeta o).Name = name := by
  simp [hasKey]

theorem find_hasKey {α : Type} [Resource α] (c : Cluster) (ns name : String) (o : α)
    (h : c.find ns name = some o) : hasKey ns name o = true := by
  unfold Cluster.find at h
  exact List.find?_some h

theorem find_erase {α : Type} [Resource α] [LawfulResource α] (c : Cluster) (ns name : String)
    (o : α) (h : hasKey ns name o = true) : ((c.erase o).find ns name : Option α) = none := by
  obtain ⟨h1, h2⟩ := (hasKey_iff ns name o).1 h
  unfold Cluster.find Cluster.erase
  rw [LawfulResource.sel_upd, h1, h2, List.find?_eq_none]
  intro x hx
  have := (List.mem_filter.1 hx).2
  simpa using this

theorem find_insert {α : Type} [Resource α] [LawfulResource α] (c : Cluster) (ns name : String)
    (o : α) (hnone : (c.find ns name : Option α) = none) (h : hasKey ns name o = true) :
    ((c.insert o).find ns name : Option α) = some o := by
  unfold Cluster.find at hnone ⊢
  unfold Cluster.insert
  rw [LawfulResource.sel_upd, List.find?_append, hnone]
  simp [List.find?, h]

theorem find_replace {α : Type} [Resource α] [LawfulResource α] (c : Cluster) (ns name : String)
    (x o : α) (hx : (c.find ns name : Option α) = some x) (h : hasKey ns name o = true) :
    ((c.replace o).find ns name : Option α) = some o := by
  obtain ⟨h1, h2⟩ := (hasKey_iff ns name o).1 h
  unfold Cluster.find at hx ⊢
  unfold Cluster.replace
  rw [LawfulResource.sel_upd, h1, h2]
  generalize (Resource.sel c : List α) = l at hx
  induction l with
  | nil => simp at hx
  | cons y rest ih =>
    by_cases hy : hasKey ns name y = true
    · simp [List.find?, hy, h]
    · simp only [List.find?, hy] at hx
      simp only [List.map_cons, hy, if_false, List.find?, Bool.false_eq_true]
      exact ih hx

theorem Get_of_find {α : Type} [Resource α] (r : ApplicationReconciler) (c : Cluster)
    (ns name : String) (o : α) (hfind : c.find ns name = some o)
    (hfault : r.fault (.get (Resource.kind α) ns name) = none) : r.Get c ns name = .ok o := by
  unfold ApplicationReconciler.Get
  rw [hfault]
  simp only
  rw [hfind]

theorem Get_of_find_none {α : Type} [Resource α] (r : ApplicationReconciler) (c : Cluster)
    (ns name : String) (hfind : (c.find ns name : Option α) = none) :
    ∃ e, (r.Get c ns name : Except GoError α) = .error e := by
  unfold ApplicationReconciler.Get
  cases r.fault (.get (Resource.kind α) ns name) with
  | some m => exact ⟨_, rfl⟩
  | none =>
    simp only
    rw [hfind]
    exact ⟨_, rfl⟩

theorem Get_error_notFound {α : Type} [Resource α] (r : ApplicationReconciler) (c : Cluster)
    (ns name : String) (e : GoError) (h : (r.Get c ns name : Except GoError α) = .error e)
    (hnf : e.notFound = true) : (c.find ns name : Option α) = none := by
  unfold ApplicationReconciler.Get at h
  split at h
  · simp only [Except.error.injEq] at h
    subst h
    simp [errFault] at hnf
  · split at h
    · exact absurd h (by simp)
    · next hfind => exact hfind

theorem Delete_of_find {α : Type} [Resource α] (r : ApplicationReconciler) (c : Cluster)
    (ns name : String) (o : α) (hfind : c.find ns name = some o)
    (hfault : r.fault (.delete (Resource.wrap o)) = none) :
    r.Delete c o = (c.erase o, none) := by
  obtain ⟨h1, h2⟩ := (hasKey_iff ns name o).1 (find_hasKey c ns name o hfind)
  unfold ApplicationReconciler.Delete
  rw [hfault]
  simp only
  rw [h1, h2, hfind]

theorem getData_nil_of_no_prefix {V : Type} (g : String → V) (pre : String)
    (envVars : List EnvVar) (h : ∀ e ∈ envVars, HasPrefix e.Name pre = false) :
    envVars.foldl
        (fun (data : GoMap V) envVar =>
          if HasPrefix envVar.Name pre then data.set (TrimPrefix envVar.Name pre) (g envVar.Value)
          else data)
        [] = [] := by
  rw [fold_routed_filter]
  have : envVars.filter (fun e => HasPrefix e.Name pre) = [] := by
    rw [List.filter_eq_nil_iff]
    intro e he
    simp [h e he]
  rw [this]
  rfl

/-! ## Owner references -/

/-- C7 at its failing input: `demo-config` exists with an owner reference to another
UID; `reconcileConfigMap` succeeds, updates it, and the object written and stored
still carries that reference, not one to the Application reconciled. The same holds
of `reconcileSecret`, while `reconcileService` replaces the owner references. -/
theorem update_keeps_stale_owner_reference :
    (plainReconciler.reconcileConfigMap staleCluster demoApp).result = .returned none
    ∧ (plainReconciler.reconcileConfigMap staleCluster demoApp).written.map
        (fun x => x.objectMeta.OwnerReferences.map (fun ref => ref.UID)) = [["uid-0"]]
    ∧ ((plainReconciler.reconcileConfigMap staleCluster demoApp).cluster.configMaps.map
        (fun x => (x.Data, x.ObjectMeta.OwnerReferences.map (fun ref => ref.UID))))
        = [([("MODE", "prod")], ["uid-0"])]
    ∧ demoApp.UID = "uid-1"
    ∧ (plainReconciler.reconcileSecret staleSecretCluster secretApp).result = .returned none
    ∧ (plainReconciler.reconcileSecret staleSecretCluster secretApp).written.map
        (fun x => x.objectMeta.OwnerReferences.map (fun ref => ref.UID)) = [["uid-0"]] := by
  decide

/-! ## Absence of data is absence of the resource -/

theorem reconcileConfigMap_no_data (r : ApplicationReconciler) (c : Cluster) (app : Application)
    (hd : (getConfigMapData app.Spec.EnvVars "CM_").len = 0) :
    r.reconcileConfigMap c app
      = match (r.Get c app.Namespace (getConfigMapName app) : Except GoError corev1.ConfigMap) with
        | .error err =>
          if !err.notFound then
            ⟨c, [.get .ConfigMap app.Namespace (getConfigMapName app)],
              .returned (some (Errorf "failed to get ConfigMap: " (some err)))⟩
          else ⟨c, [.get .ConfigMap app.Namespace (getConfigMapName app)], .returned none⟩
        | .ok stored =>
          ⟨(r.Delete c stored).1,
            [.get .ConfigMap app.Namespace (getConfigMapName app), .delete (.configMap stored)],
            .returned (some (Errorf
              "configmap found but there is no configmap in env, failed to delete ConfigMap: "
              (r.Delete c stored).2))⟩ := by
  unfold ApplicationReconciler.reconcileConfigMap
  simp only [hd, if_true]

theorem reconcileSecret_no_data (r : ApplicationReconciler) (c : Cluster) (app : Application)
    (hd : (getSecretData app.Spec.EnvVars "SEC_").len = 0) :
    r.reconcileSecret c app
      = match (r.Get c app.Namespace (getSecretName app) : Except GoError corev1.Secret) with
        | .error err =>
          if !err.notFound then
            ⟨c, [.get .Secret app.Namespace (getSecretName app)],
              .returned (some (Errorf "failed to get Secret: " (some err)))⟩
          else ⟨c, [.get .Secret app.Namespace (getSecretName app)], .returned none⟩
        | .ok stored =>
          ⟨(r.Delete c stored).1,
            [.get .Secret app.Namespace (getSecretName app), .delete (.secret stored)],
            .returned (some (Errorf
              "secret found but there is no secret in env, failed to delete Secret: "
              (r.Delete c stored).2))⟩ := by
  unfold ApplicationReconciler.reconcileSecret
  simp only [hd, if_true]

/-- C8: without a `CM_` env var `reconcileConfigMap` writes nothing (no create, update
or patch); when `<app>-config` is in the store and the read of it succeeds it issues
the delete of it, after which, the delete succeeding, the store holds none; when it
is not in the store the only call is the read and the store is left as it is.
`reconcileSecret` does the same without a `SEC_` env var. Neither ever writes an
object with empty data. -/
theorem no_data_deletes_instead_of_writing (r : ApplicationReconciler) (c : Cluster)
    (app : Application) :
    ((∀ e ∈ app.Spec.EnvVars, HasPrefix e.Name "CM_" = false) →
      (r.reconcileConfigMap c app).written = []
      ∧ (∀ stored : corev1.ConfigMap,
          c.find app.Namespace (app.Name ++ "-config") = some stored →
          r.fault (.get .ConfigMap app.Namespace (app.Name ++ "-config")) = none →
          (r.reconcileConfigMap c app).calls
            = [.get .ConfigMap app.Namespace (app.Name ++ "-config"),
               .delete (.configMap stored)]
          ∧ (r.fault (.delete (.configMap stored)) = none →
              ((r.reconcileConfigMap c app).cluster.find app.Namespace (app.Name ++ "-config")
                : Option corev1.ConfigMap) = none))
      ∧ ((c.find app.Namespace (app.Name ++ "-config") : Option corev1.ConfigMap) = none →
          (r.reconcileConfigMap c app).calls
            = [.get .ConfigMap app.Namespace (app.Name ++ "-config")]
          ∧ (r.reconcileConfigMap c app).cluster = c))
    ∧ ((∀ e ∈ app.Spec.EnvVars, HasPrefix e.Name "SEC_" = false) →
      (r.reconcileSecret c app).written = []
      ∧ (∀ stored : corev1.Secret,
          c.find app.Namespace (app.Name ++ "-secret") = some stored →
          r.fault (.get .Secret app.Namespace (app.Name ++ "-secret")) = none →
          (r.reconcileSecret c app).calls
            = [.get .Secret app.Namespace (app.Name ++ "-secret"), .delete (.secret stored)]
          ∧ (r.fault (.delete (.secret stored)) = none →
              ((r.reconcileSecret c app).cluster.find app.Namespace (app.Name ++ "-secret")
                : Option corev1.Secret) = none))
      ∧ ((c.find app.Namespace (app.Name ++ "-secret") : Option corev1.Secret) = none →
          (r.reconcileSecret c app).calls
            = [.get .Secret app.Namespace (app.Name ++ "-secret")]
          ∧ (r.reconcileSecret c app).cluster = c))
    ∧ (∀ cm : corev1.ConfigMap, Object.configMap cm ∈ (r.reconcileConfigMap c app).written →
        cm.Data ≠ [])
    ∧ (∀ sec : corev1.Secret, Object.secret sec ∈ (r.reconcileSecret c app).written →
        sec.Data ≠ []) := by
  refine ⟨?_, ?_, ?_, ?_⟩
  · intro h
    have hd : getConfigMapData app.Spec.EnvVars "CM_" = [] :=
      getData_nil_of_no_prefix (fun v => v) "CM_" _ h
    have hrun := reconcileConfigMap_no_data r c app (by rw [hd]; rfl)
    refine ⟨?_, ?_, ?_⟩
    · rw [hrun]
      split
      · split <;> rfl
      · rfl
    · intro stored hfind hfault
      have hget := Get_of_find r c _ _ stored hfind hfault
      change r.Get c app.Namespace (getConfigMapName app) = .ok stored at hget
      rw [hrun, hget]
      refine ⟨rfl, ?_⟩
      intro hdel
      have := Delete_of_find r c _ _ stored hfind hdel
      simp only [this]
      exact find_erase c _ _ stored (find_hasKey c _ _ stored hfind)
    · intro hnone
      obtain ⟨e, hget⟩ := Get_of_find_none r c _ _ hnone
      change (r.Get c app.Namespace (getConfigMapName app) : Except GoError corev1.ConfigMap)
        = .error e at hget
      rw [hrun, hget]
      simp only
      split <;> exact ⟨rfl, rfl⟩
  · intro h
    have hd : getSecretData app.Spec.EnvVars "SEC_" = [] :=
      getData_nil_of_no_prefix bytesOf "SEC_" _ h
    have hrun := reconcileSecret_no_data r c app (by rw [hd]; rfl)
    refine ⟨?_, ?_, ?_⟩
    · rw [hrun]
      split
      · split <;> rfl
      · rfl
    · intro stored hfind hfault
      have hget := Get_of_find r c _ _ stored hfind hfault
      change r.Get c app.Namespace (getSecretName app) = .ok stored at hget
      rw [hrun, hget]
      refine ⟨rfl, ?_⟩
      intro hdel
      have := Delete_of_find r c _ _ stored hfind hdel
      simp only [this]
      exact find_erase c _ _ stored (find_hasKey c _ _ stored hfind)
    · intro hnone
      obtain ⟨e, hget⟩ := Get_of_find_none r c _ _ hnone
      change (r.Get c app.Namespace (getSecretName app) : Except GoError corev1.Secret)
        = .error e at hget
      rw [hrun, hget]
      simp only
      split <;> exact ⟨rfl, rfl⟩
  · intro cm hcm
    obtain ⟨hlen, base, hx⟩ := reconcileConfigMap_written r c app _ hcm
    cases hx
    intro hnil
    simp only at hnil
    exact hlen (by rw [hnil]; rfl)
  · intro sec hsec
    obtain ⟨hlen, base, hx⟩ := reconcileSecret_written r c app _ hsec
    cases hx
    intro hnil
    simp only at hnil
    exact hlen (by rw [hnil]; rfl)

/-! ## Repeating a synchronizer -/

theorem Create_ok {α : Type} [Resource α] (r : ApplicationReconciler) (c : Cluster) (o : α)
    (h : (r.Create c o).2 = none) :
    (r.Create c o).1 = c.insert o
    ∧ (c.find (Resource.objectMeta o).Namespace (Resource.objectMeta o).Name : Option α)
        = none := by
  unfold ApplicationReconciler.Create at h ⊢
  cases hf : r.fault (.create (Resource.wrap o)) with
  | some m => rw [hf] at h; simp at h
  | none =>
    rw [hf] at h
    simp only at h ⊢
    cases hfind : (c.find (Resource.objectMeta o).Namespace (Resource.objectMeta o).Name
        : Option α) with
    | some x => rw [hfind] at h; simp at h
    | none => exact ⟨rfl, rfl⟩

theorem Update_ok {α : Type} [Resource α] (r : ApplicationReconciler) (c : Cluster) (o : α)
    (h : (r.Update c o).2 = none) :
    (r.Update c o).1 = c.replace o
    ∧ ∃ x, (c.find (Resource.objectMeta o).Namespace (Resource.objectMeta o).Name : Option α)
        = some x := by
  unfold ApplicationReconciler.Update at h ⊢
  cases hf : r.fault (.update (Resource.wrap o)) with
  | some m => rw [hf] at h; simp at h
  | none =>
    rw [hf] at h
    simp only at h ⊢
    cases hfind : (c.find (Resource.objectMeta o).Namespace (Resource.objectMeta o).Name
        : Option α) with
    | some x => exact ⟨rfl, x, rfl⟩
    | none => rw [hfind] at h; simp at h

/-- After a `CreateOrUpdate` that returned no error, the stored object is settled. -/
theorem CreateOrUpdate_settles {α : Type} [Resource α] [LawfulResource α]
    (r : ApplicationReconciler) (c : Cluster) (obj : α) (f : α → Option α)
    (hidem : ∀ x y, f x = some y → f y = some y)
    (hfirst : (CreateOrUpdate r c obj f).2.result = .returned none) :
    Settled (CreateOrUpdate r c obj f).2.cluster (Resource.objectMeta obj).Namespace
      (Resource.objectMeta obj).Name f := by
  unfold CreateOrUpdate at hfirst ⊢
  simp only at hfirst ⊢
  cases hg : (r.Get c (Resource.objectMeta obj).Namespace (Resource.objectMeta obj).Name
      : Except GoError α) with
  | error e =>
    rw [hg] at hfirst
    simp only at hfirst ⊢
    by_cases hnf : e.notFound = true
    · simp only [hnf, Bool.not_true, Bool.false_eq_true, if_false] at hfirst ⊢
      have hnone := Get_error_notFound r c _ _ e hg hnf
      cases hm : mutate f (Resource.objectMeta obj).Namespace (Resource.objectMeta obj).Name obj with
      | none => rw [hm] at hfirst; simp at hfirst
      | some res =>
        rw [hm] at hfirst
        cases res with
        | error e' => simp at hfirst
        | ok o =>
          simp only at hfirst ⊢
          obtain ⟨hf, hk⟩ := mutate_ok f _ _ obj o hm
          cases hc : r.Create c o with
          | mk c' e' =>
            rw [hc] at hfirst
            cases e' with
            | some e'' => simp at hfirst
            | none =>
              simp only
              have hc' := (Create_ok r c o (by rw [hc])).1
              rw [hc] at hc'
              simp only at hc'
              subst hc'
              exact ⟨o, o, find_insert c _ _ o hnone hk, hidem obj o hf, hk,
                LawfulResource.deepEqual_refl o⟩
    · simp only [hnf, Bool.not_false, if_true] at hfirst
      simp at hfirst
  | ok existing =>
    rw [hg] at hfirst
    simp only at hfirst ⊢
    have hfind := (Get_ok r c _ _ existing hg).1
    cases hm : mutate f (Resource.objectMeta obj).Namespace (Resource.objectMeta obj).Name
        existing with
    | none => rw [hm] at hfirst; simp at hfirst
    | some res =>
      rw [hm] at hfirst
      cases res with
      | error e' => simp at hfirst
      | ok o =>
        simp only at hfirst ⊢
        obtain ⟨hf, hk⟩ := mutate_ok f _ _ existing o hm
        by_cases heq : Resource.deepEqual existing o = true
        · simp only [heq, if_true]
          exact ⟨existing, o, hfind, hf, hk, heq⟩
        · simp only [heq, if_false] at hfirst ⊢
          cases hc : r.Update c o with
          | mk c' e' =>
            rw [hc] at hfirst
            cases e' with
            | some e'' => simp at hfirst
            | none =>
              simp only
              have hc' := (Update_ok r c o (by rw [hc])).1
              rw [hc] at hc'
              simp only at hc'
              subst hc'
              exact ⟨o, o, find_replace c _ _ existing o hfind hk, hidem existing o hf, hk,
                LawfulResource.deepEqual_refl o⟩

/-- On a settled store `CreateOrUpdate` only reads. -/
theorem CreateOrUpdate_of_settled {α : Type} [Resource α] (r : ApplicationReconciler)
    (c : Cluster) (obj : α) (f : α → Option α)
    (h : Settled c (Resource.objectMeta obj).Namespace (Resource.objectMeta obj).Name f) :
    (CreateOrUpdate r c obj f).2.calls
        = [.get (Resource.kind α) (Resource.objectMeta obj).Namespace
            (Resource.objectMeta obj).Name]
    ∧ (CreateOrUpdate r c obj f).2.cluster = c := by
  obtain ⟨o, o', hfind, hf, hk, heq⟩ := h
  unfold CreateOrUpdate
  simp only
  cases hg : (r.Get c (Resource.objectMeta obj).Namespace (Resource.objectMeta obj).Name
      : Except GoError α) with
  | error e =>
    simp only
    by_cases hnf : e.notFound = true
    · have hnone := Get_error_notFound r c _ _ e hg hnf
      rw [hfind] at hnone
      exact absurd hnone (by simp)
    · simp only [hnf, Bool.not_false, if_true]
      exact ⟨trivial, trivial⟩
  | ok existing =>
    simp only
    have hfind' := (Get_ok r c _ _ existing hg).1
    rw [hfind] at hfind'
    simp only [Option.some.injEq] at hfind'
    subst hfind'
    have hm : mutate f (Resource.objectMeta obj).Namespace (Resource.objectMeta obj).Name o
        = some (.ok o') := by
      unfold mutate
      rw [hf]
      simp only [hk, if_true]
    rw [hm]
    simp only [heq, if_true]
    exact ⟨trivial, trivial⟩

/-- A second `CreateOrUpdate`, whatever its client faults, after one that returned no
error: the read alone, and the store left as it is. -/
theorem CreateOrUpdate_repeat {α : Type} [Resource α] [LawfulResource α]
    (r r' : ApplicationReconciler) (c : Cluster) (obj : α) (f : α → Option α) (pre pre' : String)
    (hidem : ∀ x y, f x = some y → f y = some y)
    (hfirst : ((CreateOrUpdate r c obj f).2.wrapErr pre).result = .returned none) :
    ((CreateOrUpdate r' ((CreateOrUpdate r c obj f).2.wrapErr pre).cluster obj f).2.wrapErr
        pre').calls
      = [.get (Resource.kind α) (Resource.objectMeta obj).Namespace
          (Resource.objectMeta obj).Name]
    ∧ ((CreateOrUpdate r' ((CreateOrUpdate r c obj f).2.wrapErr pre).cluster obj f).2.wrapErr
        pre').cluster
      = ((CreateOrUpdate r c obj f).2.wrapErr pre).cluster := by
  rw [wrapErr_result_none] at hfirst
  have hs := CreateOrUpdate_settles r c obj f hidem hfirst
  rw [wrapErr_calls, wrapErr_cluster, wrapErr_cluster]
  exact CreateOrUpdate_of_settled r' _ obj f hs

theorem replace_replace {α : Type} [Resource α] [LawfulResource α] (c : Cluster) (o : α) :
    (c.replace o).replace o = c.replace o := by
  unfold Cluster.replace
  rw [LawfulResource.sel_upd, LawfulResource.upd_upd, List.map_map]
  congr 1
  apply List.map_congr_left
  intro x _
  simp only [Function.comp]
  split
  · simp
  · next h => simp [h]

theorem insert_replace {α : Type} [Resource α] [LawfulResource α] (c : Cluster) (o : α)
    (hnone : (c.find (Resource.objectMeta o).Namespace (Resource.objectMeta o).Name : Option α)
      = none) :
    (c.insert o).replace o = c.insert o := by
  unfold Cluster.find at hnone
  rw [List.find?_eq_none] at hnone
  unfold Cluster.replace Cluster.insert
  rw [LawfulResource.sel_upd, LawfulResource.upd_upd, List.map_append]
  congr 1
  congr 1
  · conv => rhs; rw [← List.map_id (Resource.sel c : List α)]
    apply List.map_congr_left
    intro x hx
    simp [hnone x hx]
  · simp

theorem Patch_ok {α : Type} [Resource α] (r : ApplicationReconciler) (c : Cluster) (o : α)
    (h : (r.Patch c o).2 = none) :
    ((c.find (Resource.objectMeta o).Namespace (Resource.objectMeta o).Name : Option α) = none
        ∧ (r.Patch c o).1 = c.insert o)
      ∨ (r.Patch c o).1 = c.replace o := by
  unfold ApplicationReconciler.Patch at h ⊢
  cases hf : r.fault (.patch (Resource.wrap o)) with
  | some m => rw [hf] at h; simp at h
  | none =>
    simp only
    cases hfind : (c.find (Resource.objectMeta o).Namespace (Resource.objectMeta o).Name
        : Option α) with
    | some x => exact Or.inr rfl
    | none => exact Or.inl ⟨rfl, rfl⟩

theorem Patch_of_stored {α : Type} [Resource α] (r : ApplicationReconciler) (c : Cluster) (o : α)
    (hfind : (c.find (Resource.objectMeta o).Namespace (Resource.objectMeta o).Name : Option α)
      = some o)
    (hrep : c.replace o = c) : (r.Patch c o).1 = c := by
  unfold ApplicationReconciler.Patch
  cases r.fault (.patch (Resource.wrap o)) with
  | some m => rfl
  | none =>
    simp only
    rw [hfind]
    exact hrep

theorem reconcileConfigMap_repeat (r : ApplicationReconciler) (fault₂ : ApiCall → Option String)
    (c : Cluster) (app : Application)
    (h : (r.reconcileConfigMap c app).result = .returned none) :
    ((r.withFault fault₂).reconcileConfigMap (r.reconcileConfigMap c app).cluster app).calls
        = [.get .ConfigMap app.Namespace (getConfigMapName app)]
    ∧ ((r.withFault fault₂).reconcileConfigMap (r.reconcileConfigMap c app).cluster app).cluster
        = (r.reconcileConfigMap c app).cluster := by
  by_cases hd : (getConfigMapData app.Spec.EnvVars "CM_").len = 0
  · rw [reconcileConfigMap_no_data r c app hd] at h
    rw [reconcileConfigMap_no_data (r.withFault fault₂) _ app hd,
      reconcileConfigMap_no_data r c app hd]
    cases hg : (r.Get c app.Namespace (getConfigMapName app) : Except GoError corev1.ConfigMap) with
    | ok stored => rw [hg] at h; simp at h
    | error e =>
      rw [hg] at h
      simp only at h ⊢
      by_cases hnf : e.notFound = true
      · have hnone := Get_error_notFound r c _ _ e hg hnf
        obtain ⟨e', hg'⟩ := Get_of_find_none (r.withFault fault₂) c _ _ hnone
        simp only [hnf, Bool.not_true, Bool.false_eq_true, if_false]
        rw [hg']
        simp only
        split <;> exact ⟨rfl, rfl⟩
      · simp [hnf] at h
  · unfold ApplicationReconciler.reconcileConfigMap at h ⊢
    simp only [hd, if_false] at h ⊢
    exact CreateOrUpdate_repeat r (r.withFault fault₂) c _ _ _ _
      (by intro x y hxy; simp only [Option.some.injEq] at hxy; subst hxy; rfl) h

theorem reconcileSecret_repeat (r : ApplicationReconciler) (fault₂ : ApiCall → Option String)
    (c : Cluster) (app : Application)
    (h : (r.reconcileSecret c app).result = .returned none) :
    ((r.withFault fault₂).reconcileSecret (r.reconcileSecret c app).cluster app).calls
        = [.get .Secret app.Namespace (getSecretName app)]
    ∧ ((r.withFault fault₂).reconcileSecret (r.reconcileSecret c app).cluster app).cluster
        = (r.reconcileSecret c app).cluster := by
  by_cases hd : (getSecretData app.Spec.EnvVars "SEC_").len = 0
  · rw [reconcileSecret_no_data r c app hd] at h
    rw [reconcileSecret_no_data (r.withFault fault₂) _ app hd,
      reconcileSecret_no_data r c app hd]
    cases hg : (r.Get c app.Namespace (getSecretName app) : Except GoError corev1.Secret) with
    | ok stored => rw [hg] at h; simp at h
    | error e =>
      rw [hg] at h
      simp only at h ⊢
      by_cases hnf : e.notFound = true
      · have hnone := Get_error_notFound r c _ _ e hg hnf
        obtain ⟨e', hg'⟩ := Get_of_find_none (r.withFault fault₂) c _ _ hnone
        simp only [hnf, Bool.not_true, Bool.false_eq_true, if_false]
        rw [hg']
        simp only
        split <;> exact ⟨rfl, rfl⟩
      · simp [hnf] at h
  · unfold ApplicationReconciler.reconcileSecret at h ⊢
    simp only [hd, if_false] at h ⊢
    exact CreateOrUpdate_repeat r (r.withFault fault₂) c _ _ _ _
      (by intro x y hxy; simp only [Option.some.injEq] at hxy; subst hxy; rfl) h

theorem reconcileService_repeat (r : ApplicationReconciler) (fault₂ : ApiCall → Option String)
    (c : Cluster) (app : Application)
    (h : (r.reconcileService c app).result = .returned none) :
    (∀ call ∈ ((r.withFault fault₂).reconcileService (r.reconcileService c app).cluster app).calls,
        call.isWrite = false)
    ∧ ((r.withFault fault₂).reconcileService (r.reconcileService c app).cluster app).cluster
        = (r.reconcileService c app).cluster := by
  have hn : (r.withFault fault₂).NewControllerRef app = r.NewControllerRef app := rfl
  unfold ApplicationReconciler.reconcileService at h ⊢
  cases hsvc : app.Spec.Service with
  | none => simp
  | some svc =>
    rw [hsvc] at h
    simp only [hn] at h ⊢
    have := CreateOrUpdate_repeat r (r.withFault fault₂) c _ _ _ "failed to reconcile Service: "
      (by intro x y hxy; simp only [Option.some.injEq] at hxy; subst hxy; rfl) h
    refine ⟨?_, this.2⟩
    intro call hcall
    rw [this.1] at hcall
    simp only [List.mem_singleton] at hcall
    subst hcall
    rfl

theorem reconcileIngress_repeat (r : ApplicationReconciler) (fault₂ : ApiCall → Option String)
    (c : Cluster) (app : Application)
    (h : (r.reconcileIngress c app).result = .returned none) :
    ((r.withFault fault₂).reconcileIngress (r.reconcileIngress c app).cluster app).calls
        = [.get .Ingress app.Namespace (getIngressName app)]
    ∧ ((r.withFault fault₂).reconcileIngress (r.reconcileIngress c app).cluster app).cluster
        = (r.reconcileIngress c app).cluster := by
  unfold ApplicationReconciler.reconcileIngress at h ⊢
  cases hing : app.Spec.Ingress with
  | none =>
    rw [hing] at h
    simp only at h ⊢
    cases hg : (r.Get c app.Namespace (getIngressName app) : Except GoError networkingv1.Ingress) with
    | ok stored => rw [hg] at h; simp at h
    | error e =>
      rw [hg] at h
      simp only at h ⊢
      by_cases hnf : e.notFound = true
      · have hnone := Get_error_notFound r c _ _ e hg hnf
        obtain ⟨e', hg'⟩ := Get_of_find_none (r.withFault fault₂) c _ _ hnone
        simp only [hnf, Bool.not_true, Bool.false_eq_true, if_false]
        rw [hg']
        simp only
        split <;> exact ⟨rfl, rfl⟩
      · simp [hnf] at h
  | some ing =>
    rw [hing] at h
    simp only at h ⊢
    exact CreateOrUpdate_repeat r (r.withFault fault₂) c _ _ _ "failed to reconcile Ingress: "
      (by
        intro x y hxy
        cases hsvc : app.Spec.Service with
        | none => rw [hsvc] at hxy; simp at hxy
        | some svc =>
          rw [hsvc] at hxy
          simp only [Option.some.injEq] at hxy ⊢
          subst hxy
          rfl) h

theorem reconcileDeployment_repeat (r : ApplicationReconciler) (fault₂ : ApiCall → Option String)
    (c : Cluster) (app : Application)
    (h : (r.reconcileDeployment c app).result = .returned none) :
    ∃ d, r.buildDeployment app = some d
      ∧ ((r.withFault fault₂).reconcileDeployment (r.reconcileDeployment c app).cluster app).calls
          = [.patch (.deployment d)]
      ∧ ((r.withFault fault₂).reconcileDeployment (r.reconcileDeployment c app).cluster
            app).cluster
          = (r.reconcileDeployment c app).cluster := by
  have hb' : (r.withFault fault₂).buildDeployment app = r.buildDeployment app := rfl
  unfold ApplicationReconciler.reconcileDeployment at h ⊢
  rw [hb']
  cases hb : r.buildDeployment app with
  | none => rw [hb] at h; simp at h
  | some d =>
    rw [hb] at h
    simp only at h ⊢
    refine ⟨d, rfl, ?_⟩
    cases hp : (r.Patch c d).2 with
    | some e => rw [hp] at h; simp at h
    | none =>
      simp only
      have hk : hasKey d.ObjectMeta.Namespace d.ObjectMeta.Name d = true := by
        simp [hasKey, Resource.objectMeta]
      have hstore : ((r.Patch c d).1.find d.ObjectMeta.Namespace d.ObjectMeta.Name
            : Option appsv1.Deployment) = some d
          ∧ (r.Patch c d).1.replace d = (r.Patch c d).1 := by
        rcases Patch_ok r c d hp with ⟨hnone, hc⟩ | hc
        · rw [hc]
          exact ⟨find_insert c _ _ d hnone hk, insert_replace c d hnone⟩
        · rw [hc]
          unfold ApplicationReconciler.Patch at hp
          cases hf : r.fault (.patch (Resource.wrap d)) with
          | some m => rw [hf] at hp; simp at hp
          | none =>
            cases hfind : (c.find d.ObjectMeta.Namespace d.ObjectMeta.Name
                : Option appsv1.Deployment) with
            | some x => exact ⟨find_replace c _ _ x d hfind hk, replace_replace c d⟩
            | none =>
              have hc' := hc
              unfold ApplicationReconciler.Patch at hc'
              rw [hf] at hc'
              simp only [Resource.objectMeta] at hc'
              rw [hfind] at hc'
              simp only at hc'
              rw [← hc']
              exact ⟨find_insert c _ _ d hfind hk, insert_replace c d hfind⟩
      have hsecond : ((r.withFault fault₂).Patch (r.Patch c d).1 d).1 = (r.Patch c d).1 :=
        Patch_of_stored (r.withFault fault₂) _ d hstore.1 hstore.2
      constructor
      · split <;> rfl
      · split <;> exact hsecond

/-- C9, as stated, fails for the Deployment: after a first `reconcileDeployment` that
returned no error, the second one with the same spec issues a patch again. -/
theorem deployment_is_patched_on_every_pass :
    ¬ (∀ (r : ApplicationReconciler) (c : Cluster) (app : Application),
        (r.reconcileDeployment c app).result = .returned none →
        ∀ call ∈ (r.reconcileDeployment (r.reconcileDeployment c app).cluster app).calls,
          call.isWrite = false) := by
  intro h
  have h' := h plainReconciler Cluster.empty demoApp (by decide)
  revert h'
  decide

/-- C9, amended: for `reconcileConfigMap`, `reconcileSecret`, `reconcileService` and
`reconcileIngress`, a second run with the same spec on the store left by a run that
returned no error issues no write and leaves the store unchanged, whatever calls of
the second run fail; a second `reconcileDeployment` issues exactly one call, the
server-side apply of the same Deployment, and leaves the store unchanged. -/
theorem second_run_writes_nothing_new (r : ApplicationReconciler)
    (fault₂ : ApiCall → Option String) (c : Cluster) (app : Application) :
    ((r.reconcileConfigMap c app).result = .returned none →
      (∀ call ∈ ((r.withFault fault₂).reconcileConfigMap
            (r.reconcileConfigMap c app).cluster app).calls, call.isWrite = false)
      ∧ ((r.withFault fault₂).reconcileConfigMap (r.reconcileConfigMap c app).cluster app).cluster
          = (r.reconcileConfigMap c app).cluster)
    ∧ ((r.reconcileSecret c app).result = .returned none →
      (∀ call ∈ ((r.withFault fault₂).reconcileSecret
            (r.reconcileSecret c app).cluster app).calls, call.isWrite = false)
      ∧ ((r.withFault fault₂).reconcileSecret (r.reconcileSecret c app).cluster app).cluster
          = (r.reconcileSecret c app).cluster)
    ∧ ((r.reconcileService c app).result = .returned none →
      (∀ call ∈ ((r.withFault fault₂).reconcileService
            (r.reconcileService c app).cluster app).calls, call.isWrite = false)
      ∧ ((r.withFault fault₂).reconcileService (r.reconcileService c app).cluster app).cluster
          = (r.reconcileService c app).cluster)
    ∧ ((r.reconcileIngress c app).result = .returned none →
      (∀ call ∈ ((r.withFault fault₂).reconcileIngress
            (r.reconcileIngress c app).cluster app).calls, call.isWrite = false)
      ∧ ((r.withFault fault₂).reconcileIngress (r.reconcileIngress c app).cluster app).cluster
          = (r.reconcileIngress c app).cluster)
    ∧ ((r.reconcileDeployment c app).result = .returned none →
      ∃ d, r.buildDeployment app = some d
        ∧ ((r.withFault fault₂).reconcileDeployment
              (r.reconcileDeployment c app).cluster app).calls = [.patch (.deployment d)]
        ∧ ((r.withFault fault₂).reconcileDeployment
              (r.reconcileDeployment c app).cluster app).cluster
            = (r.reconcileDeployment c app).cluster) := by
  have hread : ∀ (calls : List ApiCall) (k : Kind) (ns name : String),
      calls = [.get k ns name] → ∀ call ∈ calls, call.isWrite = false := by
    intro calls k ns name hc call hcall
    rw [hc] at hcall
    simp only [List.mem_singleton] at hcall
    subst hcall
    rfl
  refine ⟨?_, ?_, reconcileService_repeat r fault₂ c app, ?_,
    reconcileDeployment_repeat r fault₂ c app⟩
  · intro h
    have := reconcileConfigMap_repeat r fault₂ c app h
    exact ⟨hread _ _ _ _ this.1, this.2⟩
  · intro h
    have := reconcileSecret_repeat r fault₂ c app h
    exact ⟨hread _ _ _ _ this.1, this.2⟩
  · intro h
    have := reconcileIngress_repeat r fault₂ c app h
    exact ⟨hread _ _ _ _ this.1, this.2⟩

/-! ## The Service -/

/-- C10: with `spec.service` set, every Service that `reconcileService` writes, and the
Service that the store holds under `<app>-service` once it has returned no error, has
type `ClusterIP` when `spec.service.type` is empty and `spec.service.type` otherwise,
and exactly one port, from `spec.service.port` to the target `spec.containerPort`; with
`spec.service` absent it issues no call, returns no error and leaves the store. -/
theorem service_type_and_port (r : ApplicationReconciler) (c : Cluster) (app : Application) :
    (∀ svc : ServiceSpec, app.Spec.Service = some svc →
      (∀ s : corev1.Service, Object.service s ∈ (r.reconcileService c app).written →
        s.Spec.Type_ = (if svc.Type_ = "" then "ClusterIP" else svc.Type_)
        ∧ ∃ p, s.Spec.Ports = [p] ∧ p.Port = svc.Port
            ∧ p.TargetPort = .int app.Spec.ContainerPort)
      ∧ ((r.reconcileService c app).result = .returned none →
        ∃ s : corev1.Service,
          (r.reconcileService c app).cluster.find app.Namespace (app.Name ++ "-service") = some s
          ∧ s.Spec.Type_ = (if svc.Type_ = "" then "ClusterIP" else svc.Type_)
          ∧ ∃ p, s.Spec.Ports = [p] ∧ p.Port = svc.Port
              ∧ p.TargetPort = .int app.Spec.ContainerPort))
    ∧ (app.Spec.Service = none →
        (r.reconcileService c app).calls = []
        ∧ (r.reconcileService c app).result = .returned none
        ∧ (r.reconcileService c app).cluster = c) := by
  constructor
  · intro svc hsvc
    have htype : (if svc.Type_ ≠ "" then svc.Type_ else corev1.ServiceTypeClusterIP)
        = (if svc.Type_ = "" then "ClusterIP" else svc.Type_) := by
      by_cases h : svc.Type_ = "" <;> simp [h, corev1.ServiceTypeClusterIP]
    constructor
    · intro s hs
      obtain ⟨svc', base, hsvc', hx⟩ := reconcileService_written r c app _ hs
      rw [hsvc] at hsvc'
      cases hsvc'
      cases hx
      exact ⟨htype, _, rfl, rfl, rfl⟩
    · intro hres
      unfold ApplicationReconciler.reconcileService at hres ⊢
      rw [hsvc] at hres ⊢
      simp only at hres ⊢
      rw [wrapErr_result_none] at hres
      rw [wrapErr_cluster]
      obtain ⟨o, o', hfind, hf, _, heq⟩ := CreateOrUpdate_settles r c _ _
        (by intro x y hxy; simp only [Option.some.injEq] at hxy; subst hxy; rfl) hres
      refine ⟨o, hfind, ?_⟩
      simp only [Option.some.injEq] at hf
      subst hf
      simp only [Resource.deepEqual, corev1.Service.deepEqual, Bool.and_eq_true,
        decide_eq_true_eq] at heq
      obtain ⟨⟨_, ht⟩, hp⟩ := heq
      rw [ht, hp]
      exact ⟨htype, _, rfl, rfl, rfl⟩
  · intro hnone
    unfold ApplicationReconciler.reconcileService
    rw [hnone]
    exact ⟨rfl, rfl, rfl⟩

/-! ## The end-to-end scenario, synchronizer by synchronizer -/

/-- On the empty cluster the synchronizers of the demo Application return no error, the
first run of each writes one object, and the ConfigMap holds exactly `MODE = prod`. -/
theorem demo_first_pass :
    (plainReconciler.reconcileConfigMap Cluster.empty demoApp).result = .returned none
    ∧ (plainReconciler.reconcileConfigMap Cluster.empty demoApp).cluster.configMaps.map
        (fun cm => (cm.ObjectMeta.Name, cm.Data)) = [("demo-config", [("MODE", "prod")])]
    ∧ (plainReconciler.reconcileSecret Cluster.empty demoApp).calls
        = [.get .Secret "ns1" "demo-secret"]
    ∧ (plainReconciler.reconcileDeployment Cluster.empty demoApp).result = .returned none
    ∧ (plainReconciler.reconcileService Cluster.empty demoApp).cluster.services.map
        (fun svc => (svc.ObjectMeta.Name, svc.Spec.Type_, svc.Spec.Ports.map
          (fun p => (p.Port, p.TargetPort))))
        = [("demo-service", "ClusterIP", [(80, .int 8080)])]
    ∧ (plainReconciler.reconcileIngress Cluster.empty demoApp).written.length = 1 := by
  decide

/-! ## The Ingress -/

/-- C11: with `spec.ingress` and `spec.service` set, every Ingress that
`reconcileIngress` writes, and the Ingress that the store holds under `<app>-ingress`
once it has returned no error, has ingress class `kong` and exactly one rule, with the
host of the spec and exactly one path, the path of the spec, whose backend is the
Service `<app>-service` at port number `spec.service.port`. -/
theorem ingress_class_and_rule (r : ApplicationReconciler) (c : Cluster) (app : Application)
    (ing : IngressSpec) (svc : ServiceSpec) (hing : app.Spec.Ingress = some ing)
    (hsvc : app.Spec.Service = some svc) :
    (∀ x : networkingv1.Ingress, Object.ingress x ∈ (r.reconcileIngress c app).written →
      x.Spec.IngressClassName = some "kong"
      ∧ ∃ rule http path, x.Spec.Rules = [rule] ∧ rule.Host = ing.Host
          ∧ rule.HTTP = some http ∧ http.Paths = [path] ∧ path.Path = ing.Path
          ∧ path.Backend.Service
              = some { Name := app.Name ++ "-service", Port := { Name := "", Number := svc.Port } })
    ∧ ((r.reconcileIngress c app).result = .returned none →
      ∃ x : networkingv1.Ingress,
        (r.reconcileIngress c app).cluster.find app.Namespace (app.Name ++ "-ingress") = some x
        ∧ x.Spec.IngressClassName = some "kong"
        ∧ ∃ rule http path, x.Spec.Rules = [rule] ∧ rule.Host = ing.Host
            ∧ rule.HTTP = some http ∧ http.Paths = [path] ∧ path.Path = ing.Path
            ∧ path.Backend.Service
                = some { Name := app.Name ++ "-service",
                         Port := { Name := "", Number := svc.Port } }) := by
  constructor
  · intro x hx
    obtain ⟨ing', svc', base, hing', hsvc', hx'⟩ := reconcileIngress_written r c app _ hx
    rw [hing] at hing'
    rw [hsvc] at hsvc'
    cases hing'
    cases hsvc'
    cases hx'
    exact ⟨rfl, _, _, _, rfl, rfl, rfl, rfl, rfl, rfl⟩
  · intro hres
    unfold ApplicationReconciler.reconcileIngress at hres ⊢
    rw [hing] at hres ⊢
    simp only at hres ⊢
    rw [wrapErr_result_none] at hres
    rw [wrapErr_cluster]
    obtain ⟨o, o', hfind, hf, _, heq⟩ := CreateOrUpdate_settles r c _ _
      (by
        intro x y hxy
        rw [hsvc] at hxy ⊢
        simp only [Option.some.injEq] at hxy ⊢
        subst hxy
        rfl) hres
    refine ⟨o, hfind, ?_⟩
    rw [hsvc] at hf
    simp only [Option.some.injEq] at hf
    subst hf
    simp only [Resource.deepEqual, networkingv1.Ingress.deepEqual, Bool.and_eq_true,
      decide_eq_true_eq] at heq
    rw [heq.2]
    exact ⟨rfl, _, _, _, rfl, rfl, rfl, rfl, rfl, rfl⟩

/-- C11 at the demo Application on the empty cluster. -/
theorem ingress_class_and_rule_witness :
    demoApp.Spec.Ingress = some ⟨"demo.example.com", "/", []⟩
    ∧ demoApp.Spec.Service = some ⟨80, "", []⟩
    ∧ (∀ x : networkingv1.Ingress,
        Object.ingress x ∈ (plainReconciler.reconcileIngress Cluster.empty demoApp).written →
        x.Spec.IngressClassName = some "kong"
        ∧ ∃ rule http path, x.Spec.Rules = [rule] ∧ rule.Host = "demo.example.com"
            ∧ rule.HTTP = some http ∧ http.Paths = [path] ∧ path.Path = "/"
            ∧ path.Backend.Service
                = some { Name := "demo" ++ "-service", Port := { Name := "", Number := 80 } })
    ∧ ((plainReconciler.reconcileIngress Cluster.empty demoApp).result = .returned none →
        ∃ x : networkingv1.Ingress,
          (plainReconciler.reconcileIngress Cluster.empty demoApp).cluster.find "ns1"
            ("demo" ++ "-ingress") = some x
          ∧ x.Spec.IngressClassName = some "kong"
          ∧ ∃ rule http path, x.Spec.Rules = [rule] ∧ rule.Host = "demo.example.com"
              ∧ rule.HTTP = some http ∧ http.Paths = [path] ∧ path.Path = "/"
              ∧ path.Backend.Service
                  = some { Name := "demo" ++ "-service",
                           Port := { Name := "", Number := 80 } }) :=
  ⟨rfl, rfl, ingress_class_and_rule plainReconciler Cluster.empty demoApp _ _ rfl rfl⟩

/-! ## Image and replicas of the Deployment -/

theorem buildDeployment_name (r : ApplicationReconciler) (app : Application)
    (d : appsv1.Deployment) (h : r.buildDeployment app = some d) :
    d.ObjectMeta.Namespace = app.Namespace ∧ d.ObjectMeta.Name = getDeploymentName app := by
  unfold ApplicationReconciler.buildDeployment at h
  split at h
  · exact absurd h (by simp)
  · split at h
    · exact absurd h (by simp)
    · cases h
      exact ⟨rfl, rfl⟩

/-- C12, as stated, fails: with `spec.replicas` unset `reconcileDeployment` returns no
error and applies a Deployment. -/
theorem unset_replicas_are_applied :
    ¬ (∀ (r : ApplicationReconciler) (c : Cluster) (app : Application),
        app.Spec.Image = none ∨ app.Spec.Replicas = none →
        (∃ err, (r.reconcileDeployment c app).result = .returned (some err))
        ∧ (r.reconcileDeployment c app).written = []) := by
  intro h
  have h' := (h plainReconciler Cluster.empty noReplicasApp (Or.inr rfl)).2
  revert h'
  decide

/-- C12, amended: with `spec.image` set (and the resource quantities parsing),
`reconcileDeployment` issues exactly one call, the apply of a Deployment whose replica
count is `spec.replicas` as it stands, unset included, and whose single container has
the image of the spec; when that call does not fail it returns no error and the store
holds this Deployment under `<app>-deployment`. -/
theorem deployment_passes_image_and_replicas (r : ApplicationReconciler) (c : Cluster)
    (app : Application) (image : String) (resources : corev1.ResourceRequirements)
    (himg : app.Spec.Image = some image)
    (hres : r.buildResourceRequirements app.Spec.Resources = some resources) :
    ∃ d ctr, (r.reconcileDeployment c app).calls = [.patch (.deployment d)]
      ∧ d.Spec.Replicas = app.Spec.Replicas
      ∧ d.Spec.Template.Spec.Containers = [ctr] ∧ ctr.Image = image
      ∧ (r.fault (.patch (.deployment d)) = none →
          (r.reconcileDeployment c app).result = .returned none
          ∧ (r.reconcileDeployment c app).cluster.find app.Namespace
              (app.Name ++ "-deployment") = some d) := by
  have hb : ∃ d ctr, r.buildDeployment app = some d ∧ d.Spec.Replicas = app.Spec.Replicas
      ∧ d.Spec.Template.Spec.Containers = [ctr] ∧ ctr.Image = image := by
    unfold ApplicationReconciler.buildDeployment
    rw [himg, hres]
    exact ⟨_, _, rfl, rfl, rfl, rfl⟩
  obtain ⟨d, ctr, hb, h₁, h₂, h₃⟩ := hb
  refine ⟨d, ctr, ?_, h₁, h₂, h₃, ?_⟩
  · rw [reconcileDeployment_calls, hb]
  · intro hfault
    unfold ApplicationReconciler.reconcileDeployment
    rw [hb]
    simp only
    have hp : ∀ d : appsv1.Deployment, r.fault (.patch (.deployment d)) = none →
        (r.Patch c d).2 = none
        ∧ ((r.Patch c d).1.find d.ObjectMeta.Namespace d.ObjectMeta.Name
            : Option appsv1.Deployment) = some d := by
      intro d hd
      have hk : hasKey d.ObjectMeta.Namespace d.ObjectMeta.Name d = true := by
        simp [hasKey, Resource.objectMeta]
      unfold ApplicationReconciler.Patch
      simp only [Resource.wrap, hd, Resource.objectMeta]
      cases hfind : (c.find d.ObjectMeta.Namespace d.ObjectMeta.Name
          : Option appsv1.Deployment) with
      | some x => exact ⟨rfl, find_replace c _ _ x d hfind hk⟩
      | none => exact ⟨rfl, find_insert c _ _ d hfind hk⟩
    have hmeta := buildDeployment_name r app d hb
    obtain ⟨h1, h2⟩ := hp d hfault
    rw [h1]
    refine ⟨rfl, ?_⟩
    rw [hmeta.1, hmeta.2] at h2
    exact h2

/-- The amended C12 at the demo Application without a replica count. -/
theorem deployment_passes_image_and_replicas_witness :
    noReplicasApp.Spec.Image = some "x:1"
    ∧ plainReconciler.buildResourceRequirements noReplicasApp.Spec.Resources = some ⟨[], []⟩
    ∧ ∃ d ctr,
        (plainReconciler.reconcileDeployment Cluster.empty noReplicasApp).calls
          = [.patch (.deployment d)]
        ∧ d.Spec.Replicas = noReplicasApp.Spec.Replicas
        ∧ d.Spec.Template.Spec.Containers = [ctr] ∧ ctr.Image = "x:1"
        ∧ (plainReconciler.fault (.patch (.deployment d)) = none →
            (plainReconciler.reconcileDeployment Cluster.empty noReplicasApp).result
              = .returned none
            ∧ (plainReconciler.reconcileDeployment Cluster.empty noReplicasApp).cluster.find
                noReplicasApp.Namespace (noReplicasApp.Name ++ "-deployment") = some d) :=
  ⟨rfl, rfl,
    deployment_passes_image_and_replicas plainReconciler Cluster.empty noReplicasApp _ _ rfl rfl⟩

/-! ## The issuer step -/

theorem findIssuer_name (c : Cluster) (name : String) (issuer : ClusterIssuer)
    (h : c.findIssuer name = some issuer) : issuer.Name = name := by
  unfold Cluster.findIssuer at h
  simpa using List.find?_some h

theorem find?_map_replace (l : List ClusterIssuer) (name : String) (x y : ClusterIssuer)
    (hx : l.find? (fun i => decide (i.Name = name)) = some x) (hy : y.Name = name) :
    (l.map (fun i => if i.Name = name then y else i)).find? (fun i => decide (i.Name = name))
      = some y := by
  induction l with
  | nil => simp at hx
  | cons z rest ih =>
    by_cases hz : z.Name = name
    · simp [List.find?, hz, hy]
    · simp only [List.find?, hz, decide_False] at hx
      simp only [List.map_cons, hz, if_false, List.find?, decide_False]
      exact ih hx

/-- `ReconcileIssuer` when the issuer exists, is read, and both ACME configurations
are there: the two comparisons decide between the update and the sentinel. -/
theorem ReconcileIssuer_present (r : ApplicationReconciler) (c : Cluster) (app : Application)
    (cs : Clientset) (tls : TLS) (iss : Issuer) (live : ClusterIssuer) (acme : ACMEIssuer)
    (hcs : r.CertManagerClientSet = some cs) (htls : app.Spec.TLS = some tls)
    (hiss : tls.Issuer = some iss)
    (hlive : c.findIssuer (issuerName app.Namespace) = some live)
    (hget : cs.fault (.get .ClusterIssuer "" (issuerName app.Namespace)) = none)
    (hacme : live.ACME = some acme) :
    r.ReconcileIssuer c app
      = if acme.Email = iss.ACMEIssuer.Email ∧ acme.Server = iss.ACMEIssuer.Server then
          ⟨c, [.get .ClusterIssuer "" (issuerName app.Namespace)], app, some live,
            .returned (some { msg := r.found, notFound := false })⟩
        else
          match (cs.Update c
              { live with
                ACME := some
                  { acme with
                    Email := iss.ACMEIssuer.Email, Server := iss.ACMEIssuer.Server } }).2.2 with
          | some err =>
            ⟨(cs.Update c
                { live with
                  ACME := some
                    { acme with
                      Email := iss.ACMEIssuer.Email, Server := iss.ACMEIssuer.Server } }).1,
              [.get .ClusterIssuer "" (issuerName app.Namespace),
               .update (.clusterIssuer
                { live with
                  ACME := some
                    { acme with
                      Email := iss.ACMEIssuer.Email, Server := iss.ACMEIssuer.Server } })],
              app, none, .returned (some err)⟩
          | none =>
            ⟨(cs.Update c
                { live with
                  ACME := some
                    { acme with
                      Email := iss.ACMEIssuer.Email, Server := iss.ACMEIssuer.Server } }).1,
              [.get .ClusterIssuer "" (issuerName app.Namespace),
               .update (.clusterIssuer
                { live with
                  ACME := some
                    { acme with
                      Email := iss.ACMEIssuer.Email, Server := iss.ACMEIssuer.Server } })],
              app,
              some (cs.Update c
                { live with
                  ACME := some
                    { acme with
                      Email := iss.ACMEIssuer.Email, Server := iss.ACMEIssuer.Server } }).2.1,
              .returned none⟩ := by
  unfold ApplicationReconciler.ReconcileIssuer
  simp only [hcs, Clientset.Get, hget, hlive, htls, hiss, hacme, Option.bind]
  by_cases he : acme.Email = iss.ACMEIssuer.Email
  · by_cases hs : acme.Server = iss.ACMEIssuer.Server
    · simp [he, hs]
    · have hs' : ¬ iss.ACMEIssuer.Server = acme.Server := fun h => hs h.symm
      simp [he, hs, hs']
  · have he' : ¬ iss.ACMEIssuer.Email = acme.Email := fun h => he h.symm
    by_cases hs : acme.Server = iss.ACMEIssuer.Server
    · simp [he, he', hs]
    · have hs' : ¬ iss.ACMEIssuer.Server = acme.Server := fun h => hs h.symm
      simp [he, he', hs, hs']

theorem Clientset_Update_ok (cs : Clientset) (c : Cluster) (live x : ClusterIssuer)
    (hlive : c.findIssuer x.Name = some live)
    (hfault : cs.fault (.update (.clusterIssuer x)) = none) :
    (cs.Update c x).2.2 = none ∧ (cs.Update c x).2.1 = x
    ∧ (cs.Update c x).1.findIssuer x.Name = some x := by
  unfold Clientset.Update
  simp only [hfault, hlive]
  refine ⟨trivial, trivial, ?_⟩
  unfold Cluster.findIssuer at hlive ⊢
  exact find?_map_replace c.issuers x.Name live x hlive rfl

/-- C13: with the issuer `app-<namespace>-issuer` in the store and read, `ReconcileIssuer`
issues an update of it exactly when the live ACME email or server differs from the
spec's; the issuer it sends has both fields equal to the spec's and, the update not
failing, is the one stored and returned, with no error; when neither differs it issues
no write and returns the live issuer with the sentinel error whose message is `found`. -/
theorem issuer_updated_iff_acme_differs (r : ApplicationReconciler) (c : Cluster)
    (app : Application) (cs : Clientset) (tls : TLS) (iss : Issuer) (live : ClusterIssuer)
    (acme : ACMEIssuer)
    (hcs : r.CertManagerClientSet = some cs) (htls : app.Spec.TLS = some tls)
    (hiss : tls.Issuer = some iss)
    (hlive : c.findIssuer (issuerName app.Namespace) = some live)
    (hget : cs.fault (.get .ClusterIssuer "" (issuerName app.Namespace)) = none)
    (hacme : live.ACME = some acme) :
    ((∃ x, ApiCall.update (.clusterIssuer x) ∈ (r.ReconcileIssuer c app).calls)
      ↔ (acme.Email ≠ iss.ACMEIssuer.Email ∨ acme.Server ≠ iss.ACMEIssuer.Server))
    ∧ (∀ x, ApiCall.update (.clusterIssuer x) ∈ (r.ReconcileIssuer c app).calls →
        x = { live with
              ACME := some
                { acme with Email := iss.ACMEIssuer.Email, Server := iss.ACMEIssuer.Server } }
        ∧ (cs.fault (.update (.clusterIssuer x)) = none →
            (r.ReconcileIssuer c app).result = .returned none
            ∧ (r.ReconcileIssuer c app).issuer = some x
            ∧ (r.ReconcileIssuer c app).cluster.findIssuer (issuerName app.Namespace) = some x))
    ∧ (acme.Email = iss.ACMEIssuer.Email → acme.Server = iss.ACMEIssuer.Server →
        (r.ReconcileIssuer c app).calls = [.get .ClusterIssuer "" (issuerName app.Namespace)]
        ∧ (r.ReconcileIssuer c app).cluster = c
        ∧ (r.ReconcileIssuer c app).issuer = some live
        ∧ (r.ReconcileIssuer c app).result
            = .returned (some { msg := r.found, notFound := false })) := by
  have hrun := ReconcileIssuer_present r c app cs tls iss live acme hcs htls hiss hlive hget hacme
  have hname := findIssuer_name c _ live hlive
  by_cases hsame : acme.Email = iss.ACMEIssuer.Email ∧ acme.Server = iss.ACMEIssuer.Server
  · rw [if_pos hsame] at hrun
    rw [hrun]
    refine ⟨?_, ?_, ?_⟩
    · constructor
      · rintro ⟨x, hx⟩
        simp at hx
      · rintro (h | h)
        · exact absurd hsame.1 h
        · exact absurd hsame.2 h
    · intro x hx
      simp at hx
    · intro _ _
      exact ⟨rfl, rfl, rfl, rfl⟩
  · rw [if_neg hsame] at hrun
    generalize hx₀ : ({ live with
        ACME := some
          { acme with Email := iss.ACMEIssuer.Email, Server := iss.ACMEIssuer.Server } }
        : ClusterIssuer) = x₀ at hrun ⊢
    have hname₀ : x₀.Name = issuerName app.Namespace := by rw [← hx₀]; exact hname
    have hcalls : (r.ReconcileIssuer c app).calls
        = [.get .ClusterIssuer "" (issuerName app.Namespace), .update (.clusterIssuer x₀)] := by
      rw [hrun]
      split <;> rfl
    refine ⟨?_, ?_, ?_⟩
    · constructor
      · intro _
        by_cases he : acme.Email = iss.ACMEIssuer.Email
        · exact Or.inr (fun hs => hsame ⟨he, hs⟩)
        · exact Or.inl he
      · intro _
        exact ⟨x₀, by rw [hcalls]; simp⟩
    · intro x hx
      rw [hcalls] at hx
      simp only [List.mem_cons, ApiCall.update.injEq, Object.clusterIssuer.injEq,
        List.mem_singleton, List.not_mem_nil, or_false] at hx
      rcases hx with hx | hx
      · exact absurd hx (by simp)
      · subst hx
        refine ⟨rfl, ?_⟩
        intro hfault
        obtain ⟨h1, h2, h3⟩ := Clientset_Update_ok cs c live x (by rw [hname₀]; exact hlive) hfault
        rw [hname₀] at h3
        rw [hrun, h1]
        simp only
        rw [h2]
        refine ⟨?_, ?_, h3⟩ <;> first | rfl | trivial
    · intro he hs
      exact absurd ⟨he, hs⟩ hsame

/-- C13 at the TLS demo Application and a live issuer with another ACME email. -/
theorem issuer_updated_iff_acme_differs_witness :
    plainReconciler.CertManagerClientSet = some ⟨fun _ => none⟩
    ∧ issuerCluster.findIssuer (issuerName tlsApp.Namespace) = some liveIssuer
    ∧ ((∃ x, ApiCall.update (.clusterIssuer x)
          ∈ (plainReconciler.ReconcileIssuer issuerCluster tlsApp).calls)
      ↔ ("old@example.com" ≠ "ops@example.com"
          ∨ "https://acme.example.com/directory" ≠ "https://acme.example.com/directory"))
    ∧ (∀ x, ApiCall.update (.clusterIssuer x)
          ∈ (plainReconciler.ReconcileIssuer issuerCluster tlsApp).calls →
        x = { liveIssuer with
              ACME := some
                { Email := "ops@example.com", Server := "https://acme.example.com/directory",
                  PrivateKeyName := "demo-tls", Solvers := [⟨some "kong"⟩] } }
        ∧ ((fun _ => none : ApiCall → Option String) (.update (.clusterIssuer x)) = none →
            (plainReconciler.ReconcileIssuer issuerCluster tlsApp).result = .returned none
            ∧ (plainReconciler.ReconcileIssuer issuerCluster tlsApp).issuer = some x
            ∧ (plainReconciler.ReconcileIssuer issuerCluster tlsApp).cluster.findIssuer
                (issuerName tlsApp.Namespace) = some x))
    ∧ ("old@example.com" = "ops@example.com" →
        "https://acme.example.com/directory" = "https://acme.example.com/directory" →
        (plainReconciler.ReconcileIssuer issuerCluster tlsApp).calls
          = [.get .ClusterIssuer "" (issuerName tlsApp.Namespace)]
        ∧ (plainReconciler.ReconcileIssuer issuerCluster tlsApp).cluster = issuerCluster
        ∧ (plainReconciler.ReconcileIssuer issuerCluster tlsApp).issuer = some liveIssuer
        ∧ (plainReconciler.ReconcileIssuer issuerCluster tlsApp).result
            = .returned (some { msg := plainReconciler.found, notFound := false })) :=
  ⟨rfl, by decide,
    issuer_updated_iff_acme_differs plainReconciler issuerCluster tlsApp ⟨fun _ => none⟩
      ⟨true, some ⟨⟨"ops@example.com", "https://acme.example.com/directory", "demo-tls", []⟩⟩⟩
      ⟨⟨"ops@example.com", "https://acme.example.com/directory", "demo-tls", []⟩⟩ liveIssuer
      ⟨"old@example.com", "https://acme.example.com/directory", "demo-tls", [⟨some "kong"⟩]⟩
      rfl rfl rfl (by decide) rfl rfl⟩

/-! ## The TLS binding of the Ingress -/

/-- What `alignTLS` leaves: a first block with the spec host first and the secret name of
the spec; the host list is exactly the spec host when the first block did not already
start with it; nothing is touched when no change is reported. -/
theorem alignTLS_spec (app : Application) (ing : IngressSpec) (iss : Issuer)
    (hing : app.Spec.Ingress = some ing)
    (hiss : app.Spec.TLS.bind (fun t => t.Issuer) = some iss)
    (tls tls' : List networkingv1.IngressTLS) (changed : Bool)
    (h : alignTLS app tls = some (tls', changed)) :
    ∃ first rest, tls' = first :: rest
      ∧ first.Hosts.head? = some ing.Host
      ∧ first.SecretName = iss.ACMEIssuer.PrivateKeyName
      ∧ ((∀ f r', tls = f :: r' → f.Hosts.head? ≠ some ing.Host) → first.Hosts = [ing.Host])
      ∧ (changed = false → tls' = tls) := by
  unfold alignTLS at h
  cases tls with
  | nil =>
    simp only [hing, hiss, Option.some.injEq, Prod.mk.injEq] at h
    obtain ⟨h1, h2⟩ := h
    subst h1
    subst h2
    exact ⟨_, _, rfl, rfl, rfl, fun _ => rfl, fun hc => absurd hc (by simp)⟩
  | cons first rest =>
    cases hh : first.Hosts with
    | nil => simp [hh] at h
    | cons host hosts =>
      simp only [hh, hing, hiss, Option.some.injEq, Prod.mk.injEq] at h
      obtain ⟨h1, h2⟩ := h
      subst h1
      subst h2
      refine ⟨_, _, rfl, ?_, ?_, ?_, ?_⟩
      · by_cases hd : host = ing.Host
        · simp [hd]
        · simp [hd]
      · by_cases hd : first.SecretName = iss.ACMEIssuer.PrivateKeyName
        · simp [hd]
        · simp [hd]
      · intro hne
        have hd : ¬ host = ing.Host := by
          intro hd
          exact hne first rest rfl (by simp [hh, hd])
        simp [hd]
      · intro hc
        simp only [Bool.or_eq_false_iff, decide_eq_false_iff_not, ne_eq, not_not] at hc
        obtain ⟨hc1, hc2⟩ := hc
        cases first
        simp only at hh hc2 ⊢
        subst hh
        subst hc2
        simp [hc1]

/-- `updateIngressForTLS` when the Ingress is in the store and read. -/
theorem updateIngressForTLS_present (r : ApplicationReconciler) (c : Cluster) (app : Application)
    (live : networkingv1.Ingress)
    (hlive : c.find app.Namespace (getIngressName app) = some live)
    (hget : r.fault (.get .Ingress app.Namespace (getIngressName app)) = none) :
    r.updateIngressForTLS c app
      = match alignRuleHost app live.Spec.Rules with
        | none => ⟨c, [.get .Ingress app.Namespace (getIngressName app)], live, .panicked⟩
        | some (rules, ruleChanged) =>
          match alignTLS app live.Spec.TLS with
          | none => ⟨c, [.get .Ingress app.Namespace (getIngressName app)], live, .panicked⟩
          | some (tls, tlsChanged) =>
            if ruleChanged || tlsChanged then
              ⟨(r.Update c { live with Spec := { live.Spec with Rules := rules, TLS := tls } }).1,
                [.get .Ingress app.Namespace (getIngressName app),
                 .update (.ingress
                  { live with Spec := { live.Spec with Rules := rules, TLS := tls } })],
                { live with Spec := { live.Spec with Rules := rules, TLS := tls } },
                .returned
                  (r.Update c
                    { live with Spec := { live.Spec with Rules := rules, TLS := tls } }).2⟩
            else
              ⟨c, [.get .Ingress app.Namespace (getIngressName app)],
                { live with Spec := { live.Spec with Rules := rules, TLS := tls } },
                .returned (some { msg := "Found", notFound := false })⟩ := by
  have hg := Get_of_find r c _ _ live hlive hget
  unfold ApplicationReconciler.updateIngressForTLS
  simp only [hg]

/-- C14, as stated, fails: on a live Ingress whose tls block lists the spec host first
and another host after it, `updateIngressForTLS` reports it already correct and the
stored Ingress has no tls block whose host list is exactly the spec host. -/
theorem tls_hosts_may_keep_other_hosts :
    ¬ (∀ (r : ApplicationReconciler) (c : Cluster) (app : Application) (tls : TLS)
        (iss : Issuer) (ing : IngressSpec) (live : networkingv1.Ingress),
        app.Spec.TLS = some tls → tls.Enable = true → tls.Issuer = some iss →
        app.Spec.Ingress = some ing →
        c.find app.Namespace (app.Name ++ "-ingress") = some live →
        ((r.updateIngressForTLS c app).result = .returned none
          ∨ ((r.updateIngressForTLS c app).calls
                = [.get .Ingress app.Namespace (app.Name ++ "-ingress")]
              ∧ (r.updateIngressForTLS c app).result
                = .returned (some { msg := "Found", notFound := false }))) →
        ∃ (stored : networkingv1.Ingress) (block : networkingv1.IngressTLS),
          (r.updateIngressForTLS c app).cluster.find app.Namespace (app.Name ++ "-ingress")
            = some stored
          ∧ block ∈ stored.Spec.TLS ∧ block.Hosts = [ing.Host]
          ∧ block.SecretName = iss.ACMEIssuer.PrivateKeyName) := by
  intro h
  obtain ⟨stored, block, hfind, hmem, hhosts, _⟩ :=
    h plainReconciler twoHostCluster tlsApp _ _ _ twoHostIngress rfl rfl rfl rfl (by decide)
      (Or.inr (by decide))
  have hstored : ((plainReconciler.updateIngressForTLS twoHostCluster tlsApp).cluster.find
      tlsApp.Namespace (tlsApp.Name ++ "-ingress") : Option networkingv1.Ingress)
      = some twoHostIngress := by decide
  rw [hstored] at hfind
  cases hfind
  simp only [twoHostIngress, List.mem_singleton] at hmem
  subst hmem
  revert hhosts
  decide

/-- C14, amended: when the live Ingress is read and `updateIngressForTLS` either updates
it with success or issues no update and reports it already correct, the Ingress in the
store has a first tls block whose first host is `spec.ingress.host` and whose secret
name is the private-key secret name of the spec's issuer; the host list of that block
is exactly `[spec.ingress.host]` when the live Ingress had no tls block or its first
block did not start with that host. -/
theorem tls_block_after_binding (r : ApplicationReconciler) (c : Cluster) (app : Application)
    (tls : TLS) (iss : Issuer) (ing : IngressSpec) (live : networkingv1.Ingress)
    (htls : app.Spec.TLS = some tls) (hiss : tls.Issuer = some iss)
    (hing : app.Spec.Ingress = some ing)
    (hlive : c.find app.Namespace (app.Name ++ "-ingress") = some live)
    (hget : r.fault (.get .Ingress app.Namespace (app.Name ++ "-ingress")) = none)
    (hfin : (r.updateIngressForTLS c app).result = .returned none
      ∨ ((r.updateIngressForTLS c app).calls
            = [.get .Ingress app.Namespace (app.Name ++ "-ingress")]
          ∧ (r.updateIngressForTLS c app).result
            = .returned (some { msg := "Found", notFound := false }))) :
    ∃ (stored : networkingv1.Ingress) (first : networkingv1.IngressTLS)
      (rest : List networkingv1.IngressTLS),
      (r.updateIngressForTLS c app).cluster.find app.Namespace (app.Name ++ "-ingress")
        = some stored
      ∧ stored.Spec.TLS = first :: rest
      ∧ first.Hosts.head? = some ing.Host
      ∧ first.SecretName = iss.ACMEIssuer.PrivateKeyName
      ∧ ((∀ f r', live.Spec.TLS = f :: r' → f.Hosts.head? ≠ some ing.Host) →
          first.Hosts = [ing.Host]) := by
  have hbind : app.Spec.TLS.bind (fun t => t.Issuer) = some iss := by
    rw [htls]
    exact hiss
  have hk := find_hasKey c _ _ live hlive
  have hrun := updateIngressForTLS_present r c app live hlive hget
  change (r.updateIngressForTLS c app).result = .returned none
      ∨ ((r.updateIngressForTLS c app).calls
            = [.get .Ingress app.Namespace (getIngressName app)]
          ∧ (r.updateIngressForTLS c app).result
            = .returned (some { msg := "Found", notFound := false })) at hfin
  change ∃ (stored : networkingv1.Ingress) (first : networkingv1.IngressTLS)
      (rest : List networkingv1.IngressTLS),
      (r.updateIngressForTLS c app).cluster.find app.Namespace (getIngressName app)
        = some stored
      ∧ stored.Spec.TLS = first :: rest
      ∧ first.Hosts.head? = some ing.Host
      ∧ first.SecretName = iss.ACMEIssuer.PrivateKeyName
      ∧ ((∀ f r', live.Spec.TLS = f :: r' → f.Hosts.head? ≠ some ing.Host) →
          first.Hosts = [ing.Host])
  rw [hrun] at hfin ⊢
  cases hr : alignRuleHost app live.Spec.Rules with
  | none =>
    rw [hr] at hfin
    simp at hfin
  | some rr =>
    obtain ⟨rules, ruleChanged⟩ := rr
    rw [hr] at hfin
    simp only at hfin ⊢
    cases ht : alignTLS app live.Spec.TLS with
    | none =>
      rw [ht] at hfin
      simp at hfin
    | some tt =>
      obtain ⟨tls', tlsChanged⟩ := tt
      rw [ht] at hfin
      simp only at hfin ⊢
      obtain ⟨first, rest, h1, h2, h3, h4, h5⟩ :=
        alignTLS_spec app ing iss hing hbind live.Spec.TLS tls' tlsChanged ht
      by_cases hch : (ruleChanged || tlsChanged) = true
      · simp only [hch, if_true] at hfin ⊢
        rcases hfin with hfin | hfin
        · simp only [Result.returned.injEq] at hfin
          have hu := (Update_ok r c _ hfin).1
          rw [hu]
          refine ⟨_, first, rest, find_replace c _ _ live _ hlive hk, ?_, h2, h3, h4⟩
          exact h1
        · simp at hfin
      · simp only [hch, Bool.false_eq_true, if_false] at hfin ⊢
        simp only [Bool.or_eq_true, not_or, Bool.not_eq_true] at hch
        have h6 := h5 hch.2
        rw [h6] at h1
        exact ⟨live, first, rest, hlive, h1, h2, h3, h4⟩

/-- The amended C14 on the Ingress of the TLS demo Application without a tls block. -/
theorem tls_block_after_binding_witness :
    tlsApp.Spec.Ingress = some ⟨"demo.example.com", "/", []⟩
    ∧ ((plainReconciler.updateIngressForTLS unboundCluster tlsApp).result = .returned none
      ∨ ((plainReconciler.updateIngressForTLS unboundCluster tlsApp).calls
            = [.get .Ingress tlsApp.Namespace (tlsApp.Name ++ "-ingress")]
          ∧ (plainReconciler.updateIngressForTLS unboundCluster tlsApp).result
            = .returned (some { msg := "Found", notFound := false })))
    ∧ ∃ (stored : networkingv1.Ingress) (first : networkingv1.IngressTLS)
        (rest : List networkingv1.IngressTLS),
        (plainReconciler.updateIngressForTLS unboundCluster tlsApp).cluster.find
          tlsApp.Namespace (tlsApp.Name ++ "-ingress") = some stored
        ∧ stored.Spec.TLS = first :: rest
        ∧ first.Hosts.head? = some "demo.example.com"
        ∧ first.SecretName = "demo-tls"
        ∧ ((∀ f r', ([] : List networkingv1.IngressTLS) = f :: r' →
              f.Hosts.head? ≠ some "demo.example.com") →
            first.Hosts = ["demo.example.com"]) :=
  ⟨rfl, Or.inl (by decide),
    tls_block_after_binding plainReconciler unboundCluster tlsApp
      ⟨true, some ⟨⟨"ops@example.com", "https://acme.example.com/directory", "demo-tls", []⟩⟩⟩
      ⟨⟨"ops@example.com", "https://acme.example.com/directory", "demo-tls", []⟩⟩
      ⟨"demo.example.com", "/", []⟩
      { twoHostIngress with Spec := { twoHostIngress.Spec with TLS := [] } }
      rfl rfl rfl (by decide) rfl (Or.inl (by decide))⟩

/-! ## Repeating the TLS binding -/

theorem alignRuleHost_idem (app : Application) (rules rules' : List networkingv1.IngressRule)
    (changed : Bool) (h : alignRuleHost app rules = some (rules', changed)) :
    alignRuleHost app rules' = some (rules', false) := by
  unfold alignRuleHost at h ⊢
  cases rules with
  | nil =>
    simp only [Option.some.injEq, Prod.mk.injEq] at h
    rw [← h.1]
  | cons rule rest =>
    cases hing : app.Spec.Ingress with
    | none => simp [hing] at h
    | some ing =>
      simp only [hing] at h
      by_cases hd : rule.Host = ing.Host
      · simp only [hd, ne_eq, not_true_eq_false, if_false, Option.some.injEq,
          Prod.mk.injEq] at h
        rw [← h.1]
        simp [hing, hd]
      · simp only [hd, ne_eq, not_false_eq_true, if_true, Option.some.injEq,
          Prod.mk.injEq] at h
        rw [← h.1]
        simp [hing]

theorem alignTLS_idem (app : Application) (tls tls' : List networkingv1.IngressTLS)
    (changed : Bool) (h : alignTLS app tls = some (tls', changed)) :
    alignTLS app tls' = some (tls', false) := by
  unfold alignTLS at h ⊢
  cases hing : app.Spec.Ingress with
  | none =>
    cases tls with
    | nil => simp [hing] at h
    | cons first rest =>
      cases hh : first.Hosts <;> simp [hing, hh] at h
  | some ing =>
    cases hiss : app.Spec.TLS.bind (fun t => t.Issuer) with
    | none =>
      cases tls with
      | nil => simp [hing, hiss] at h
      | cons first rest =>
        cases hh : first.Hosts <;> simp [hing, hh, hiss] at h
    | some iss =>
      cases tls with
      | nil =>
        simp only [hing, hiss, Option.some.injEq, Prod.mk.injEq] at h
        rw [← h.1]
        simp
      | cons first rest =>
        cases hh : first.Hosts with
        | nil => simp [hh] at h
        | cons host hosts =>
          simp only [hh, hing, hiss, Option.some.injEq, Prod.mk.injEq] at h
          rw [← h.1]
          by_cases hd : host = ing.Host
          · simp [hd]
          · simp [hd]

/-- On an Ingress whose first rule and first tls block are aligned,
`updateIngressForTLS` only reads and reports the sentinel. -/
theorem updateIngressForTLS_aligned (r : ApplicationReconciler) (c : Cluster) (app : Application)
    (live : networkingv1.Ingress)
    (hlive : c.find app.Namespace (getIngressName app) = some live)
    (hget : r.fault (.get .Ingress app.Namespace (getIngressName app)) = none)
    (hr : alignRuleHost app live.Spec.Rules = some (live.Spec.Rules, false))
    (ht : alignTLS app live.Spec.TLS = some (live.Spec.TLS, false)) :
    r.updateIngressForTLS c app
      = ⟨c, [.get .Ingress app.Namespace (getIngressName app)], live,
          .returned (some { msg := "Found", notFound := false })⟩ := by
  rw [updateIngressForTLS_present r c app live hlive hget, hr]
  simp only
  rw [ht]
  rfl

/-- What a successful `updateIngressForTLS` leaves in the store: an Ingress, read
without failure, whose first rule and first tls block are aligned. -/
theorem updateIngressForTLS_binds (r : ApplicationReconciler) (c : Cluster) (app : Application)
    (h : (r.updateIngressForTLS c app).result = .returned none) :
    r.fault (.get .Ingress app.Namespace (getIngressName app)) = none
    ∧ ∃ bound : networkingv1.Ingress,
        (r.updateIngressForTLS c app).cluster.find app.Namespace (getIngressName app)
          = some bound
        ∧ alignRuleHost app bound.Spec.Rules = some (bound.Spec.Rules, false)
        ∧ alignTLS app bound.Spec.TLS = some (bound.Spec.TLS, false)
        ∧ bound.Spec.TLS ≠ [] := by
  cases hg : (r.Get c app.Namespace (getIngressName app)
      : Except GoError networkingv1.Ingress) with
  | error err =>
    unfold ApplicationReconciler.updateIngressForTLS at h
    simp [hg] at h
  | ok live =>
    obtain ⟨hlive, hget⟩ := Get_ok r c _ _ live hg
    change r.fault (.get .Ingress app.Namespace (getIngressName app)) = none at hget
    refine ⟨hget, ?_⟩
    have hk := find_hasKey c _ _ live hlive
    rw [updateIngressForTLS_present r c app live hlive hget] at h ⊢
    cases hr : alignRuleHost app live.Spec.Rules with
    | none => rw [hr] at h; simp at h
    | some rr =>
      obtain ⟨rules, ruleChanged⟩ := rr
      rw [hr] at h
      simp only at h ⊢
      cases ht : alignTLS app live.Spec.TLS with
      | none => rw [ht] at h; simp at h
      | some tt =>
        obtain ⟨tls', tlsChanged⟩ := tt
        rw [ht] at h
        simp only at h ⊢
        by_cases hch : (ruleChanged || tlsChanged) = true
        · simp only [hch, if_true, Result.returned.injEq] at h ⊢
          rw [(Update_ok r c _ h).1]
          refine ⟨_, find_replace c _ _ live _ hlive hk, alignRuleHost_idem app _ _ _ hr,
            alignTLS_idem app _ _ _ ht, ?_⟩
          intro hnil
          simp only at hnil
          rw [hnil] at ht
          unfold alignTLS at ht
          cases hl : live.Spec.TLS with
          | nil =>
            rw [hl] at ht
            simp only at ht
            split at ht <;> simp at ht
          | cons first rest =>
            rw [hl] at ht
            simp only at ht
            split at ht
            · split at ht <;> simp at ht
            · simp at ht
        · simp [hch] at h

theorem Update_cluster {α : Type} [Resource α] (r : ApplicationReconciler) (c : Cluster) (o : α) :
    (r.Update c o).1 = c ∨ (r.Update c o).1 = c.replace o := by
  unfold ApplicationReconciler.Update
  cases r.fault (.update (Resource.wrap o)) with
  | some m => exact Or.inl rfl
  | none =>
    simp only
    cases (c.find (Resource.objectMeta o).Namespace (Resource.objectMeta o).Name
        : Option α) with
    | some x => exact Or.inr rfl
    | none => exact Or.inl rfl

/-- The store after `CreateOrUpdate` on a key that holds an object: as it was, or
with that object replaced by its mutation. -/
theorem CreateOrUpdate_cluster {α : Type} [Resource α] (r : ApplicationReconciler) (c : Cluster)
    (obj : α) (f : α → Option α) (stored : α)
    (hfind : c.find (Resource.objectMeta obj).Namespace (Resource.objectMeta obj).Name
      = some stored) :
    (CreateOrUpdate r c obj f).2.cluster = c
    ∨ ∃ o, f stored = some o
        ∧ hasKey (Resource.objectMeta obj).Namespace (Resource.objectMeta obj).Name o = true
        ∧ (CreateOrUpdate r c obj f).2.cluster = c.replace o := by
  unfold CreateOrUpdate
  simp only
  cases hg : (r.Get c (Resource.objectMeta obj).Namespace (Resource.objectMeta obj).Name
      : Except GoError α) with
  | error e =>
    simp only
    by_cases hnf : e.notFound = true
    · have hnone := Get_error_notFound r c _ _ e hg hnf
      rw [hfind] at hnone
      exact absurd hnone (by simp)
    · simp only [hnf, Bool.not_false, if_true]
      exact Or.inl trivial
  | ok existing =>
    simp only
    have hfind' := (Get_ok r c _ _ existing hg).1
    rw [hfind] at hfind'
    simp only [Option.some.injEq] at hfind'
    subst hfind'
    cases hm : mutate f (Resource.objectMeta obj).Namespace (Resource.objectMeta obj).Name
        stored with
    | none => exact Or.inl rfl
    | some res =>
      cases res with
      | error e' => exact Or.inl rfl
      | ok o =>
        simp only
        obtain ⟨hf, hk⟩ := mutate_ok f _ _ stored o hm
        by_cases heq : Resource.deepEqual stored o = true
        · simp only [heq, if_true]
          exact Or.inl trivial
        · simp only [heq, if_false]
          rcases Update_cluster r c o with hu | hu
          · left
            cases hc : r.Update c o with
            | mk c' e' =>
              rw [hc] at hu
              cases e' <;> exact hu
          · right
            refine ⟨o, hf, hk, ?_⟩
            cases hc : r.Update c o with
            | mk c' e' =>
              rw [hc] at hu
              cases e' <;> exact hu

/-- With `spec.ingress` set, `reconcileIngress` keeps a stored Ingress in the store,
with its tls blocks as they were; its rules are as they were or the single rule of the
spec. -/
theorem reconcileIngress_keeps_tls (r : ApplicationReconciler) (c : Cluster) (app : Application)
    (ing : IngressSpec) (stored : networkingv1.Ingress) (hing : app.Spec.Ingress = some ing)
    (hfind : c.find app.Namespace (getIngressName app) = some stored) :
    ∃ x : networkingv1.Ingress,
      (r.reconcileIngress c app).cluster.find app.Namespace (getIngressName app) = some x
      ∧ x.Spec.TLS = stored.Spec.TLS
      ∧ (x.Spec.Rules = stored.Spec.Rules
          ∨ ∃ rule : networkingv1.IngressRule, x.Spec.Rules = [rule] ∧ rule.Host = ing.Host) := by
  unfold ApplicationReconciler.reconcileIngress
  rw [hing]
  simp only
  rw [wrapErr_cluster]
  rcases CreateOrUpdate_cluster r c
      (⟨⟨getIngressName app, app.Namespace, [], [], []⟩, ⟨none, [], []⟩⟩ : networkingv1.Ingress)
      _ stored hfind with hc | ⟨o, hf, hk, hc⟩
  · rw [hc]
    exact ⟨stored, hfind, rfl, Or.inl rfl⟩
  · rw [hc]
    refine ⟨o, find_replace c _ _ stored o hfind hk, ?_, ?_⟩
    · cases hsvc : app.Spec.Service with
      | none => rw [hsvc] at hf; simp at hf
      | some svc =>
        rw [hsvc] at hf
        simp only [Option.some.injEq] at hf
        rw [← hf]
    · cases hsvc : app.Spec.Service with
      | none => rw [hsvc] at hf; simp at hf
      | some svc =>
        rw [hsvc] at hf
        simp only [Option.some.injEq] at hf
        rw [← hf]
        exact Or.inr ⟨_, rfl, rfl⟩

/-- C15: after an `updateIngressForTLS` that updated the Ingress with success, a second
call with the same spec on the resulting store issues the read alone, leaves the store
and returns the sentinel error `Found`; an intervening `reconcileIngress` with the same
spec leaves the Ingress in the store with its tls blocks unchanged, and the call after
it again only reads and returns the sentinel. -/
theorem tls_binding_is_stable (r : ApplicationReconciler) (c : Cluster) (app : Application)
    (ing : IngressSpec) (hing : app.Spec.Ingress = some ing)
    (hfirst : (r.updateIngressForTLS c app).result = .returned none) :
    (r.updateIngressForTLS (r.updateIngressForTLS c app).cluster app).calls
        = [.get .Ingress app.Namespace (app.Name ++ "-ingress")]
    ∧ (r.updateIngressForTLS (r.updateIngressForTLS c app).cluster app).result
        = .returned (some { msg := "Found", notFound := false })
    ∧ (r.updateIngressForTLS (r.updateIngressForTLS c app).cluster app).cluster
        = (r.updateIngressForTLS c app).cluster
    ∧ (∃ bound kept : networkingv1.Ingress,
        (r.updateIngressForTLS c app).cluster.find app.Namespace (app.Name ++ "-ingress")
          = some bound
        ∧ bound.Spec.TLS ≠ []
        ∧ (r.reconcileIngress (r.updateIngressForTLS c app).cluster app).cluster.find
            app.Namespace (app.Name ++ "-ingress") = some kept
        ∧ kept.Spec.TLS = bound.Spec.TLS)
    ∧ (r.updateIngressForTLS
          (r.reconcileIngress (r.updateIngressForTLS c app).cluster app).cluster app).calls
        = [.get .Ingress app.Namespace (app.Name ++ "-ingress")]
    ∧ (r.updateIngressForTLS
          (r.reconcileIngress (r.updateIngressForTLS c app).cluster app).cluster app).result
        = .returned (some { msg := "Found", notFound := false }) := by
  obtain ⟨hget, bound, hbound, hr, ht, hne⟩ := updateIngressForTLS_binds r c app hfirst
  have hsecond := updateIngressForTLS_aligned r _ app bound hbound hget hr ht
  obtain ⟨kept, hkept, hktls, hkrules⟩ :=
    reconcileIngress_keeps_tls r _ app ing bound hing hbound
  have hr' : alignRuleHost app kept.Spec.Rules = some (kept.Spec.Rules, false) := by
    rcases hkrules with h | ⟨rule, h, hhost⟩
    · rw [h]
      exact hr
    · rw [h]
      simp [alignRuleHost, hing, hhost]
  have ht' : alignTLS app kept.Spec.TLS = some (kept.Spec.TLS, false) := by
    rw [hktls]
    exact ht
  have hthird := updateIngressForTLS_aligned r _ app kept hkept hget hr' ht'
  refine ⟨?_, ?_, ?_, ⟨bound, kept, hbound, hne, hkept, hktls⟩, ?_, ?_⟩
  · rw [hsecond]
    rfl
  · rw [hsecond]
  · rw [hsecond]
  · rw [hthird]
    rfl
  · rw [hthird]

/-- C15 on the Ingress of the TLS demo Application without a tls block. -/
theorem tls_binding_is_stable_witness :
    tlsApp.Spec.Ingress = some ⟨"demo.example.com", "/", []⟩
    ∧ (plainReconciler.updateIngressForTLS unboundCluster tlsApp).result = .returned none
    ∧ (plainReconciler.updateIngressForTLS
          (plainReconciler.updateIngressForTLS unboundCluster tlsApp).cluster tlsApp).calls
        = [.get .Ingress "ns1" "demo-ingress"]
    ∧ (plainReconciler.updateIngressForTLS
          (plainReconciler.updateIngressForTLS unboundCluster tlsApp).cluster tlsApp).result
        = .returned (some { msg := "Found", notFound := false }) :=
  have h := tls_binding_is_stable plainReconciler unboundCluster tlsApp
    ⟨"demo.example.com", "/", []⟩ rfl (by decide)
  ⟨rfl, by decide, h.1, h.2.1⟩

/-! ## Teardown -/

/-- The three ways `deleteApplicationDependencies` ends. -/
theorem deleteApplicationDependencies_cases (r : ApplicationReconciler) (c : Cluster)
    (app : Application) :
    (r.CertManagerClientSet = none
      ∧ r.deleteApplicationDependencies c app
        = ⟨c, [], .returned (some { msg := "failed to get certmanager client",
                                     notFound := false })⟩)
    ∨ (∃ cs, r.CertManagerClientSet = some cs
      ∧ ((cs.Get c (issuerName app.Namespace)).2.map (fun e => e.notFound)).getD false = true
      ∧ r.deleteApplicationDependencies c app
        = ⟨c, [.get .ClusterIssuer "" (issuerName app.Namespace)], .returned none⟩)
    ∨ (∃ cs, r.CertManagerClientSet = some cs
      ∧ ((cs.Get c (issuerName app.Namespace)).2.map (fun e => e.notFound)).getD false = false
      ∧ r.deleteApplicationDependencies c app
        = ⟨(cs.Delete c (cs.Get c (issuerName app.Namespace)).1).1,
            [.get .ClusterIssuer "" (issuerName app.Namespace),
             .delete (.clusterIssuer (cs.Get c (issuerName app.Namespace)).1)],
            .returned (cs.Delete c (cs.Get c (issuerName app.Namespace)).1).2⟩) := by
  unfold ApplicationReconciler.deleteApplicationDependencies
  cases hcs : r.CertManagerClientSet with
  | none => exact Or.inl ⟨rfl, rfl⟩
  | some cs =>
    simp only
    by_cases hnf :
        ((cs.Get c (issuerName app.Namespace)).2.map (fun e => e.notFound)).getD false = true
    · exact Or.inr (Or.inl ⟨cs, rfl, hnf, by simp only [hnf, if_true]⟩)
    · simp only [Bool.not_eq_true] at hnf
      exact Or.inr (Or.inr ⟨cs, rfl, hnf, by simp only [hnf, Bool.false_eq_true, if_false]⟩)

theorem Clientset_Delete_failed (cs : Clientset) (c : Cluster) (issuer : ClusterIssuer)
    (err : GoError) (h : (cs.Delete c issuer).2 = some err) : (cs.Delete c issuer).1 = c := by
  unfold Clientset.Delete at h ⊢
  by_cases hn : issuer.Name = ""
  · simp only [hn, if_true]
  · simp only [hn, if_false] at h ⊢
    cases hf : cs.fault (.delete (.clusterIssuer issuer)) with
    | some m => rfl
    | none =>
      rw [hf] at h
      simp only at h ⊢
      cases hfind : c.findIssuer issuer.Name with
      | some x =>
        rw [hfind] at h
        simp at h
      | none => rfl

/-- C17: for an Application under deletion, `ensureApplicationFinalizer` issues an
update of the Application only if the clientset is there and the issuer was reported
not found or its delete returned no error, and the update it then issues carries the
finalizer list without the finalizer; when the clientset is missing or the delete
fails, it returns an error, issues no update of the Application, and leaves the
finalizer list of the Application and the store as they were. -/
theorem finalizer_removed_only_after_issuer_gone (r : ApplicationReconciler) (c : Cluster)
    (app : Application) (hdel : isZero app.DeletionTimestamp = false) :
    ((∃ x, ApiCall.update (.application x) ∈ (r.ensureApplicationFinalizer c app).calls) →
      ∃ cs, r.CertManagerClientSet = some cs
        ∧ (((cs.Get c (issuerName app.Namespace)).2.map (fun e => e.notFound)).getD false = true
          ∨ (cs.Delete c (cs.Get c (issuerName app.Namespace)).1).2 = none))
    ∧ (∀ cs, r.CertManagerClientSet = some cs →
        (((cs.Get c (issuerName app.Namespace)).2.map (fun e => e.notFound)).getD false = true
          ∨ (cs.Delete c (cs.Get c (issuerName app.Namespace)).1).2 = none) →
        ApiCall.update (.application
            { app with
              Finalizers := app.Finalizers.filter (fun f => decide (f ≠ r.applicationFinalizer)) })
          ∈ (r.ensureApplicationFinalizer c app).calls)
    ∧ ((r.CertManagerClientSet = none
          ∨ ∃ cs err, r.CertManagerClientSet = some cs
              ∧ ((cs.Get c (issuerName app.Namespace)).2.map (fun e => e.notFound)).getD false
                  = false
              ∧ (cs.Delete c (cs.Get c (issuerName app.Namespace)).1).2 = some err) →
        (∃ e, (r.ensureApplicationFinalizer c app).result = .returned (some e))
        ∧ (∀ x, ApiCall.update (.application x) ∉ (r.ensureApplicationFinalizer c app).calls)
        ∧ (r.ensureApplicationFinalizer c app).app = app
        ∧ (r.ensureApplicationFinalizer c app).cluster = c) := by
  unfold ApplicationReconciler.ensureApplicationFinalizer
  simp only [hdel, Bool.false_eq_true, if_false]
  rcases deleteApplicationDependencies_cases r c app with ⟨hcs, hrun⟩ | ⟨cs, hcs, hnf, hrun⟩
    | ⟨cs, hcs, hnf, hrun⟩
  · rw [hrun]
    refine ⟨?_, ?_, ?_⟩
    · rintro ⟨x, hx⟩
      simp at hx
    · intro cs hcs'
      rw [hcs] at hcs'
      exact absurd hcs' (by simp)
    · intro _
      exact ⟨⟨_, rfl⟩, by simp, rfl, rfl⟩
  · rw [hrun]
    simp only
    refine ⟨fun _ => ⟨cs, hcs, Or.inl hnf⟩, ?_, ?_⟩
    · intro _ _ _
      split <;> simp
    · rintro (h | ⟨cs', err, hcs', hnf', _⟩)
      · rw [hcs] at h
        exact absurd h (by simp)
      · rw [hcs] at hcs'
        cases hcs'
        rw [hnf] at hnf'
        exact absurd hnf' (by simp)
  · rw [hrun]
    simp only
    cases hd : (cs.Delete c (cs.Get c (issuerName app.Namespace)).1).2 with
    | none =>
      simp only
      refine ⟨fun _ => ⟨cs, hcs, Or.inr hd⟩, ?_, ?_⟩
      · intro _ _ _
        split <;> simp
      · rintro (h | ⟨cs', err, hcs', _, hd'⟩)
        · rw [hcs] at h
          exact absurd h (by simp)
        · rw [hcs] at hcs'
          cases hcs'
          rw [hd] at hd'
          exact absurd hd' (by simp)
    | some err =>
      simp only
      refine ⟨?_, ?_, ?_⟩
      · rintro ⟨x, hx⟩
        simp at hx
      · intro cs' hcs' h
        rw [hcs] at hcs'
        cases hcs'
        rcases h with h | h
        · rw [hnf] at h
          exact absurd h (by simp)
        · rw [hd] at h
          exact absurd h (by simp)
      · intro _
        exact ⟨⟨_, rfl⟩, by simp, trivial, Clientset_Delete_failed cs c _ err hd⟩

/-- C17 at the Application under deletion, the clientset failing the delete of the
issuer: an error, no update, finalizer and store as they were. -/
theorem finalizer_removed_only_after_issuer_gone_witness :
    isZero deletingApp.DeletionTimestamp = false
    ∧ (∃ e, (failingDeleteReconciler.ensureApplicationFinalizer deletingCluster deletingApp).result
          = .returned (some e))
    ∧ (∀ x, ApiCall.update (.application x)
          ∉ (failingDeleteReconciler.ensureApplicationFinalizer deletingCluster deletingApp).calls)
    ∧ (failingDeleteReconciler.ensureApplicationFinalizer deletingCluster deletingApp).app
        = deletingApp
    ∧ (failingDeleteReconciler.ensureApplicationFinalizer deletingCluster deletingApp).cluster
        = deletingCluster :=
  ⟨by decide,
    (finalizer_removed_only_after_issuer_gone failingDeleteReconciler deletingCluster deletingApp
      (by decide)).2.2
      (Or.inr ⟨_, ⟨"the server is currently unable to handle the request", false⟩, rfl,
        by decide, by decide⟩)⟩

/-! ## The status condition -/

instance : LawfulResource Application where
  sel_upd _ _ := rfl
  upd_upd _ _ _ := rfl
  deepEqual_refl x := by simp [Resource.deepEqual]

/-- A `Status().Update` that returns no error stores the Application found under the
key with the conditions sent, and hands it back. -/
theorem UpdateStatus_ok (r : ApplicationReconciler) (c : Cluster) (app : Application)
    (h : (r.UpdateStatus c app).2.2 = none) :
    ∃ stored : Application,
      (r.UpdateStatus c app).2.1 = { stored with Conditions := app.Conditions }
      ∧ ((r.UpdateStatus c app).1.find app.Namespace app.Name : Option Application)
          = some { stored with Conditions := app.Conditions } := by
  unfold ApplicationReconciler.UpdateStatus at h ⊢
  cases hf : r.fault (.updateStatus (.application app)) with
  | some m => rw [hf] at h; simp at h
  | none =>
    rw [hf] at h
    simp only at h ⊢
    cases hfind : (c.find app.Namespace app.Name : Option Application) with
    | none => rw [hfind] at h; simp at h
    | some stored =>
      simp only
      have hk := find_hasKey c _ _ stored hfind
      refine ⟨stored, rfl, find_replace c _ _ stored _ hfind ?_⟩
      simpa [hasKey, Resource.objectMeta] using hk

/-- C20, as stated, fails: on a status whose first condition has type `Available` but
is not true, `updateStatus` returns no error and leaves the list as it is. -/
theorem available_condition_is_not_rewritten :
    ¬ (∀ (r : ApplicationReconciler) (c : Cluster) (now : Nat) (app : Application),
        (r.updateStatus c now app).result = .returned none →
        ∃ cond, (r.updateStatus c now app).app.Conditions = [cond]
          ∧ cond.Type_ = "Available" ∧ cond.Status = "True" ∧ cond.Reason = "Reconciled") := by
  intro h
  obtain ⟨cond, hc, _, hs, _⟩ := h plainReconciler unavailableCluster 7 unavailableApp (by decide)
  have hkeep : (plainReconciler.updateStatus unavailableCluster 7 unavailableApp).app.Conditions
      = [{ Type_ := "Available", Status := "False", Reason := "Paused", Message := "",
           LastTransitionTime := 1 }] := by decide
  rw [hkeep] at hc
  simp only [List.cons.injEq, and_true] at hc
  rw [← hc] at hs
  revert hs
  decide

/-- C20, amended: when `updateStatus` returns no error, either it issued the status
update, and the condition list of the Application, in memory and in the store, is
exactly one condition of type `Available`, status `True`, reason `Reconciled`, stamped
with the current time; or the first condition already had type `Available`, and it
issued no call and left the Application and the store as they were. -/
theorem status_written_unless_available_first (r : ApplicationReconciler) (c : Cluster)
    (now : Nat) (app : Application)
    (hres : (r.updateStatus c now app).result = .returned none) :
    ((∃ sent, (r.updateStatus c now app).calls = [.updateStatus (.application sent)])
      ∧ (∃ cond, (r.updateStatus c now app).app.Conditions = [cond]
          ∧ cond.Type_ = "Available" ∧ cond.Status = "True" ∧ cond.Reason = "Reconciled"
          ∧ cond.LastTransitionTime = now
          ∧ ∃ stored : Application,
              (r.updateStatus c now app).cluster.find app.Namespace app.Name = some stored
              ∧ stored.Conditions = [cond]))
    ∨ ((∃ cond rest, app.Conditions = cond :: rest ∧ cond.Type_ = "Available")
      ∧ (r.updateStatus c now app).calls = []
      ∧ (r.updateStatus c now app).app = app
      ∧ (r.updateStatus c now app).cluster = c) := by
  unfold ApplicationReconciler.updateStatus at hres ⊢
  simp only at hres ⊢
  split at hres
  · next hcond =>
    simp only [hcond, if_true]
    left
    cases hu : (r.UpdateStatus c { app with Conditions := [availableCondition now] }).2.2 with
    | some err =>
      rw [hu] at hres
      simp at hres
    | none =>
      obtain ⟨stored, h1, h2⟩ := UpdateStatus_ok r c _ hu
      simp only
      refine ⟨⟨_, rfl⟩, availableCondition now, ?_, rfl, rfl, rfl, rfl, _, h2, rfl⟩
      rw [h1]
  · next hcond =>
    simp only [hcond, if_false]
    right
    refine ⟨?_, rfl, rfl, rfl⟩
    cases hl : app.Conditions with
    | nil => simp [hl] at hcond
    | cons cond rest =>
      refine ⟨cond, rest, rfl, ?_⟩
      simp only [hl, List.length_cons, Nat.add_one_ne_zero, decide_False, List.head?_cons,
        Option.map_some', Option.getD_some, Bool.false_or, decide_eq_true_eq, ne_eq,
        not_not] at hcond
      exact hcond

/-- The amended C20 at the demo Application, whose status is empty. -/
theorem status_written_unless_available_first_witness :
    (plainReconciler.updateStatus demoCluster 7 demoApp).result = .returned none
    ∧ (plainReconciler.updateStatus demoCluster 7 demoApp).app.Conditions
        = [{ Type_ := "Available", Status := "True", Reason := "Reconciled",
             Message := "Application resources successfully reconciled",
             LastTransitionTime := 7 }]
    ∧ (((∃ sent, (plainReconciler.updateStatus demoCluster 7 demoApp).calls
            = [.updateStatus (.application sent)])
        ∧ (∃ cond, (plainReconciler.updateStatus demoCluster 7 demoApp).app.Conditions = [cond]
            ∧ cond.Type_ = "Available" ∧ cond.Status = "True" ∧ cond.Reason = "Reconciled"
            ∧ cond.LastTransitionTime = 7
            ∧ ∃ stored : Application,
                (plainReconciler.updateStatus demoCluster 7 demoApp).cluster.find
                  demoApp.Namespace demoApp.Name = some stored
                ∧ stored.Conditions = [cond]))
      ∨ ((∃ cond rest, demoApp.Conditions = cond :: rest ∧ cond.Type_ = "Available")
        ∧ (plainReconciler.updateStatus demoCluster 7 demoApp).calls = []
        ∧ (plainReconciler.updateStatus demoCluster 7 demoApp).app = demoApp
        ∧ (plainReconciler.updateStatus demoCluster 7 demoApp).cluster = demoCluster)) :=
  ⟨by decide, by decide,
    status_written_unless_available_first plainReconciler demoCluster 7 demoApp (by decide)⟩

/-! ## The order of a pass -/

theorem continues_stop (p : Pass) (res : Result) (good : StepRecord → Prop) :
    Continues p (p.stop res) good :=
  ⟨[], by simp [Pass.stop], by simp [Pass.stop], by simp⟩

theorem continues_record (p : Pass) (step : Step) (cluster : Cluster) (calls : List ApiCall)
    (res : Result) (out : PassOutcome) (good : StepRecord → Prop)
    (hgood : good ⟨step, calls, res⟩)
    (h : Continues (p.record step cluster calls res) out good) : Continues p out good := by
  obtain ⟨tail, h1, h2, h3⟩ := h
  refine ⟨⟨step, calls, res⟩ :: tail, ?_, ?_, ?_⟩
  · rw [h1]
    simp [Pass.record]
  · rw [h2]
    simp [Pass.record]
  · intro rec hrec
    rcases List.mem_cons.1 hrec with h | h
    · rw [h]
      exact hgood
    · exact h3 rec h

theorem deleteApplicationDependencies_no_create (r : ApplicationReconciler) (c : Cluster)
    (app : Application) :
    ∀ x ∈ (r.deleteApplicationDependencies c app).calls, x.isIssuerCreate = false := by
  rcases deleteApplicationDependencies_cases r c app with ⟨_, h⟩ | ⟨_, _, _, h⟩ | ⟨_, _, _, h⟩ <;>
    rw [h] <;> simp [ApiCall.isIssuerCreate]

theorem ensureApplicationFinalizer_no_create (r : ApplicationReconciler) (c : Cluster)
    (app : Application) :
    ∀ x ∈ (r.ensureApplicationFinalizer c app).calls, x.isIssuerCreate = false := by
  have hdep := deleteApplicationDependencies_no_create r c app
  unfold ApplicationReconciler.ensureApplicationFinalizer
  split
  · split
    · simp only
      split <;> simp [ApiCall.isIssuerCreate]
    · simp
  · simp only
    split
    · split
      · intro x hx
        simp only [List.mem_append, List.mem_singleton] at hx
        rcases hx with hx | hx
        · exact hdep x hx
        · rw [hx]
          rfl
      · intro x hx
        simp only [List.mem_append, List.mem_singleton] at hx
        rcases hx with hx | hx
        · exact hdep x hx
        · rw [hx]
          rfl
    · exact hdep
    · exact hdep

theorem updateStatus_no_create (r : ApplicationReconciler) (c : Cluster) (now : Nat)
    (app : Application) :
    ∀ x ∈ (r.updateStatus c now app).calls, x.isIssuerCreate = false := by
  unfold ApplicationReconciler.updateStatus
  simp only
  split
  · split <;> simp [ApiCall.isIssuerCreate]
  · simp

theorem finishPass_continues (r : ApplicationReconciler) (now : Nat) (app : Application)
    (p : Pass) :
    Continues p (r.finishPass now app p)
      (fun rec => (rec.step = .Finalizer ∨ rec.step = .Status)
        ∧ ∀ x ∈ rec.calls, x.isIssuerCreate = false) := by
  unfold ApplicationReconciler.finishPass
  simp only
  have hfin := ensureApplicationFinalizer_no_create r p.cluster app
  generalize r.ensureApplicationFinalizer p.cluster app = fin at hfin
  apply continues_record p .Finalizer fin.cluster fin.calls fin.result _ _ ⟨Or.inl rfl, hfin⟩
  split
  · have hst := updateStatus_no_create r
      (p.record .Finalizer fin.cluster fin.calls fin.result).cluster now fin.app
    generalize r.updateStatus (p.record .Finalizer fin.cluster fin.calls fin.result).cluster now
      fin.app = st at hst
    apply continues_record _ .Status st.cluster st.calls st.result _ _ ⟨Or.inr rfl, hst⟩
    exact continues_stop _ _ _
  · exact continues_stop _ _ _

theorem continues_mono (p : Pass) (out : PassOutcome) (good good' : StepRecord → Prop)
    (hmono : ∀ rec, good rec → good' rec) (h : Continues p out good) : Continues p out good' := by
  obtain ⟨tail, h1, h2, h3⟩ := h
  exact ⟨tail, h1, h2, fun rec hrec => hmono rec (h3 rec hrec)⟩

theorem bindTLS_continues (r : ApplicationReconciler) (now : Nat) (app : Application)
    (issuer : Option ClusterIssuer) (p : Pass) :
    Continues p (r.bindTLS now app issuer p) (fun rec => rec.step ∈ laterSteps) := by
  have hfin : ∀ p', Continues p' (r.finishPass now app p') (fun rec => rec.step ∈ laterSteps) := by
    intro p'
    apply continues_mono _ _ _ _ _ (finishPass_continues r now app p')
    intro rec h
    rcases h.1 with h | h <;> simp [h, laterSteps]
  unfold ApplicationReconciler.bindTLS
  split
  · exact continues_stop _ _ _
  · split
    · split
      · simp only
        generalize r.updateIngressForTLS p.cluster app = upd
        apply continues_record p .IngressTLS upd.cluster upd.calls upd.result _ _
          (by simp [laterSteps])
        split
        · exact continues_stop _ _ _
        · split
          · exact continues_stop _ _ _
          · exact hfin _
        · exact hfin _
      · exact hfin _
    · exact hfin _

theorem tlsPart_continues (r : ApplicationReconciler) (now : Nat) (app : Application)
    (p : Pass) :
    Continues p (r.tlsPart now app p) (fun rec => rec.step ∈ laterSteps) := by
  have hfin : ∀ p', Continues p' (r.finishPass now app p') (fun rec => rec.step ∈ laterSteps) := by
    intro p'
    apply continues_mono _ _ _ _ _ (finishPass_continues r now app p')
    intro rec h
    rcases h.1 with h | h <;> simp [h, laterSteps]
  unfold ApplicationReconciler.tlsPart
  split
  · exact hfin _
  · split
    · simp only
      generalize r.ReconcileIssuer p.cluster app = iss
      apply continues_record p .Issuer iss.cluster iss.calls iss.result _ _
        (by simp [laterSteps])
      split
      · exact continues_stop _ _ _
      · split
        · split <;> exact continues_stop _ _ _
        · exact bindTLS_continues _ _ _ _ _
      · split
        · exact continues_stop _ _ _
        · exact bindTLS_continues _ _ _ _ _
    · exact hfin _

/-- A synchronizer that returned no error hands the pass on. -/
theorem sync_of_ok (p : Pass) (step : Step) (run : Cluster → Outcome)
    (next : Pass → PassOutcome) (h : (run p.cluster).result = .returned none) :
    Pass.sync p step run next
      = next (p.record step (run p.cluster).cluster (run p.cluster).calls
          (run p.cluster).result) := by
  unfold Pass.sync
  simp only
  split
  · rfl
  · next hne => exact absurd h (hne · )

/-- A synchronizer that failed ends the pass. -/
theorem sync_of_failed (p : Pass) (step : Step) (run : Cluster → Outcome)
    (next : Pass → PassOutcome) (h : (run p.cluster).result ≠ .returned none) :
    Pass.sync p step run next
      = (p.record step (run p.cluster).cluster (run p.cluster).calls
          (run p.cluster).result).stop (run p.cluster).result := by
  unfold Pass.sync
  simp only

/-- C18: in a pass whose Application is found, `reconcileConfigMap` runs first, on the
store as it was read; `reconcileSecret`, `reconcileDeployment`, `reconcileService` and
`reconcileIngress` follow in this order, each on the store the one before it left, and
each only if all before it returned no error. When one of them fails (an error or a
panic), the pass ends there: its calls are the read of the Application and the calls
of the synchronizers run so far, its store is the one the failing synchronizer left,
and `Reconcile` ends as that synchronizer did, with no later synchronizer, TLS step,
finalizer step or status write. When all five returned no error, the pass goes on
with the TLS part from the store `reconcileIngress` left, and adds to the five steps
only TLS steps, the finalizer step and the status write. -/
theorem synchronizers_run_in_order (r : ApplicationReconciler) (c : Cluster) (ns name : String)
    (now : Nat) (app : Application) (hget : r.Get c ns name = .ok app) :
    let get : ApiCall := .get .Application ns name
    let o₁ := r.reconcileConfigMap c app
    let o₂ := r.reconcileSecret o₁.cluster app
    let o₃ := r.reconcileDeployment o₂.cluster app
    let o₄ := r.reconcileService o₃.cluster app
    let o₅ := r.reconcileIngress o₄.cluster app
    let s₁ : StepRecord := ⟨.ConfigMap, o₁.calls, o₁.result⟩
    let s₂ : StepRecord := ⟨.Secret, o₂.calls, o₂.result⟩
    let s₃ : StepRecord := ⟨.Deployment, o₃.calls, o₃.result⟩
    let s₄ : StepRecord := ⟨.Service, o₄.calls, o₄.result⟩
    let s₅ : StepRecord := ⟨.Ingress, o₅.calls, o₅.result⟩
    (o₁.result ≠ .returned none →
      r.Reconcile c ns name now = ⟨o₁.cluster, get :: o₁.calls, [s₁], o₁.result⟩)
    ∧ (o₁.result = .returned none → o₂.result ≠ .returned none →
      r.Reconcile c ns name now
        = ⟨o₂.cluster, get :: (o₁.calls ++ o₂.calls), [s₁, s₂], o₂.result⟩)
    ∧ (o₁.result = .returned none → o₂.result = .returned none →
        o₃.result ≠ .returned none →
      r.Reconcile c ns name now
        = ⟨o₃.cluster, get :: (o₁.calls ++ o₂.calls ++ o₃.calls), [s₁, s₂, s₃], o₃.result⟩)
    ∧ (o₁.result = .returned none → o₂.result = .returned none →
        o₃.result = .returned none → o₄.result ≠ .returned none →
      r.Reconcile c ns name now
        = ⟨o₄.cluster, get :: (o₁.calls ++ o₂.calls ++ o₃.calls ++ o₄.calls),
            [s₁, s₂, s₃, s₄], o₄.result⟩)
    ∧ (o₁.result = .returned none → o₂.result = .returned none →
        o₃.result = .returned none → o₄.result = .returned none →
        o₅.result ≠ .returned none →
      r.Reconcile c ns name now
        = ⟨o₅.cluster, get :: (o₁.calls ++ o₂.calls ++ o₃.calls ++ o₄.calls ++ o₅.calls),
            [s₁, s₂, s₃, s₄, s₅], o₅.result⟩)
    ∧ (o₁.result = .returned none → o₂.result = .returned none →
        o₃.result = .returned none → o₄.result = .returned none →
        o₅.result = .returned none →
      r.Reconcile c ns name now
          = r.tlsPart now app
              ⟨o₅.cluster, get :: (o₁.calls ++ o₂.calls ++ o₃.calls ++ o₄.calls ++ o₅.calls),
                [s₁, s₂, s₃, s₄, s₅]⟩
      ∧ ∃ tail : List StepRecord,
          (r.Reconcile c ns name now).steps = [s₁, s₂, s₃, s₄, s₅] ++ tail
          ∧ (∀ s ∈ tail, s.step ∈ [Step.Issuer, .IngressTLS, .Finalizer, .Status])
          ∧ (r.Reconcile c ns name now).calls
              = get :: (o₁.calls ++ o₂.calls ++ o₃.calls ++ o₄.calls ++ o₅.calls)
                ++ tail.flatMap (fun s => s.calls)) := by
  intro get o₁ o₂ o₃ o₄ o₅ s₁ s₂ s₃ s₄ s₅
  have hrec : r.Reconcile c ns name now
      = Pass.sync ⟨c, [get], []⟩ .ConfigMap (fun c => r.reconcileConfigMap c app) (fun p =>
          p.sync .Secret (fun c => r.reconcileSecret c app) (fun p =>
            p.sync .Deployment (fun c => r.reconcileDeployment c app) (fun p =>
              p.sync .Service (fun c => r.reconcileService c app) (fun p =>
                p.sync .Ingress (fun c => r.reconcileIngress c app) (fun p =>
                  r.tlsPart now app p))))) := by
    unfold ApplicationReconciler.Reconcile
    simp only [hget, get]
  refine ⟨?_, ?_, ?_, ?_, ?_, ?_⟩
  · intro h₁
    rw [hrec, sync_of_failed _ _ _ _ h₁]
    simp [Pass.stop, Pass.record, o₁, s₁]
  · intro h₁ h₂
    rw [hrec, sync_of_ok _ _ _ _ h₁, sync_of_failed _ _ _ _ h₂]
    simp [Pass.stop, Pass.record, o₁, o₂, s₁, s₂]
  · intro h₁ h₂ h₃
    rw [hrec, sync_of_ok _ _ _ _ h₁, sync_of_ok _ _ _ _ h₂, sync_of_failed _ _ _ _ h₃]
    simp [Pass.stop, Pass.record, o₁, o₂, o₃, s₁, s₂, s₃]
  · intro h₁ h₂ h₃ h₄
    rw [hrec, sync_of_ok _ _ _ _ h₁, sync_of_ok _ _ _ _ h₂, sync_of_ok _ _ _ _ h₃,
      sync_of_failed _ _ _ _ h₄]
    simp [Pass.stop, Pass.record, o₁, o₂, o₃, o₄, s₁, s₂, s₃, s₄]
  · intro h₁ h₂ h₃ h₄ h₅
    rw [hrec, sync_of_ok _ _ _ _ h₁, sync_of_ok _ _ _ _ h₂, sync_of_ok _ _ _ _ h₃,
      sync_of_ok _ _ _ _ h₄, sync_of_failed _ _ _ _ h₅]
    simp [Pass.stop, Pass.record, o₁, o₂, o₃, o₄, o₅, s₁, s₂, s₃, s₄, s₅]
  · intro h₁ h₂ h₃ h₄ h₅
    have hall : r.Reconcile c ns name now
        = r.tlsPart now app
            ⟨o₅.cluster, get :: (o₁.calls ++ o₂.calls ++ o₃.calls ++ o₄.calls ++ o₅.calls),
              [s₁, s₂, s₃, s₄, s₅]⟩ := by
      rw [hrec, sync_of_ok _ _ _ _ h₁, sync_of_ok _ _ _ _ h₂, sync_of_ok _ _ _ _ h₃,
        sync_of_ok _ _ _ _ h₄, sync_of_ok _ _ _ _ h₅]
      simp [Pass.record, o₁, o₂, o₃, o₄, o₅, s₁, s₂, s₃, s₄, s₅]
    refine ⟨hall, ?_⟩
    obtain ⟨tail, ht1, ht2, ht3⟩ := tlsPart_continues r now app
      ⟨o₅.cluster, get :: (o₁.calls ++ o₂.calls ++ o₃.calls ++ o₄.calls ++ o₅.calls),
        [s₁, s₂, s₃, s₄, s₅]⟩
    refine ⟨tail, ?_, ?_, ?_⟩
    · rw [hall, ht1]
    · intro s hs
      simpa [laterSteps] using ht3 s hs
    · rw [hall, ht2]

/-- C18 at the Application whose env vars were removed, on the store an earlier pass
left: `reconcileConfigMap` fails, and the pass consists of the read of the Application
and that one synchronizer; and the steps of the pass on the demo Application, where
all five synchronizers return no error. -/
theorem synchronizers_run_in_order_witness :
    plainReconciler.Get leftoverCluster "ns1" "demo" = .ok bareApp
    ∧ (plainReconciler.reconcileConfigMap leftoverCluster bareApp).result ≠ .returned none
    ∧ plainReconciler.Reconcile leftoverCluster "ns1" "demo" 8
        = ⟨(plainReconciler.reconcileConfigMap leftoverCluster bareApp).cluster,
            .get .Application "ns1" "demo"
              :: (plainReconciler.reconcileConfigMap leftoverCluster bareApp).calls,
            [⟨.ConfigMap, (plainReconciler.reconcileConfigMap leftoverCluster bareApp).calls,
              (plainReconciler.reconcileConfigMap leftoverCluster bareApp).result⟩],
            (plainReconciler.reconcileConfigMap leftoverCluster bareApp).result⟩
    ∧ (plainReconciler.Reconcile leftoverCluster "ns1" "demo" 8).calls.length = 3
    ∧ (plainReconciler.Reconcile demoCluster "ns1" "demo" 7).steps.map (fun s => s.step)
        = [.ConfigMap, .Secret, .Deployment, .Service, .Ingress, .Finalizer, .Status] :=
  ⟨rfl, by decide,
    (synchronizers_run_in_order plainReconciler leftoverCluster "ns1" "demo" 8 bareApp rfl).1
      (by decide),
    by decide, by decide⟩

/-! ## Issuer and finalizer in one pass -/

theorem CreateOrUpdate_no_app_update {α : Type} [Resource α] (r : ApplicationReconciler)
    (c : Cluster) (obj : α) (f : α → Option α)
    (hw : ∀ o : α, (ApiCall.update (Resource.wrap o)).isApplicationUpdate = false) :
    ∀ x ∈ (CreateOrUpdate r c obj f).2.calls, x.isApplicationUpdate = false := by
  intro x hx
  rcases CreateOrUpdate_calls r c obj f with h | ⟨o, _, h⟩ | ⟨existing, o, _, _, h⟩
  · rw [h] at hx
    simp only [List.mem_singleton] at hx
    rw [hx]
    rfl
  · rw [h] at hx
    simp only [List.mem_cons, List.mem_singleton, List.not_mem_nil, or_false] at hx
    rcases hx with hx | hx <;> rw [hx] <;> rfl
  · rw [h] at hx
    simp only [List.mem_cons, List.mem_singleton, List.not_mem_nil, or_false] at hx
    rcases hx with hx | hx
    · rw [hx]
      rfl
    · rw [hx]
      exact hw o

theorem reconcileConfigMap_no_app_update (r : ApplicationReconciler) (c : Cluster)
    (app : Application) :
    ∀ x ∈ (r.reconcileConfigMap c app).calls, x.isApplicationUpdate = false := by
  unfold ApplicationReconciler.reconcileConfigMap
  simp only
  split
  · split
    · split <;> simp [ApiCall.isApplicationUpdate]
    · simp [ApiCall.isApplicationUpdate]
  · rw [wrapErr_calls]
    exact CreateOrUpdate_no_app_update r c _ _ (fun _ => rfl)

theorem reconcileSecret_no_app_update (r : ApplicationReconciler) (c : Cluster)
    (app : Application) :
    ∀ x ∈ (r.reconcileSecret c app).calls, x.isApplicationUpdate = false := by
  unfold ApplicationReconciler.reconcileSecret
  simp only
  split
  · split
    · split <;> simp [ApiCall.isApplicationUpdate]
    · simp [ApiCall.isApplicationUpdate]
  · rw [wrapErr_calls]
    exact CreateOrUpdate_no_app_update r c _ _ (fun _ => rfl)

theorem reconcileDeployment_no_app_update (r : ApplicationReconciler) (c : Cluster)
    (app : Application) :
    ∀ x ∈ (r.reconcileDeployment c app).calls, x.isApplicationUpdate = false := by
  rw [reconcileDeployment_calls]
  split <;> simp [ApiCall.isApplicationUpdate]

theorem reconcileService_no_app_update (r : ApplicationReconciler) (c : Cluster)
    (app : Application) :
    ∀ x ∈ (r.reconcileService c app).calls, x.isApplicationUpdate = false := by
  unfold ApplicationReconciler.reconcileService
  split
  · simp
  · rw [wrapErr_calls]
    exact CreateOrUpdate_no_app_update r c _ _ (fun _ => rfl)

theorem reconcileIngress_no_app_update (r : ApplicationReconciler) (c : Cluster)
    (app : Application) :
    ∀ x ∈ (r.reconcileIngress c app).calls, x.isApplicationUpdate = false := by
  unfold ApplicationReconciler.reconcileIngress
  split
  · simp only
    split
    · split <;> simp [ApiCall.isApplicationUpdate]
    · simp [ApiCall.isApplicationUpdate]
  · rw [wrapErr_calls]
    exact CreateOrUpdate_no_app_update r c _ _ (fun _ => rfl)

theorem ReconcileIssuer_no_app_update (r : ApplicationReconciler) (c : Cluster)
    (app : Application) :
    ∀ x ∈ (r.ReconcileIssuer c app).calls, x.isApplicationUpdate = false := by
  unfold ApplicationReconciler.ReconcileIssuer
  simp only
  repeat' split
  all_goals simp [ApiCall.isApplicationUpdate]

theorem updateIngressForTLS_no_app_update (r : ApplicationReconciler) (c : Cluster)
    (app : Application) :
    ∀ x ∈ (r.updateIngressForTLS c app).calls, x.isApplicationUpdate = false := by
  unfold ApplicationReconciler.updateIngressForTLS
  simp only
  split
  · split
    · simp [ApiCall.isApplicationUpdate]
    · split
      · simp [ApiCall.isApplicationUpdate]
      · split <;> simp [ApiCall.isApplicationUpdate]
  · simp [ApiCall.isApplicationUpdate]

theorem issuerFirst_of_no_app_update (calls : List ApiCall)
    (h : ∀ x ∈ calls, x.isApplicationUpdate = false) : IssuerFirst calls :=
  ⟨calls, [], by simp, h, by simp⟩

theorem no_app_update_record (p : Pass) (step : Step) (cluster : Cluster)
    (calls : List ApiCall) (res : Result)
    (hp : ∀ x ∈ p.calls, x.isApplicationUpdate = false)
    (hc : ∀ x ∈ calls, x.isApplicationUpdate = false) :
    ∀ x ∈ (p.record step cluster calls res).calls, x.isApplicationUpdate = false := by
  intro x hx
  simp only [Pass.record, List.mem_append] at hx
  rcases hx with hx | hx
  · exact hp x hx
  · exact hc x hx

theorem finishPass_issuerFirst (r : ApplicationReconciler) (now : Nat) (app : Application)
    (p : Pass) (hp : ∀ x ∈ p.calls, x.isApplicationUpdate = false) :
    IssuerFirst (r.finishPass now app p).calls := by
  obtain ⟨tail, _, h2, h3⟩ := finishPass_continues r now app p
  refine ⟨p.calls, tail.flatMap (fun rec => rec.calls), h2, hp, ?_⟩
  intro x hx
  simp only [List.mem_flatMap] at hx
  obtain ⟨rec, hrec, hx⟩ := hx
  exact (h3 rec hrec).2 x hx

theorem bindTLS_issuerFirst (r : ApplicationReconciler) (now : Nat) (app : Application)
    (issuer : Option ClusterIssuer) (p : Pass)
    (hp : ∀ x ∈ p.calls, x.isApplicationUpdate = false) :
    IssuerFirst (r.bindTLS now app issuer p).calls := by
  unfold ApplicationReconciler.bindTLS
  split
  · exact issuerFirst_of_no_app_update _ hp
  · split
    · split
      · simp only
        have hupd := updateIngressForTLS_no_app_update r p.cluster app
        generalize r.updateIngressForTLS p.cluster app = upd at hupd
        have hp₁ := no_app_update_record p .IngressTLS upd.cluster upd.calls upd.result hp hupd
        split
        · exact issuerFirst_of_no_app_update _ hp₁
        · split
          · exact issuerFirst_of_no_app_update _ hp₁
          · exact finishPass_issuerFirst r now app _ hp₁
        · exact finishPass_issuerFirst r now app _ hp₁
      · exact finishPass_issuerFirst r now app _ hp
    · exact finishPass_issuerFirst r now app _ hp

theorem tlsPart_issuerFirst (r : ApplicationReconciler) (now : Nat) (app : Application)
    (p : Pass) (hp : ∀ x ∈ p.calls, x.isApplicationUpdate = false) :
    IssuerFirst (r.tlsPart now app p).calls := by
  unfold ApplicationReconciler.tlsPart
  split
  · exact finishPass_issuerFirst r now app _ hp
  · split
    · simp only
      have hiss := ReconcileIssuer_no_app_update r p.cluster app
      generalize r.ReconcileIssuer p.cluster app = iss at hiss
      have hp₁ := no_app_update_record p .Issuer iss.cluster iss.calls iss.result hp hiss
      split
      · exact issuerFirst_of_no_app_update _ hp₁
      · split
        · split <;> exact issuerFirst_of_no_app_update _ hp₁
        · exact bindTLS_issuerFirst r now _ _ _ hp₁
      · split
        · exact issuerFirst_of_no_app_update _ hp₁
        · exact bindTLS_issuerFirst r now _ _ _ hp₁
    · exact finishPass_issuerFirst r now app _ hp

theorem sync_issuerFirst (p : Pass) (step : Step) (run : Cluster → Outcome)
    (next : Pass → PassOutcome) (hp : ∀ x ∈ p.calls, x.isApplicationUpdate = false)
    (hrun : ∀ c, ∀ x ∈ (run c).calls, x.isApplicationUpdate = false)
    (hnext : ∀ p', (∀ x ∈ p'.calls, x.isApplicationUpdate = false) → IssuerFirst (next p').calls) :
    IssuerFirst (Pass.sync p step run next).calls := by
  unfold Pass.sync
  simp only
  have hout := hrun p.cluster
  generalize run p.cluster = out at hout
  have hp₁ := no_app_update_record p step out.cluster out.calls out.result hp hout
  split
  · exact hnext _ hp₁
  · exact issuerFirst_of_no_app_update _ hp₁

theorem Reconcile_issuerFirst (r : ApplicationReconciler) (c : Cluster) (ns name : String)
    (now : Nat) : IssuerFirst (r.Reconcile c ns name now).calls := by
  unfold ApplicationReconciler.Reconcile
  simp only
  split
  · split <;> exact issuerFirst_of_no_app_update _ (by simp [ApiCall.isApplicationUpdate])
  · next app _ =>
    apply sync_issuerFirst _ _ _ _ (by simp [ApiCall.isApplicationUpdate])
      (fun c => reconcileConfigMap_no_app_update r c app)
    intro p₁ h₁
    apply sync_issuerFirst _ _ _ _ h₁ (fun c => reconcileSecret_no_app_update r c app)
    intro p₂ h₂
    apply sync_issuerFirst _ _ _ _ h₂ (fun c => reconcileDeployment_no_app_update r c app)
    intro p₃ h₃
    apply sync_issuerFirst _ _ _ _ h₃ (fun c => reconcileService_no_app_update r c app)
    intro p₄ h₄
    apply sync_issuerFirst _ _ _ _ h₄ (fun c => reconcileIngress_no_app_update r c app)
    intro p₅ h₅
    exact tlsPart_issuerFirst r now app p₅ h₅

/-- C16, as stated, fails: in the first pass of the TLS demo Application, which carries
no finalizer, the issuer is created by the eleventh call and the update that persists
the finalizer is the twelfth. -/
theorem issuer_is_created_before_finalizer_update :
    ¬ (∀ (r : ApplicationReconciler) (c : Cluster) (ns name : String) (now : Nat)
        (app : Application), r.Get c ns name = .ok app →
        isZero app.DeletionTimestamp = true →
        app.Finalizers.contains r.applicationFinalizer = false →
        ∀ (i j : Nat) (x : ClusterIssuer) (y : Application),
          (r.Reconcile c ns name now).calls[i]? = some (.create (.clusterIssuer x)) →
          (r.Reconcile c ns name now).calls[j]? = some (.update (.application y)) →
          j < i) := by
  intro h
  have h' := h plainReconciler tlsCluster "ns1" "demo" 7 tlsApp rfl rfl rfl 10 11
    ((plainReconciler.ReconcileIssuer tlsCluster tlsApp).issuer.getD ClusterIssuer.empty)
    { (plainReconciler.ReconcileIssuer tlsCluster tlsApp).app with
      Finalizers := ["apps.example.com/finalizer"] }
    (by decide) (by decide)
  exact absurd h' (by decide)

/-- C16, amended: in every Reconcile pass, every create of an external issuer is issued
before every update of the Application, the one that persists the added finalizer
included: the finalizer step comes after the TLS steps of the pass. -/
theorem issuer_create_precedes_application_update (r : ApplicationReconciler) (c : Cluster)
    (ns name : String) (now : Nat) (i j : Nat) (x : ClusterIssuer) (y : Application)
    (hi : (r.Reconcile c ns name now).calls[i]? = some (.create (.clusterIssuer x)))
    (hj : (r.Reconcile c ns name now).calls[j]? = some (.update (.application y))) :
    i < j := by
  obtain ⟨A, B, hsplit, hA, hB⟩ := Reconcile_issuerFirst r c ns name now
  rw [hsplit] at hi hj
  have hiA : i < A.length := by
    by_contra hge
    rw [List.getElem?_append_right (by omega)] at hi
    have := hB _ (List.getElem?_mem hi)
    simp [ApiCall.isIssuerCreate] at this
  have hjA : A.length ≤ j := by
    by_contra hlt
    rw [List.getElem?_append_left (by omega)] at hj
    have := hA _ (List.getElem?_mem hj)
    simp [ApiCall.isApplicationUpdate] at this
  omega

/-- The amended C16 at the first pass of the TLS demo Application. -/
theorem issuer_create_precedes_application_update_witness :
    (plainReconciler.Reconcile tlsCluster "ns1" "demo" 7).calls[10]?
        = some (.create (.clusterIssuer
            ((plainReconciler.ReconcileIssuer tlsCluster tlsApp).issuer.getD ClusterIssuer.empty)))
    ∧ (plainReconciler.Reconcile tlsCluster "ns1" "demo" 7).calls[11]?
        = some (.update (.application
            { (plainReconciler.ReconcileIssuer tlsCluster tlsApp).app with
              Finalizers := ["apps.example.com/finalizer"] }))
    ∧ 10 < 11 :=
  ⟨by decide, by decide,
    issuer_create_precedes_application_update plainReconciler tlsCluster "ns1" "demo" 7 10 11
      ((plainReconciler.ReconcileIssuer tlsCluster tlsApp).issuer.getD ClusterIssuer.empty)
      { (plainReconciler.ReconcileIssuer tlsCluster tlsApp).app with
        Finalizers := ["apps.example.com/finalizer"] }
      (by decide) (by decide)⟩

/-! ## Errors of the TLS steps -/

/-- C19 at its failing inputs. With the issuer ready and no Ingress in the spec or the
store, `updateIngressForTLS` fails with a not-found error; with a clientset that fails
the read of the issuer, `ReconcileIssuer` fails with that error. In both passes, and
whether the marker `found` is `Found` or `found`, `Reconcile` returns a nil error, and
neither the finalizer step nor the status write is run. -/
theorem tls_step_errors_are_not_returned :
    (plainReconciler.Reconcile readyCluster "ns1" "demo" 7).steps.map
        (fun rec => (rec.step, rec.result))
      = [(.ConfigMap, .returned none), (.Secret, .returned none), (.Deployment, .returned none),
         (.Service, .returned none), (.Ingress, .returned none),
         (.Issuer, .returned (some { msg := "Found", notFound := false })),
         (.IngressTLS, .returned (some { msg := "demo-ingress not found", notFound := true }))]
    ∧ (plainReconciler.Reconcile readyCluster "ns1" "demo" 7).result = .returned none
    ∧ (({ plainReconciler with found := "found" } : ApplicationReconciler).Reconcile
          readyCluster "ns1" "demo" 7).steps.map (fun rec => (rec.step, rec.result))
      = [(.ConfigMap, .returned none), (.Secret, .returned none), (.Deployment, .returned none),
         (.Service, .returned none), (.Ingress, .returned none),
         (.Issuer, .returned (some { msg := "found", notFound := false })),
         (.IngressTLS, .returned (some { msg := "demo-ingress not found", notFound := true }))]
    ∧ (({ plainReconciler with found := "found" } : ApplicationReconciler).Reconcile
          readyCluster "ns1" "demo" 7).result = .returned none
    ∧ (failingGetReconciler.Reconcile tlsCluster "ns1" "demo" 7).steps.map
        (fun rec => (rec.step, rec.result))
      = [(.ConfigMap, .returned none), (.Secret, .returned none), (.Deployment, .returned none),
         (.Service, .returned none), (.Ingress, .returned none),
         (.Issuer, .returned (some { msg := "connection refused", notFound := false }))]
    ∧ (failingGetReconciler.Reconcile tlsCluster "ns1" "demo" 7).result = .returned none := by
  decide

/-! ## Repeating the status write -/

/-- On a condition list that starts with a condition of type `Available`,
`updateStatus` issues no call and changes nothing. -/
theorem updateStatus_of_available_first (r : ApplicationReconciler) (c : Cluster) (now : Nat)
    (app : Application) (cond : Condition) (rest : List Condition)
    (hc : app.Conditions = cond :: rest) (ht : cond.Type_ = "Available") :
    r.updateStatus c now app = ⟨c, [], app, .returned none⟩ := by
  unfold ApplicationReconciler.updateStatus
  simp [hc, ht, availableCondition]

/-- C21: after a call of `updateStatus` that issued the status update and returned no
error, the condition list is the one Available condition stamped by that call, and a
further call, at any later time and with any client, on the Application in memory or
on the Application as the store now holds it, issues no call, returns no error and
leaves the Application and the store as they are. -/
theorem updateStatus_is_idempotent (r r' : ApplicationReconciler) (c : Cluster)
    (now later : Nat) (app : Application)
    (hwrote : ∃ sent, (r.updateStatus c now app).calls = [.updateStatus (.application sent)])
    (hres : (r.updateStatus c now app).result = .returned none) :
    (r.updateStatus c now app).app.Conditions = [availableCondition now]
    ∧ r'.updateStatus (r.updateStatus c now app).cluster later (r.updateStatus c now app).app
        = ⟨(r.updateStatus c now app).cluster, [], (r.updateStatus c now app).app,
            .returned none⟩
    ∧ ∃ stored : Application,
        (r.updateStatus c now app).cluster.find app.Namespace app.Name = some stored
        ∧ stored.Conditions = [availableCondition now]
        ∧ r'.updateStatus (r.updateStatus c now app).cluster later stored
            = ⟨(r.updateStatus c now app).cluster, [], stored, .returned none⟩ := by
  obtain ⟨sent, hsent⟩ := hwrote
  unfold ApplicationReconciler.updateStatus at hres hsent
  simp only at hres hsent
  split at hres
  · next hcond =>
    rw [if_pos hcond] at hsent
    cases hu : (r.UpdateStatus c { app with Conditions := [availableCondition now] }).2.2 with
    | some err =>
      rw [hu] at hres
      simp at hres
    | none =>
      obtain ⟨stored, h1, h2⟩ := UpdateStatus_ok r c _ hu
      have hfirst : r.updateStatus c now app
          = ⟨(r.UpdateStatus c { app with Conditions := [availableCondition now] }).1,
              [.updateStatus (.application { app with Conditions := [availableCondition now] })],
              (r.UpdateStatus c { app with Conditions := [availableCondition now] }).2.1,
              .returned none⟩ := by
        unfold ApplicationReconciler.updateStatus
        simp only [hcond, if_true, hu]
      rw [hfirst]
      simp only
      refine ⟨by rw [h1], ?_, _, h2, rfl, ?_⟩
      · exact updateStatus_of_available_first r' _ later _ (availableCondition now) []
          (by rw [h1]) rfl
      · exact updateStatus_of_available_first r' _ later _ (availableCondition now) [] rfl rfl
  · next hcond =>
    rw [if_neg hcond] at hsent
    simp at hsent

/-- C21 at the demo Application, whose status is empty: the first call writes, the
second does not. -/
theorem updateStatus_is_idempotent_witness :
    (plainReconciler.updateStatus demoCluster 7 demoApp).calls
      = [.updateStatus (.application { demoApp with Conditions := [availableCondition 7] })]
    ∧ (plainReconciler.updateStatus demoCluster 7 demoApp).result = .returned none
    ∧ ((plainReconciler.updateStatus demoCluster 7 demoApp).app.Conditions
        = [availableCondition 7]
      ∧ plainReconciler.updateStatus (plainReconciler.updateStatus demoCluster 7 demoApp).cluster 9
          (plainReconciler.updateStatus demoCluster 7 demoApp).app
        = ⟨(plainReconciler.updateStatus demoCluster 7 demoApp).cluster, [],
            (plainReconciler.updateStatus demoCluster 7 demoApp).app, .returned none⟩
      ∧ ∃ stored : Application,
          (plainReconciler.updateStatus demoCluster 7 demoApp).cluster.find
            demoApp.Namespace demoApp.Name = some stored
          ∧ stored.Conditions = [availableCondition 7]
          ∧ plainReconciler.updateStatus
              (plainReconciler.updateStatus demoCluster 7 demoApp).cluster 9 stored
            = ⟨(plainReconciler.updateStatus demoCluster 7 demoApp).cluster, [], stored,
                .returned none⟩) :=
  ⟨by decide, by decide,
    updateStatus_is_idempotent plainReconciler plainReconciler demoCluster 7 9 demoApp
      ⟨{ demoApp with Conditions := [availableCondition 7] }, by decide⟩ (by decide)⟩

/-! ## The end-to-end scenario, one pass -/

/-- C22: on the store that holds only the Application of the end-to-end scenario, one
Reconcile pass of a reconciler whose client does not fail returns no error and leaves
ConfigMap `demo-config` with data `MODE: prod`, Deployment `demo-deployment` whose one
container has the one env entry `MODE` referencing key `MODE` of `demo-config`, Service
`demo-service` with port 80 targeting 8080, Ingress `demo-ingress` with the one rule
`demo.example.com`, path `/`, backend `demo-service:80`, no Secret, and the status
condition Available/True. -/
theorem end_to_end_scenario (r : ApplicationReconciler) (now : Nat)
    (hclient : r.fault = fun _ => none) :
    (r.Reconcile scenarioCluster "ns1" "demo" now).result = .returned none
    ∧ (r.Reconcile scenarioCluster "ns1" "demo" now).cluster.configMaps.map
          (fun cm => (cm.ObjectMeta.Namespace, cm.ObjectMeta.Name, cm.Data))
        = [("ns1", "demo-config", [("MODE", "prod")])]
    ∧ (r.Reconcile scenarioCluster "ns1" "demo" now).cluster.deployments.map
          (fun d => (d.ObjectMeta.Namespace, d.ObjectMeta.Name,
            d.Spec.Template.Spec.Containers.map (fun ctr => ctr.Env)))
        = [("ns1", "demo-deployment",
            [[{ Name := "MODE", Value := "", ValueFrom := configMapRef "demo-config" "MODE" }]])]
    ∧ (r.Reconcile scenarioCluster "ns1" "demo" now).cluster.services.map
          (fun s => (s.ObjectMeta.Namespace, s.ObjectMeta.Name, s.Spec.Ports))
        = [("ns1", "demo-service",
            [{ Name := "http", Port := 80, TargetPort := .int 8080, Protocol := "TCP" }])]
    ∧ (r.Reconcile scenarioCluster "ns1" "demo" now).cluster.ingresses.map
          (fun i => (i.ObjectMeta.Namespace, i.ObjectMeta.Name, i.Spec.Rules))
        = [("ns1", "demo-ingress",
            [{ Host := "demo.example.com",
               HTTP := some
                 { Paths :=
                     [{ Path := "/", PathType := some "Prefix",
                        Backend :=
                          { Service := some
                              { Name := "demo-service",
                                Port := { Name := "", Number := 80 } } } }] } }])]
    ∧ (r.Reconcile scenarioCluster "ns1" "demo" now).cluster.secrets = []
    ∧ (r.Reconcile scenarioCluster "ns1" "demo" now).cluster.applications.map
          (fun a => (a.Namespace, a.Name, a.Conditions.map (fun cond => (cond.Type_, cond.Status))))
        = [("ns1", "demo", [("Available", "True")])] := by
  obtain ⟨gv, mp, fault, cs, found, tv, fin⟩ := r
  simp only at hclient
  subst hclient
  simp [ApplicationReconciler.Reconcile, scenarioCluster, noReplicasApp, demoApp,
    ApplicationReconciler.Get, ApplicationReconciler.Create, ApplicationReconciler.Patch,
    Cluster.find, Cluster.insert, Cluster.replace, Cluster.empty, hasKey, Resource.sel,
    Resource.upd, Resource.objectMeta, Resource.kind, Resource.wrap, Pass.sync, Pass.record,
    Pass.stop, ApplicationReconciler.reconcileConfigMap, ApplicationReconciler.reconcileSecret,
    ApplicationReconciler.reconcileDeployment, ApplicationReconciler.reconcileService,
    ApplicationReconciler.reconcileIngress, ApplicationReconciler.buildDeployment,
    ApplicationReconciler.buildResourceRequirements, deploymentEnvVars, getConfigMapData,
    getSecretData, HasPrefix, TrimPrefix, GoMap.set, GoMap.len, CreateOrUpdate, mutate,
    getConfigMapName, getSecretName, getDeploymentName, getServiceName, getIngressName,
    errNotFound, Outcome.wrapErr, ApplicationReconciler.tlsPart, ApplicationReconciler.finishPass,
    ApplicationReconciler.ensureApplicationFinalizer, ApplicationReconciler.updateStatus,
    ApplicationReconciler.UpdateApplication, ApplicationReconciler.UpdateStatus, isZero,
    availableCondition, configMapRef, ingressClassName, networkingv1.PathTypePrefix,
    corev1.ServiceTypeClusterIP, corev1.ProtocolTCP]

/-- C22 at the plain reconciler, at time 7. -/
theorem end_to_end_scenario_witness :
    (plainReconciler.fault = fun _ => none)
    ∧ (plainReconciler.Reconcile scenarioCluster "ns1" "demo" 7).result = .returned none
    ∧ (plainReconciler.Reconcile scenarioCluster "ns1" "demo" 7).cluster.configMaps.map
          (fun cm => (cm.ObjectMeta.Namespace, cm.ObjectMeta.Name, cm.Data))
        = [("ns1", "demo-config", [("MODE", "prod")])] :=
  ⟨rfl, (end_to_end_scenario plainReconciler 7 rfl).1,
    (end_to_end_scenario plainReconciler 7 rfl).2.1⟩

/-! ## Error and nil paths of the steps -/

/-- C25 fails on the code: with no `CM_` entry, no `SEC_` entry and no `ingress`
section left in the spec, and the ConfigMap, the Secret and the Ingress of an earlier
pass in the store, each synchronizer reads the resource, deletes it (the store no
longer holds it) and still returns an error, the wrapping of the nil error of the
delete; the Reconcile pass stops at the ConfigMap step and returns that error, and
a pass on the store it left stops at the Secret step in the same way. -/
theorem successful_delete_is_returned_as_error :
    (leftoverCluster.configMaps.length, leftoverCluster.secrets.length,
        leftoverCluster.ingresses.length) = (1, 1, 1)
    ∧ (plainReconciler.reconcileConfigMap leftoverCluster bareApp).calls.map ApiCall.isWrite
        = [false, true]
    ∧ (plainReconciler.reconcileConfigMap leftoverCluster bareApp).cluster.configMaps = []
    ∧ (plainReconciler.reconcileConfigMap leftoverCluster bareApp).result
        = .returned (some
            { msg := "configmap found but there is no configmap in env, failed to delete ConfigMap: %!w(<nil>)",
              notFound := false })
    ∧ (plainReconciler.reconcileSecret leftoverCluster bareApp).calls.map ApiCall.isWrite
        = [false, true]
    ∧ (plainReconciler.reconcileSecret leftoverCluster bareApp).cluster.secrets = []
    ∧ (plainReconciler.reconcileSecret leftoverCluster bareApp).result
        = .returned (some
            { msg := "secret found but there is no secret in env, failed to delete Secret: %!w(<nil>)",
              notFound := false })
    ∧ (plainReconciler.reconcileIngress leftoverCluster bareApp).calls.map ApiCall.isWrite
        = [false, true]
    ∧ (plainReconciler.reconcileIngress leftoverCluster bareApp).cluster.ingresses = []
    ∧ (plainReconciler.reconcileIngress leftoverCluster bareApp).result
        = .returned (some { msg := "failed to delete Ingress: %!w(<nil>)", notFound := false })
    ∧ (plainReconciler.Reconcile leftoverCluster "ns1" "demo" 8).steps.map
          (fun rec => (rec.step, rec.result))
        = [(.ConfigMap, .returned (some
            { msg := "configmap found but there is no configmap in env, failed to delete ConfigMap: %!w(<nil>)",
              notFound := false }))]
    ∧ (plainReconciler.Reconcile leftoverCluster "ns1" "demo" 8).result
        = .returned (some
            { msg := "configmap found but there is no configmap in env, failed to delete ConfigMap: %!w(<nil>)",
              notFound := false })
    ∧ (plainReconciler.Reconcile
          (plainReconciler.Reconcile leftoverCluster "ns1" "demo" 8).cluster "ns1" "demo" 9).steps.map
          (fun rec => (rec.step, rec.result))
        = [(.ConfigMap, .returned none),
           (.Secret, .returned (some
            { msg := "secret found but there is no secret in env, failed to delete Secret: %!w(<nil>)",
              notFound := false }))] := by
  decide

/-- C27 fails on the code: for the Application with `spec.ingress` set and
`spec.service` absent, `reconcileIngress` reads the Ingress and then panics inside its
mutate function, on `app.Spec.Service.Port`, on the empty store and on a store that
holds the Ingress alike; `reconcileService` before it returns without a call, and the
Reconcile pass ends in the panic of the Ingress step. -/
theorem reconcileIngress_panics_without_service :
    noServiceApp.Spec.Ingress
        = some { Host := "demo.example.com", Path := "/", Annotations := [] }
    ∧ noServiceApp.Spec.Service = none
    ∧ (plainReconciler.reconcileIngress Cluster.empty noServiceApp).calls
        = [.get .Ingress "ns1" "demo-ingress"]
    ∧ (plainReconciler.reconcileIngress Cluster.empty noServiceApp).result = .panicked
    ∧ (plainReconciler.reconcileIngress twoHostCluster noServiceApp).calls
        = [.get .Ingress "ns1" "demo-ingress"]
    ∧ (plainReconciler.reconcileIngress twoHostCluster noServiceApp).result = .panicked
    ∧ (plainReconciler.reconcileService noServiceCluster noServiceApp)
        = ⟨noServiceCluster, [], .returned none⟩
    ∧ (plainReconciler.Reconcile noServiceCluster "ns1" "demo" 7).steps.map
          (fun rec => (rec.step, rec.result))
        = [(.ConfigMap, .returned none), (.Secret, .returned none),
           (.Deployment, .returned none), (.Service, .returned none), (.Ingress, .panicked)]
    ∧ (plainReconciler.Reconcile noServiceCluster "ns1" "demo" 7).result = .panicked := by
  decide

/-- C28 fails on the code: with the cert-manager clientset missing, with a create of
the issuer that fails, and with an update of the issuer that fails, `ReconcileIssuer`
returns an error that is not the marker `found` together with a nil issuer, and
`Reconcile` panics on the name of that issuer in its log line; only the failed get
comes with a non-nil issuer, and `Reconcile` then returns. -/
theorem genuine_issuer_errors_come_with_nil_issuer :
    ((noClientReconciler.ReconcileIssuer tlsCluster tlsApp).issuer,
        (noClientReconciler.ReconcileIssuer tlsCluster tlsApp).result)
      = (none, .returned (some { msg := "failed to get certmanager client", notFound := false }))
    ∧ (noClientReconciler.Reconcile tlsCluster "ns1" "demo" 7).result = .panicked
    ∧ ((failingCreateReconciler.ReconcileIssuer tlsCluster tlsApp).issuer,
        (failingCreateReconciler.ReconcileIssuer tlsCluster tlsApp).result)
      = (none, .returned (some
          { msg := "the server is currently unable to handle the request", notFound := false }))
    ∧ (failingCreateReconciler.Reconcile tlsCluster "ns1" "demo" 7).result = .panicked
    ∧ ((failingUpdateReconciler.ReconcileIssuer issuerCluster tlsApp).issuer,
        (failingUpdateReconciler.ReconcileIssuer issuerCluster tlsApp).result)
      = (none, .returned (some
          { msg := "the server is currently unable to handle the request", notFound := false }))
    ∧ (failingUpdateReconciler.Reconcile issuerCluster "ns1" "demo" 7).result = .panicked
    ∧ (failingUpdateReconciler.Reconcile issuerCluster "ns1" "demo" 7).steps.map
          (fun rec => (rec.step, rec.result))
        = [(.ConfigMap, .returned none), (.Secret, .returned none),
           (.Deployment, .returned none), (.Service, .returned none), (.Ingress, .returned none),
           (.Issuer, .returned (some
              { msg := "the server is currently unable to handle the request",
                notFound := false }))]
    ∧ ((failingGetReconciler.ReconcileIssuer issuerCluster tlsApp).issuer,
        (failingGetReconciler.ReconcileIssuer issuerCluster tlsApp).result)
      = (some ClusterIssuer.empty, .returned (some { msg := "connection refused", notFound := false }))
    ∧ (failingGetReconciler.Reconcile issuerCluster "ns1" "demo" 7).result = .returned none
    ∧ plainReconciler.found ≠ "failed to get certmanager client"
    ∧ plainReconciler.found ≠ "the server is currently unable to handle the request" := by
  decide

/-- C29 fails on the code: in the first pass of the TLS demo Application, whose spec
names no solver and whose issuer is absent, `ReconcileIssuer` creates the issuer and
leaves the in-memory Application with the kong HTTP-01 solver in
`spec.tls.issuer.acmeIssuer.solvers`; the update by which `ensureApplicationFinalizer`
persists the finalizer sends that spec, and the store then holds it. -/
theorem issuer_create_rewrites_application_spec :
    (tlsCluster.find "ns1" "demo" : Option Application) = some tlsApp
    ∧ (tlsApp.Spec.TLS.bind (fun tls => tls.Issuer)).map (fun iss => iss.ACMEIssuer.Solvers)
        = some []
    ∧ (plainReconciler.ReconcileIssuer
          (plainReconciler.reconcileIngress tlsCluster tlsApp).cluster tlsApp).result
        = .returned none
    ∧ ((plainReconciler.ReconcileIssuer tlsCluster tlsApp).app.Spec.TLS.bind
          (fun tls => tls.Issuer)).map (fun iss => iss.ACMEIssuer.Solvers)
        = some [⟨some "kong"⟩]
    ∧ (plainReconciler.ReconcileIssuer tlsCluster tlsApp).app.Spec ≠ tlsApp.Spec
    ∧ (plainReconciler.Reconcile tlsCluster "ns1" "demo" 7).result = .returned none
    ∧ (plainReconciler.Reconcile tlsCluster "ns1" "demo" 7).calls.filter
          ApiCall.isApplicationUpdate
        = [.update (.application
            { (plainReconciler.ReconcileIssuer tlsCluster tlsApp).app with
              Finalizers := ["apps.example.com/finalizer"] })]
    ∧ (plainReconciler.Reconcile tlsCluster "ns1" "demo" 7).cluster.applications.map
          (fun a => (a.Spec.TLS.bind (fun tls => tls.Issuer)).map
            (fun iss => iss.ACMEIssuer.Solvers))
        = [some [⟨some "kong"⟩]]
    ∧ (plainReconciler.Reconcile tlsCluster "ns1" "demo" 7).cluster.applications.map
          (fun a => decide (a.Spec = tlsApp.Spec))
        = [false] := by
  decide

/-! ## The keys the Deployment references -/

/-- The keys of the ConfigMap data are the names routed to it, stripped. -/
theorem mem_keys_getConfigMapData (envVars : List EnvVar) (pre k : String) :
    k ∈ (getConfigMapData envVars pre).keys ↔ ∃ e ∈ envVars, e.Name = pre ++ k := by
  rw [GoMap.mem_keys_iff]
  unfold getConfigMapData
  rw [lookup_fold_routed (fun v => v) pre envVars k, Option.isSome_map',
    isSome_getLast?_filter_iff]
  simp

/-- The keys of the Secret data are the names routed to it, stripped. -/
theorem mem_keys_getSecretData (envVars : List EnvVar) (pre k : String) :
    k ∈ (getSecretData envVars pre).keys ↔ ∃ e ∈ envVars, e.Name = pre ++ k := by
  rw [GoMap.mem_keys_iff]
  unfold getSecretData
  rw [lookup_fold_routed bytesOf pre envVars k, Option.isSome_map',
    isSome_getLast?_filter_iff]
  simp

/-- A name routed to the Secret is not routed to the ConfigMap. -/
theorem not_hasPrefix_CM_of_SEC (k : String) : HasPrefix ("SEC_" ++ k) "CM_" = false := by
  simp [HasPrefix, List.isPrefixOf]

/-- C26: the one container of the Deployment built by `reconcileDeployment` references
only stored keys, and all of them: every ConfigMap key reference of an env entry names
`<app>-config` and a key of `getConfigMapData(spec.envVars, "CM_")`, every Secret key
reference names `<app>-secret` and a key of `getSecretData(spec.envVars, "SEC_")`, and
every key of either map is referenced by an env entry of the container. -/
theorem deployment_references_stored_keys (r : ApplicationReconciler) (app : Application)
    (d : appsv1.Deployment) (hd : r.buildDeployment app = some d) :
    ∃ ctr, d.Spec.Template.Spec.Containers = [ctr]
      ∧ (∀ x ∈ ctr.Env, ∀ (src : corev1.EnvVarSource) (sel : corev1.ConfigMapKeySelector),
          x.ValueFrom = some src → src.ConfigMapKeyRef = some sel →
            sel.Name = getConfigMapName app
            ∧ sel.Key ∈ (getConfigMapData app.Spec.EnvVars "CM_").keys)
      ∧ (∀ x ∈ ctr.Env, ∀ (src : corev1.EnvVarSource) (sel : corev1.SecretKeySelector),
          x.ValueFrom = some src → src.SecretKeyRef = some sel →
            sel.Name = getSecretName app
            ∧ sel.Key ∈ (getSecretData app.Spec.EnvVars "SEC_").keys)
      ∧ (∀ k ∈ (getConfigMapData app.Spec.EnvVars "CM_").keys, ∃ x ∈ ctr.Env,
          x.ValueFrom = some
            { ConfigMapKeyRef := some { Name := getConfigMapName app, Key := k },
              SecretKeyRef := none })
      ∧ (∀ k ∈ (getSecretData app.Spec.EnvVars "SEC_").keys, ∃ x ∈ ctr.Env,
          x.ValueFrom = some
            { ConfigMapKeyRef := none,
              SecretKeyRef := some { Name := getSecretName app, Key := k } }) := by
  have henv := buildDeployment_env r app d hd
  cases hc : d.Spec.Template.Spec.Containers with
  | nil => rw [hc] at henv; simp at henv
  | cons ctr rest =>
    rw [hc] at henv
    simp only [List.map_cons, List.cons.injEq, List.map_eq_nil_iff] at henv
    obtain ⟨hEnv, hrest⟩ := henv
    subst hrest
    refine ⟨ctr, rfl, ?_, ?_, ?_, ?_⟩
    · intro x hx src sel hsrc hsel
      rw [hEnv, deploymentEnvVars_eq_map, List.mem_map] at hx
      obtain ⟨e, he, hfe⟩ := hx
      by_cases h1 : HasPrefix e.Name "CM_" = true
      · rw [if_pos h1] at hfe
        subst hfe
        simp only [Option.some.injEq] at hsrc
        subst hsrc
        simp only [Option.some.injEq] at hsel
        subst hsel
        refine ⟨rfl, (mem_keys_getConfigMapData _ _ _).2 ⟨e, he, ?_⟩⟩
        exact (append_trimPrefix e.Name "CM_" h1).symm
      · rw [if_neg h1] at hfe
        by_cases h2 : HasPrefix e.Name "SEC_" = true
        · rw [if_pos h2] at hfe
          subst hfe
          simp only [Option.some.injEq] at hsrc
          subst hsrc
          simp at hsel
        · rw [if_neg h2] at hfe
          subst hfe
          simp at hsrc
    · intro x hx src sel hsrc hsel
      rw [hEnv, deploymentEnvVars_eq_map, List.mem_map] at hx
      obtain ⟨e, he, hfe⟩ := hx
      by_cases h1 : HasPrefix e.Name "CM_" = true
      · rw [if_pos h1] at hfe
        subst hfe
        simp only [Option.some.injEq] at hsrc
        subst hsrc
        simp at hsel
      · rw [if_neg h1] at hfe
        by_cases h2 : HasPrefix e.Name "SEC_" = true
        · rw [if_pos h2] at hfe
          subst hfe
          simp only [Option.some.injEq] at hsrc
          subst hsrc
          simp only [Option.some.injEq] at hsel
          subst hsel
          refine ⟨rfl, (mem_keys_getSecretData _ _ _).2 ⟨e, he, ?_⟩⟩
          exact (append_trimPrefix e.Name "SEC_" h2).symm
        · rw [if_neg h2] at hfe
          subst hfe
          simp at hsrc
    · intro k hk
      obtain ⟨e, he, hn⟩ := (mem_keys_getConfigMapData _ _ _).1 hk
      have h1 := (routed_iff e.Name "CM_" k).2 hn
      rw [hEnv, deploymentEnvVars_eq_map]
      refine ⟨_, List.mem_map_of_mem _ he, ?_⟩
      rw [if_pos h1.1, h1.2]
    · intro k hk
      obtain ⟨e, he, hn⟩ := (mem_keys_getSecretData _ _ _).1 hk
      have h1 := (routed_iff e.Name "SEC_" k).2 hn
      have h0 : ¬ HasPrefix e.Name "CM_" = true := by
        rw [hn, not_hasPrefix_CM_of_SEC]
        simp
      rw [hEnv, deploymentEnvVars_eq_map]
      refine ⟨_, List.mem_map_of_mem _ he, ?_⟩
      rw [if_neg h0, if_pos h1.1, h1.2]

/-- C26 at the Application with one ConfigMap entry and one Secret entry. -/
theorem deployment_references_stored_keys_witness :
    (getConfigMapData routedApp.Spec.EnvVars "CM_").keys = ["MODE"]
    ∧ (getSecretData routedApp.Spec.EnvVars "SEC_").keys = ["KEY"]
    ∧ ∃ ctr, ((plainReconciler.buildDeployment routedApp).getD
          ⟨⟨"", ""⟩, ⟨"", "", [], [], []⟩, ⟨none, none, ⟨[], ⟨[]⟩⟩⟩⟩).Spec.Template.Spec.Containers
        = [ctr]
      ∧ (∀ x ∈ ctr.Env, ∀ (src : corev1.EnvVarSource) (sel : corev1.ConfigMapKeySelector),
          x.ValueFrom = some src → src.ConfigMapKeyRef = some sel →
            sel.Name = getConfigMapName routedApp
            ∧ sel.Key ∈ (getConfigMapData routedApp.Spec.EnvVars "CM_").keys)
      ∧ (∀ x ∈ ctr.Env, ∀ (src : corev1.EnvVarSource) (sel : corev1.SecretKeySelector),
          x.ValueFrom = some src → src.SecretKeyRef = some sel →
            sel.Name = getSecretName routedApp
            ∧ sel.Key ∈ (getSecretData routedApp.Spec.EnvVars "SEC_").keys)
      ∧ (∀ k ∈ (getConfigMapData routedApp.Spec.EnvVars "CM_").keys, ∃ x ∈ ctr.Env,
          x.ValueFrom = some
            { ConfigMapKeyRef := some { Name := getConfigMapName routedApp, Key := k },
              SecretKeyRef := none })
      ∧ (∀ k ∈ (getSecretData routedApp.Spec.EnvVars "SEC_").keys, ∃ x ∈ ctr.Env,
          x.ValueFrom = some
            { ConfigMapKeyRef := none,
              SecretKeyRef := some { Name := getSecretName routedApp, Key := k } }) :=
  ⟨by decide, by decide,
    deployment_references_stored_keys plainReconciler routedApp _ (by decide)⟩

end Operator

namespace Backend

open Operator (GoMap)

/-! ## The token validation handler -/

/-- C23: when the `Authorization` header is `Bearer ` followed by a non-empty token
`t`, `ValidateToken` calls the auth service once, with exactly `t`, and, the service
returning a user and no error, answers 200 with that user under the key `user` (and
the user id in the header `X-User-Id`); when the request has no `Authorization`
header, it answers 401 and the service is not called. -/
theorem validateToken_strips_bearer {σ : Type} (authService : IAuthService σ) (s : σ)
    (c : Context) :
    (∀ t : String, t ≠ "" → c.GetHeader "Authorization" = "Bearer " ++ t →
      (AuthHandler.ValidateToken authService s c).calls = [.ValidateToken t]
      ∧ ∀ (s' : σ) (user : models.User),
          authService.ValidateToken s t = (s', some user, none) →
          (AuthHandler.ValidateToken authService s c).state = s'
          ∧ (AuthHandler.ValidateToken authService s c).response
              = some
                  { Status := 200,
                    Header := [("X-User-Id", [Itoa user.ID]),
                      ("Content-Type", ["application/json; charset=utf-8"])],
                    Body := .H [("user", .user user)] })
    ∧ (c.Header.lookup "Authorization" = none →
      (AuthHandler.ValidateToken authService s c).state = s
      ∧ (AuthHandler.ValidateToken authService s c).calls = []
      ∧ (AuthHandler.ValidateToken authService s c).response
          = some
              { Status := 401,
                Header := [("Content-Type", ["application/json; charset=utf-8"])],
                Body := .H [("error", .str "authorization header required")] }) := by
  constructor
  · intro t ht hhdr
    have hne : ¬ ("Bearer " ++ t = "") := by
      intro h
      have hlen := congrArg String.length h
      rw [String.length_append] at hlen
      have h7 : "Bearer ".length = 7 := by decide
      rw [h7] at hlen
      have h0 : "".length = 0 := by decide
      omega
    have hlen : ("Bearer " ++ t).data.length > 7 := by
      have : t.data ≠ [] := fun h => ht (String.ext h)
      have := List.length_pos.2 this
      simp only [String.data_append, List.length_append]
      show 7 + t.data.length > 7
      omega
    have htake : String.mk (("Bearer " ++ t).data.take 7) = "Bearer " := by
      apply String.ext
      simp only [String.data_append]
      exact List.take_left' rfl
    have hdrop : String.mk (("Bearer " ++ t).data.drop 7) = t := by
      apply String.ext
      simp only [String.data_append]
      exact List.drop_left' rfl
    unfold AuthHandler.ValidateToken
    simp only [hhdr, if_neg hne, hlen, htake, hdrop, and_self, if_true]
    constructor
    · split <;> rfl
    · intro s' user hsvc
      rw [hsvc]
      exact ⟨rfl, rfl⟩
  · intro hno
    have hhdr : c.GetHeader "Authorization" = "" := by
      unfold Context.GetHeader
      rw [hno]
    unfold AuthHandler.ValidateToken
    simp only [hhdr, if_true]
    refine ⟨?_, ?_, ?_⟩ <;> first | rfl | trivial

/-- C23 at the request of the handler test, `Authorization: Bearer some-jwt-token`,
and at the same request without the header. -/
theorem validateToken_strips_bearer_witness :
    (AuthHandler.ValidateToken tokenService () bearerRequest).calls
        = [.ValidateToken "some-jwt-token"]
    ∧ ((AuthHandler.ValidateToken tokenService () bearerRequest).response.map
          (fun resp => (resp.Status, resp.Body)))
        = some (200, .H [("user", .user
            { ID := 1, Email := "test@example.com", Password := "", FirstName := "",
              LastName := "", IsActive := true, CreatedAt := 0, UpdatedAt := 0,
              DeletedAt := none })])
    ∧ (AuthHandler.ValidateToken tokenService () { bearerRequest with Header := [] }).calls = []
    ∧ ((AuthHandler.ValidateToken tokenService () { bearerRequest with Header := [] }).response.map
          (fun resp => resp.Status)) = some 401 :=
  have h := validateToken_strips_bearer tokenService () bearerRequest
  have h' := validateToken_strips_bearer tokenService () { bearerRequest with Header := [] }
  have h1 := h.1 "some-jwt-token" (by decide) (by decide)
  have h2 := h1.2 () _ rfl
  have h3 := h'.2 rfl
  ⟨h1.1, by rw [h2.2]; rfl, h3.2.1, by rw [h3.2.2]; rfl⟩

/-! ## The order handlers -/

/-- C24 fails on the code: order 1 belongs to user 1 and the order service returns it
for the path id. On the request of the handler test, which carries no caller id,
`GetOrder` answers 400 `invalid user ID` and never asks the service for the order; for
the caller 2 it fetches the order and answers 403; only for the caller 1 does it answer
200 with the order. -/
theorem getOrder_answers_400_and_403_for_a_stored_order :
    ParseUint (testRequest.Param "id") 32 = some 1
    ∧ tableService.GetOrder [mockOrder] 1 = ([mockOrder], some mockOrder, none)
    ∧ (OrderHandler.GetOrder tableService [mockOrder] testRequest).calls = [.ValidateUserID ""]
    ∧ (OrderHandler.GetOrder tableService [mockOrder] testRequest).response.map
        (fun resp => (resp.Status, resp.Body))
      = some (400, .H [("error", .str "invalid user ID")])
    ∧ (OrderHandler.GetOrder tableService [mockOrder] (orderRequest "2")).calls
      = [.ValidateUserID "2", .GetOrder 1]
    ∧ (OrderHandler.GetOrder tableService [mockOrder] (orderRequest "2")).response.map
        (fun resp => (resp.Status, resp.Body))
      = some (403, .H [("error", .str "unauthorized access to order")])
    ∧ (OrderHandler.GetOrder tableService [mockOrder] (orderRequest "1")).response.map
        (fun resp => (resp.Status, resp.Body))
      = some (200, .value (.order mockOrder)) := by
  decide

/-- What `GetOrder` answers once the caller id validates and the path id parses as an
order id: 404 whenever the order service's `GetOrder` returns an error, and 200 with
the order whenever it returns an order whose `UserID` is the caller id. -/
theorem getOrder_answers {σ : Type} (orderService : IOrderService σ) (s s₁ : σ) (c : Context)
    (userID orderID : Nat)
    (hvalid : orderService.ValidateUserID s (c.GetString "user_id") = (s₁, userID, none))
    (hid : ParseUint (c.Param "id") 32 = some orderID) :
    (∀ (s₂ : σ) (order : models.Order),
      orderService.GetOrder s₁ orderID = (s₂, some order, none) → order.UserID = userID →
      (OrderHandler.GetOrder orderService s c).state = s₂
      ∧ (OrderHandler.GetOrder orderService s c).response
          = some
              { Status := 200,
                Header := [("Content-Type", ["application/json; charset=utf-8"])],
                Body := .value (.order order) })
    ∧ (∀ (s₂ : σ) (order : Option models.Order) (err : String),
      orderService.GetOrder s₁ orderID = (s₂, order, some err) →
      (OrderHandler.GetOrder orderService s c).state = s₂
      ∧ (OrderHandler.GetOrder orderService s c).response
          = some
              { Status := 404,
                Header := [("Content-Type", ["application/json; charset=utf-8"])],
                Body := .H [("error", .str "order not found")] }) := by
  constructor
  · intro s₂ order hget hown
    unfold OrderHandler.GetOrder
    simp only [hvalid, hid, hget, hown, ne_eq, not_true_eq_false, if_false]
    refine ⟨?_, ?_⟩ <;> first | rfl | trivial
  · intro s₂ order err hget
    unfold OrderHandler.GetOrder
    simp only [hvalid, hid, hget]
    refine ⟨?_, ?_⟩ <;> first | rfl | trivial

/-- C30: when the caller id validates, the path id parses and the order fetched for it
has a `UserID` other than the caller id, each of `GetOrder`, `UpdateOrder` and
`DeleteOrder` answers 403 with the error body alone, has called the service only to
validate the caller id and to fetch the order, and leaves the service in the state of
that fetch: neither `UpdateOrder` nor `DeleteOrder` was invoked. -/
theorem order_handlers_enforce_ownership {σ : Type} (orderService : IOrderService σ)
    (s s₁ s₂ : σ) (c : Context) (userID orderID : Nat) (order : models.Order)
    (hvalid : orderService.ValidateUserID s (c.GetString "user_id") = (s₁, userID, none))
    (hid : ParseUint (c.Param "id") 32 = some orderID)
    (hget : orderService.GetOrder s₁ orderID = (s₂, some order, none))
    (hother : order.UserID ≠ userID) :
    ∀ handler ∈ [OrderHandler.GetOrder orderService s c, OrderHandler.UpdateOrder orderService s c,
        OrderHandler.DeleteOrder orderService s c],
      handler.state = s₂
      ∧ handler.calls = [.ValidateUserID (c.GetString "user_id"), .GetOrder orderID]
      ∧ handler.response
          = some
              { Status := 403,
                Header := [("Content-Type", ["application/json; charset=utf-8"])],
                Body := .H [("error", .str "unauthorized access to order")] }
      ∧ (∀ (id : Nat) (req : UpdateOrderRequest), OrderCall.UpdateOrder id req ∉ handler.calls)
      ∧ (∀ id : Nat, OrderCall.DeleteOrder id ∉ handler.calls) := by
  have hg : OrderHandler.GetOrder orderService s c
      = ⟨s₂, [.ValidateUserID (c.GetString "user_id"), .GetOrder orderID],
          some (JSON [] 403 (.H [("error", .str "unauthorized access to order")]))⟩ := by
    unfold OrderHandler.GetOrder
    simp only [hvalid, hid, hget, if_pos hother]
  have hu : OrderHandler.UpdateOrder orderService s c
      = ⟨s₂, [.ValidateUserID (c.GetString "user_id"), .GetOrder orderID],
          some (JSON [] 403 (.H [("error", .str "unauthorized access to order")]))⟩ := by
    unfold OrderHandler.UpdateOrder
    simp only [hvalid, hid, hget, if_pos hother]
  have hd : OrderHandler.DeleteOrder orderService s c
      = ⟨s₂, [.ValidateUserID (c.GetString "user_id"), .GetOrder orderID],
          some (JSON [] 403 (.H [("error", .str "unauthorized access to order")]))⟩ := by
    unfold OrderHandler.DeleteOrder
    simp only [hvalid, hid, hget, if_pos hother]
  intro handler hmem
  simp only [List.mem_cons, List.mem_singleton, List.not_mem_nil, or_false] at hmem
  rcases hmem with h | h | h <;> subst h
  · rw [hg]
    exact ⟨rfl, rfl, rfl, by simp, by simp⟩
  · rw [hu]
    exact ⟨rfl, rfl, rfl, by simp, by simp⟩
  · rw [hd]
    exact ⟨rfl, rfl, rfl, by simp, by simp⟩

/-- C30 at the request of caller 2 for order 1, which belongs to user 1: the update
is refused and the table is as it was. -/
theorem order_handlers_enforce_ownership_witness :
    (OrderHandler.UpdateOrder tableService [mockOrder] (orderRequest "2")).state = [mockOrder]
    ∧ (OrderHandler.UpdateOrder tableService [mockOrder] (orderRequest "2")).calls
        = [.ValidateUserID "2", .GetOrder 1]
    ∧ (OrderHandler.UpdateOrder tableService [mockOrder] (orderRequest "2")).response.map
        (fun resp => (resp.Status, resp.Body))
      = some (403, .H [("error", .str "unauthorized access to order")]) :=
  have h := order_handlers_enforce_ownership tableService [mockOrder] [mockOrder] [mockOrder]
    (orderRequest "2") 2 1 mockOrder (by decide) (by decide) (by decide) (by decide)
    (OrderHandler.UpdateOrder tableService [mockOrder] (orderRequest "2")) (by simp)
  ⟨h.1, h.2.1, by rw [h.2.2.1]; rfl⟩

end Backend
